import Mathlib

/-!
# svxlink: DV3K device framing (AsyncAudioCodecAmbe.cpp) and USRP logic (UsrpLogic.cpp)

A shallow embedding of the two source units and the properties checked on it.

Conventions of the embedding

* A byte of a `char` buffer is a natural number `0..255`.  Whether plain `char`
  is signed is implementation defined, so every place where the source
  promotes a `char` to `int` goes through `charVal sgn`, with `sgn = true` for
  a platform with signed `char`.
* `uint32_t` arithmetic is written with an explicit `% 2 ^ 32`, `size_t`
  arithmetic with `% 2 ^ 64`.
* `callback` is embedded twice.  `Dv3k.callbackMem` follows the source: a
  `Buffer<>` is a pointer and a length, `t_buffer` keeps the pointer of the
  caller, and every copy is made in the memory of the caller.  `Dv3k.callback`
  is the same function on byte values, with the pending bytes held as a list:
  it tells what the branches of `callback` decide and which bytes they take
  when the bytes of the pending chunk are still at their address, with room
  behind them.  The two agree wherever the pending buffer is not read
  (`Dv3k.callbackMem_start`), and every frame dispatched is dispatched in the
  same way (`Dv3k.callbackMem_dispatches`); they differ where the memory of
  the caller has changed between two calls.
* `assert` is taken to be active: a failing assertion ends the program.
* `atoi` is the one of the GNU C library with a 64-bit `long`.
-/

namespace Dv3k

/-! ## Constants of `AudioCodecAmbeDv3k` -/

def DV3K_TYPE_CONTROL : Nat := 0x00
def DV3K_TYPE_AMBE : Nat := 0x01
def DV3K_TYPE_AUDIO : Nat := 0x02
def DV3K_HEADER_LEN : Nat := 0x04
def DV3K_START_BYTE : Nat := 0x61
def DV3K_CONTROL_PRODID : Nat := 0x30
def DV3K_CONTROL_VERSTRING : Nat := 0x31

/-- The value of a `char` holding byte `b` after integer promotion. -/
def charVal (sgn : Bool) (b : Nat) : Int :=
  if sgn && decide (128 ≤ b % 256) then ((b % 256 : Nat) : Int) - 256 else ((b % 256 : Nat) : Int)

/-- Conversion of an `int` to `uint32_t`. -/
def toU32 (i : Int) : Nat := (i % 2 ^ 32).toNat

/-- The handshake states, `enum STATE`. -/
inductive STATE where
  | OFFLINE | RESET | INIT | PRODID | VERSID | READY | WARNING | ERROR
  deriving DecidableEq, Repr

/-- What one call makes visible outside the session object. -/
inductive Effect where
  /-- A call `send(packet)` on the transport. -/
  | send (packet : List Nat)
  /-- A call `AudioDecoder::sinkWriteSamples(data, length)`. -/
  | sink (data : List Nat)
  /-- The failing `assert(!"unimplemented")` of `packForEncoding` / `unpackEncoded`:
  the program is aborted there (a build with `NDEBUG`, which has no
  assertions, is not covered by this file). -/
  | unimplemented
  deriving DecidableEq, Repr

/-- The private members of `AudioCodecAmbeDv3k` that `callback` reads and
writes, with the bytes of the pending buffer in the place of its pointer
(`MemSession` below has the pointer). -/
structure Session where
  m_state : STATE
  stored_bufferlen : Nat
  t_buffer : List Nat
  t_b : Int
  deriving DecidableEq, Repr

/-- The result of one `callback`: the session afterwards, the effects in
order, and the `dv3k_buffer` that reached the type dispatch (line 253), if any. -/
structure Outcome where
  st : Session
  effects : List Effect
  frame : Option (List Nat)
  deriving DecidableEq, Repr

/-- The constructor `AudioCodecAmbeDv3k(void) : m_state(OFFLINE)`.  It leaves
`stored_bufferlen` and `t_b` uninitialised, so they are arguments here;
`t_buffer` is the default `Buffer<>()`. -/
def construct (sbl : Nat) (tb : Int) : Session :=
  { m_state := STATE.OFFLINE, stored_bufferlen := sbl, t_buffer := [], t_b := tb }

/-- The packet of `init()` and `prodid()`. -/
def DV3K_REQ_PRODID : List Nat :=
  [DV3K_START_BYTE, 0x00, 0x01, DV3K_TYPE_CONTROL, DV3K_CONTROL_PRODID]

/-- The packet of `versid()`. -/
def DV3K_REQ_VERSID : List Nat :=
  [DV3K_START_BYTE, 0x00, 0x01, DV3K_TYPE_CONTROL, DV3K_CONTROL_VERSTRING]

/-- The function `init()`: sends the PRODID request and does not touch `m_state`. -/
def init (s : Session) : Session × List Effect :=
  (s, [Effect.send DV3K_REQ_PRODID])

/-- The function `prodid()`: sends the PRODID request, then `m_state = PRODID`. -/
def prodid (s : Session) : Session × List Effect :=
  ({ s with m_state := STATE.PRODID }, [Effect.send DV3K_REQ_PRODID])

/-- The function `versid()`: sends the VERSID request, then `m_state = VERSID`. -/
def versid (s : Session) : Session × List Effect :=
  ({ s with m_state := STATE.VERSID }, [Effect.send DV3K_REQ_VERSID])

/-- The function `unpackDecoded`, identity in the base class. -/
def unpackDecoded (buffer : List Nat) : List Nat := buffer

/-- The function `packForDecoding`, identity in the base class. -/
def packForDecoding (buffer : List Nat) : List Nat := buffer

/-- The length field as `callback` reads it:
`tlen = data[2] + data[1] * 256`, an `int` stored into a `uint32_t`. -/
def tlenOf (sgn : Bool) (data : List Nat) : Nat :=
  toU32 (charVal sgn (data.getD 2 0) + charVal sgn (data.getD 1 0) * 256)

/-- Lines 253-307 of `callback`: dispatch of the complete frame on its type byte. -/
def dispatch (sgn : Bool) (s : Session) (dv3k_buffer : List Nat) : Session × List Effect :=
  let type := charVal sgn (dv3k_buffer.getD 3 0)
  if type = (DV3K_TYPE_CONTROL : Int) then
    match s.m_state with
    | STATE.RESET => prodid s
    | STATE.PRODID => versid { s with m_state := STATE.VERSID }
    | STATE.VERSID => ({ s with m_state := STATE.READY }, [])
    | _ => (s, [])
  else if type = (DV3K_TYPE_AMBE : Int) then
    -- unpackEncoded asserts: the call of AudioEncoder::writeEncodedSamples is not reached
    (s, [Effect.unimplemented])
  else if type = ( DV3K_TYPE_AUDIO : Int) then
    (s, [Effect.sink (unpackDecoded dv3k_buffer)])
  else
    (s, [])

/-- The index of the terminating zero written at line 244,
`t_buffer.length - stored_bufferlen - DV3K_HEADER_LEN + 1` in `size_t`. -/
def termPos (newlen stored : Nat) : Nat :=
  (((newlen : Int) - (stored : Int) - (DV3K_HEADER_LEN : Int) + 1) % 2 ^ 64).toNat

/-- The function `AudioCodecAmbeDv3k::callback(buffer)` on byte values: the
chunk is the list of its bytes and the pending buffer the list of the bytes
stored so far, as they are in memory when no one has touched them since
(`callbackMem` below is the function on the memory itself).  A store outside
the pending bytes (line 244) changes none of them. -/
def callback (sgn : Bool) (s : Session) (buffer : List Nat) : Outcome :=
  if buffer.length < 4 then
    let r := init s
    { st := r.1, effects := r.2, frame := none }
  else if charVal sgn (buffer.getD 0 0) = (DV3K_START_BYTE : Int) then
    let tlen := tlenOf sgn buffer
    if (tlen + DV3K_HEADER_LEN) % 2 ^ 32 > buffer.length then
      { st := { s with stored_bufferlen := tlen, t_buffer := buffer }, effects := [], frame := none }
    else
      let r := dispatch sgn { s with stored_bufferlen := 0, t_buffer := buffer } buffer
      { st := r.1, effects := r.2, frame := some buffer }
  else if s.stored_bufferlen > 0 then
    let tb := s.t_buffer ++ buffer
    let t_b : Int := Int.bmod (tb.length : Int) (2 ^ 32)
    let n := (s.stored_bufferlen + DV3K_HEADER_LEN) % 2 ^ 32
    if tb.length ≥ n then
      let dv3k_buffer := tb.take n
      let newlen := toU32 (t_b - (s.stored_bufferlen : Int) - (DV3K_HEADER_LEN : Int))
      let rest := (tb.drop n).take newlen
      let rest := rest.set (termPos newlen s.stored_bufferlen) 0
      let r := dispatch sgn { s with t_buffer := rest, t_b := t_b } dv3k_buffer
      { st := r.1, effects := r.2, frame := some dv3k_buffer }
    else
      { st := { s with t_buffer := tb, t_b := t_b }, effects := [], frame := none }
  else
    { st := s, effects := [], frame := none }

/-- The call has aborted the program at the failing assertion. -/
def aborted (effects : List Effect) : Bool := effects.contains Effect.unimplemented

/-- Feeding chunks in order: the session afterwards, all effects, and the
frames that reached the dispatch, in order.  A call that aborts the program
is the last one. -/
def feed (sgn : Bool) : Session → List (List Nat) → Session × List Effect × List (List Nat)
  | s, [] => (s, [], [])
  | s, c :: cs =>
    let o := callback sgn s c
    if aborted o.effects then (o.st, o.effects, o.frame.toList)
    else
      let r := feed sgn o.st cs
      (r.1, o.effects ++ r.2.1, o.frame.toList ++ r.2.2)

/-- The frames dispatched while feeding the chunks. -/
def framesOf (sgn : Bool) (s : Session) (chunks : List (List Nat)) : List (List Nat) :=
  (feed sgn s chunks).2.2

/-- The session after feeding the chunks. -/
def stateAfter (sgn : Bool) (s : Session) (chunks : List (List Nat)) : Session :=
  (feed sgn s chunks).1

/-- A product-id response frame: control type, field 0x30, text AMBE3000R and a NUL. -/
def prodidResponse : List Nat :=
  [0x61, 0x00, 0x0b, 0x00, 0x30, 0x41, 0x4d, 0x42, 0x45, 0x33, 0x30, 0x30, 0x30, 0x52, 0x00]

/-- A version-string response frame: control type, field 0x31, text V120 and a NUL. -/
def versidResponse : List Nat :=
  [0x61, 0x00, 0x06, 0x00, 0x31, 0x56, 0x31, 0x32, 0x30, 0x00]

/-- The session as the transport constructors leave it: constructed, then `init()`. -/
def opened (sbl : Nat) (tb : Int) : Session := (init (construct sbl tb)).1

/-- A device frame as `callback` reads it: at least the 4-byte header, the
start marker first, and as many bytes after the header as the length field
read by `callback` says (fewer than 2^32 bytes in all). -/
def validFrame (sgn : Bool) (f : List Nat) : Prop :=
  4 ≤ f.length ∧ charVal sgn (f.getD 0 0) = (DV3K_START_BYTE : Int) ∧
    f.length = tlenOf sgn f + DV3K_HEADER_LEN ∧ f.length < 2 ^ 32

instance (sgn : Bool) (f : List Nat) : Decidable (validFrame sgn f) := by
  unfold validFrame; infer_instance

/-- A chunk that `callback` takes as a continuation: at least 4 bytes, not
beginning with the start marker. -/
def contChunk (sgn : Bool) (c : List Nat) : Prop :=
  4 ≤ c.length ∧ charVal sgn (c.getD 0 0) ≠ (DV3K_START_BYTE : Int)

instance (sgn : Bool) (c : List Nat) : Decidable (contChunk sgn c) := by
  unfold contChunk; infer_instance

/-! ## Outbound sub-frame packetization -/

/-- The call `memcpy(dst + off, src, n)` for `n` the length of `src`, on an array held as a list. -/
def memcpy {α : Type} (dst : List α) (off : Nat) (src : List α) : List α :=
  dst.take off ++ src ++ dst.drop (off + src.length)

def DV3K_AMBE_HEADERFRAME : List Nat :=
  [DV3K_START_BYTE, 0x00, 0x0c, DV3K_TYPE_AMBE, 0x01, 0x48]
def DV3K_AMBE_HEADERFRAME_LEN : Nat := 6
def AMBE_BYTE_LEN : Nat := 9

/-- The byte at `buffer.data + i`: inside the caller's buffer `buf` (of `size`
bytes) it is the buffer's byte, past its end it is whatever `beyond` holds. -/
def byteAt (buf : List Nat) (beyond : Nat → Nat) (i : Nat) : Nat :=
  if i < buf.length then buf.getD i 0 else beyond (i - buf.length)

/-- The `n` bytes at `buffer.data + a`. -/
def bytesAt (buf : List Nat) (beyond : Nat → Nat) (a n : Nat) : List Nat :=
  (List.range n).map (fun i => byteAt buf beyond (a + i))

/-- What `writeEncodedSamples` does: the packets given to `send`, in order,
and the offsets of `buffer.data` that were read, in order. -/
structure WriteTrace where
  sent : List (List Nat)
  reads : List Nat
  deriving DecidableEq, Repr

/-- The local `char ambe_to_dv3k[16]` before anything is stored in it. -/
def localArray (garbage : Nat → Nat) : List Nat := (List.range 16).map garbage

/-- The loop `for (int a=0; a<=27; a+=9)` of `writeEncodedSamples`, from the
current `a` and the current content of `ambe_to_dv3k`. -/
def writeLoop (buf : List Nat) (beyond : Nat → Nat) : Nat → Nat → List Nat → WriteTrace
  | 0, _, _ => { sent := [], reads := [] }
  | fuel + 1, a, ambe_to_dv3k =>
    if a ≤ 27 then
      let arr := memcpy ambe_to_dv3k 0 (DV3K_AMBE_HEADERFRAME.take DV3K_AMBE_HEADERFRAME_LEN)
      let arr := memcpy arr DV3K_AMBE_HEADERFRAME_LEN (bytesAt buf beyond a AMBE_BYTE_LEN)
      let ambe_frame := arr.take 16
      let r := writeLoop buf beyond fuel (a + 9) arr
      { sent := ambe_frame :: r.sent, reads := List.range' a AMBE_BYTE_LEN ++ r.reads }
    else
      { sent := [], reads := [] }

/-- The function `AudioCodecAmbeDv3k::writeEncodedSamples(buf, size)`; `size` is the length
of `buf`, `garbage` the initial content of the local array. -/
def writeEncodedSamples (garbage : Nat → Nat) (buf : List Nat) (beyond : Nat → Nat) :
    WriteTrace :=
  writeLoop (packForDecoding buf) beyond 28 0 (localArray garbage)

/-! ## `callback` on the memory of its caller

The functions above take the bytes of a chunk and keep the pending bytes as a
list, as if the session held a copy of them.  The source holds no copy:
`t_buffer` is the pointer it was given with the first chunk and a length
(lines 195 and 211), later chunks are copied behind that pointer (line 222),
and the assembled frame is copied to the pointer of the chunk at hand
(line 235).  The functions below follow the pointers.  Memory is the list of
the bytes that the caller of `callback` has at the addresses 0, 1, 2, ...; an
access outside of it ends the call with a fault. -/

/-- A `Buffer<>`: the pointer `data`, `none` for `NULL` and `some a` for the
address `a`, and the `length`. -/
structure Buffer where
  data : Option Nat
  length : Nat
  deriving DecidableEq, Repr

/-- The access of `callback` that falls outside the memory. -/
inductive Fault where
  /-- The chunk handed over: its `length` bytes are not all in memory. -/
  | chunk
  /-- Line 219, reading `t_buffer.data[t]` for the log. -/
  | pending
  /-- Line 222, `memcpy(t_buffer.data + t_buffer.length, buffer.data, buffer.length)`. -/
  | append
  /-- Line 235, `memcpy(dv3k_buffer.data, t_buffer.data, stored_bufferlen + DV3K_HEADER_LEN)`. -/
  | frame
  /-- Line 240, the `memmove` of the remaining bytes to `t_buffer.data`. -/
  | rest
  /-- Line 244, the store of the zero byte. -/
  | zero
  deriving DecidableEq, Repr

/-- The private members of `AudioCodecAmbeDv3k` that `callback` reads and
writes, `t_buffer` being the pointer and the length that the source keeps. -/
structure MemSession where
  m_state : STATE
  stored_bufferlen : Nat
  t_buffer : Buffer
  t_b : Int
  deriving DecidableEq, Repr

/-- The result of one `callback` that ends without a fault: the session and
the memory afterwards, the effects in order, and the bytes of `dv3k_buffer`
as they are in memory when the type dispatch reads them (line 253), if the
call gets there. -/
structure MemOutcome where
  st : MemSession
  mem : List Nat
  effects : List Effect
  frame : Option (List Nat)
  deriving DecidableEq, Repr

/-- How a `callback` ends. -/
inductive Step where
  | done (o : MemOutcome)
  | fault (f : Fault)
  deriving DecidableEq, Repr

/-- The constructor, with `t_buffer` the default `Buffer<>()`: `NULL` and length 0. -/
def constructMem (sbl : Nat) (tb : Int) : MemSession :=
  { m_state := STATE.OFFLINE, stored_bufferlen := sbl,
    t_buffer := { data := none, length := 0 }, t_b := tb }

/-- The pointer `p + k`, addresses being 64 bits wide. -/
def plus (p : Option Nat) (k : Nat) : Option Nat :=
  p.map (fun a => (a + k) % 2 ^ 64)

/-- Reading the `n` bytes at `p`; no access is made for `n = 0`. -/
def load (mem : List Nat) (p : Option Nat) (n : Nat) : Option (List Nat) :=
  if n = 0 then some []
  else
    match p with
    | none => none
    | some a => if a + n ≤ mem.length then some ((mem.drop a).take n) else none

/-- Writing the bytes at `p`; no access is made for no bytes. -/
def store (mem : List Nat) (p : Option Nat) (bytes : List Nat) : Option (List Nat) :=
  if bytes.length = 0 then some mem
  else
    match p with
    | none => none
    | some a => if a + bytes.length ≤ mem.length then some (memcpy mem a bytes) else none

/-- The members as the functions `init`, `prodid`, `versid` and the type
dispatch see them: these touch no member but `m_state`. -/
def members (s : MemSession) : Session :=
  { m_state := s.m_state, stored_bufferlen := s.stored_bufferlen, t_buffer := [], t_b := s.t_b }

/-- Lines 250-307 of `callback` on the bytes of `dv3k_buffer` found in memory. -/
def dispatchMem (sgn : Bool) (s : MemSession) (mem : List Nat) (dv3k_buffer : List Nat) : Step :=
  let r := dispatch sgn (members s) dv3k_buffer
  Step.done { st := { s with m_state := r.1.m_state }, mem := mem, effects := r.2,
              frame := some dv3k_buffer }

/-- The function `AudioCodecAmbeDv3k::callback(buffer)` on the memory `mem`.
The copies of lines 222 and 235 are taken to read their source before they
write (`memcpy` on overlapping areas, which C leaves undefined, then leaves
equal areas as they are). -/
def callbackMem (sgn : Bool) (s : MemSession) (mem : List Nat) (buffer : Buffer) : Step :=
  if buffer.length < 4 then
    Step.done { st := s, mem := mem, effects := (init (members s)).2, frame := none }
  else
    match load mem buffer.data buffer.length with
    | none => Step.fault Fault.chunk
    | some bytes =>
      if charVal sgn (bytes.getD 0 0) = (DV3K_START_BYTE : Int) then
        let tlen := tlenOf sgn bytes
        if (tlen + DV3K_HEADER_LEN) % 2 ^ 32 > buffer.length then
          Step.done { st := { s with stored_bufferlen := tlen, t_buffer := buffer },
                      mem := mem, effects := [], frame := none }
        else
          dispatchMem sgn { s with stored_bufferlen := 0, t_buffer := buffer } mem bytes
      else if s.stored_bufferlen > 0 then
        match load mem s.t_buffer.data s.t_buffer.length with
        | none => Step.fault Fault.pending
        | some _ =>
          match store mem (plus s.t_buffer.data s.t_buffer.length) bytes with
          | none => Step.fault Fault.append
          | some mem1 =>
            let length := s.t_buffer.length + buffer.length
            let t_b : Int := Int.bmod (length : Int) (2 ^ 32)
            let n := (s.stored_bufferlen + DV3K_HEADER_LEN) % 2 ^ 32
            if length ≥ n then
              match load mem1 s.t_buffer.data n with
              | none => Step.fault Fault.frame
              | some dv3k =>
                match store mem1 buffer.data dv3k with
                | none => Step.fault Fault.frame
                | some mem2 =>
                  let count :=
                    (((length : Int) - (s.stored_bufferlen : Int) - (DV3K_HEADER_LEN : Int))
                      % 2 ^ 64).toNat
                  match load mem2 (plus s.t_buffer.data n) count with
                  | none => Step.fault Fault.rest
                  | some moved =>
                    match store mem2 s.t_buffer.data moved with
                    | none => Step.fault Fault.rest
                    | some mem3 =>
                      let newlen :=
                        toU32 (t_b - (s.stored_bufferlen : Int) - (DV3K_HEADER_LEN : Int))
                      match store mem3 (plus s.t_buffer.data (termPos newlen s.stored_bufferlen))
                          [0] with
                      | none => Step.fault Fault.zero
                      | some mem4 =>
                        match load mem4 buffer.data n with
                        | none => Step.fault Fault.frame
                        | some dv3k_buffer =>
                          dispatchMem sgn
                            { s with t_buffer := { s.t_buffer with length := newlen },
                                     t_b := t_b }
                            mem4 dv3k_buffer
            else
              Step.done { st := { s with t_buffer := { s.t_buffer with length := length },
                                         t_b := t_b },
                          mem := mem1, effects := [], frame := none }
      else
        Step.done { st := s, mem := mem, effects := [], frame := none }

/-- A run of calls: the session and the memory at its end, all effects, the
frames that reached the dispatch, in order, and the fault that ended it, if
one did. -/
structure MemRun where
  st : MemSession
  mem : List Nat
  effects : List Effect
  frames : List (List Nat)
  fault : Option Fault
  deriving DecidableEq, Repr

/-- A run of calls made by a caller that, for each pair of an address and a
chunk, puts the bytes of the chunk at the address and hands `callback` that
address and the number of bytes; a call that faults or aborts the program is
the last one.  A transport that reads every chunk into one buffer gives the
same address each time. -/
def feedMem (sgn : Bool) : MemSession → List Nat → List (Nat × List Nat) → MemRun
  | s, mem, [] => { st := s, mem := mem, effects := [], frames := [], fault := none }
  | s, mem, (a, c) :: cs =>
    match callbackMem sgn s (memcpy mem a c) { data := some a, length := c.length } with
    | Step.fault f =>
      { st := s, mem := memcpy mem a c, effects := [], frames := [], fault := some f }
    | Step.done o =>
      if aborted o.effects then
        { st := o.st, mem := o.mem, effects := o.effects, frames := o.frame.toList,
          fault := none }
      else
        let r := feedMem sgn o.st o.mem cs
        { r with effects := o.effects ++ r.effects, frames := o.frame.toList ++ r.frames }

/-- The chunks as a transport hands them over that reads each into its one
buffer at the address `a`. -/
def reused (a : Nat) (chunks : List (List Nat)) : List (Nat × List Nat) :=
  chunks.map (fun c => (a, c))

/-- Memory for the examples: 16 bytes that belong to something else, each
0xee, then at address 16 a read buffer of 32 bytes. -/
def exampleMemory : List Nat := List.replicate 16 0xee ++ List.replicate 32 0

/-- A frame for the examples: control type, payload 0a 0b 0c 0d 0e 0f. -/
def exampleFrame : List Nat := [0x61, 0x00, 0x06, 0x00, 0x0a, 0x0b, 0x0c, 0x0d, 0x0e, 0x0f]

end Dv3k

/-! # The USRP logic core (UsrpLogic.cpp)

`UsrpMsg.h`, `LogicBase`, the stream-state detectors, the codec objects and
the JSON reader are not part of the sources at hand.  What the logic core
obtains from them enters the embedding as data: an inbound datagram is given by
what the unpack functions and getters of `UsrpMsg.h` return for it, packing
of outbound messages by a function `pack`, the JSON reader by a function
`json`, the state of the two detectors by two flags. -/

namespace Usrp

def USRP_AUDIO_FRAME_LEN : Nat := 160
def USRP_HEADER_LEN : Nat := 32
def USRP_TYPE_VOICE : Nat := 0
def USRP_TYPE_DTMF : Nat := 1
def USRP_TYPE_TEXT : Nat := 2

/-- Which function built an outbound message. -/
inductive MsgKind where
  /-- From `sendAudioMsg`: the `UsrpAudioMsg` of `sendEncodedAudio`, type voice, keyup set. -/
  | voice
  /-- From `sendStopMsg`: a plain `UsrpHeaderMsg`. -/
  | stop
  /-- From `sendMetaMsg`: the `UsrpTlvMetaMsg` with identity, talkgroup, colour code, timeslot. -/
  | metadata
  /-- From `switchMode`: the `UsrpTlvMetaMsg` of type DTMF. -/
  | mode
  deriving DecidableEq, Repr

/-- An outbound message: its kind, the number given to `setSeq`, and for a
voice message the samples given to `setAudioData`. -/
structure UdpMsg where
  kind : MsgKind
  seq : Int
  audio : List Int
  deriving DecidableEq, Repr

/-- A `struct timeval`. -/
structure Timeval where
  tv_sec : Int
  tv_usec : Int
  deriving DecidableEq, Repr

/-- Calls made on the decoder `m_dec` and the encoder `m_enc`. -/
inductive CodecCall where
  | decWriteEncodedSamples (samples : List Int)
  | decFlushEncodedSamples
  | encAllEncodedSamplesFlushed
  deriving DecidableEq, Repr

/-- The members of `UsrpLogic` that the embedded functions read and write,
followed by the logs of what the object does to its surroundings: `sent` the
messages given to `sendUdpMessage`, `events` the strings given to
`UsrpLogic::processEvent` (the event handler receives them after the logic
name and two colons), `codec` the calls on the codec objects.
`m_last_dmrid` is used by UsrpLogic.cpp but not declared in UsrpLogic.h as
given; it is taken to be a `uint32_t` like `m_last_tg`. -/
structure Logic where
  udp_seq : Int
  stored_samples : Nat
  r_buf : List Int
  ident : Bool
  flush_timer_enabled : Bool
  m_selected_tg : Nat
  m_last_call : List Char
  m_last_tg : Nat
  m_last_dmrid : Nat
  m_last_talker_timestamp : Timeval
  con_in_idle : Bool
  con_out_idle : Bool
  idle : Bool
  sent : List UdpMsg
  events : List (List Char)
  codec : List CodecCall
  deriving DecidableEq, Repr

/-- The object after the constructor and `initialize()`: the constructor sets
`udp_seq(0)`, `stored_samples(0)`, `ident(false)`, `m_selected_tg(0)`,
`m_last_tg(0)`, clears the timestamp and disables the flush timer;
`initialize()` allocates `r_buf = new int16_t[USRP_AUDIO_FRAME_LEN*2]`, whose
content is not initialised (here `garbage`).  `m_last_dmrid` is not
initialised either. -/
def fresh (garbage : Nat → Int) (dmrid : Nat) : Logic :=
  { udp_seq := 0, stored_samples := 0,
    r_buf := (List.range (USRP_AUDIO_FRAME_LEN * 2)).map garbage,
    ident := false, flush_timer_enabled := false, m_selected_tg := 0,
    m_last_call := [], m_last_tg := 0, m_last_dmrid := dmrid,
    m_last_talker_timestamp := { tv_sec := 0, tv_usec := 0 },
    con_in_idle := true, con_out_idle := true, idle := true,
    sent := [], events := [], codec := [] }

/-- The function `UsrpLogic::isIdle`. -/
def isIdle (s : Logic) : Bool :=
  s.con_out_idle && s.con_in_idle

/-- Modelled from the spec: `LogicBase::setIdle`, which is not among the
sources; the overall idle state it is given becomes the state reported. -/
def setIdle (s : Logic) (is_idle : Bool) : Logic :=
  { s with idle := is_idle }

/-- The function `UsrpLogic::checkIdle`. -/
def checkIdle (s : Logic) : Logic :=
  setIdle s (isIdle s)

/-- The function `UsrpLogic::processEvent`. -/
def processEvent (s : Logic) (event : List Char) : Logic :=
  checkIdle { s with events := s.events ++ [event] }

/-- The function `UsrpLogic::sendUdpMessage`. -/
def sendUdpMessage (s : Logic) (m : UdpMsg) : Logic :=
  { s with sent := s.sent ++ [m] }

/-- The statement `if (udp_seq++ > 0x7fff) udp_seq = 0;` on the counter. -/
def nextSeq (udp_seq : Int) : Int :=
  if udp_seq > 0x7fff then 0 else udp_seq + 1

/-- The function `UsrpLogic::sendAudioMsg`. -/
def sendAudioMsg (pack : UdpMsg → Bool) (s : Logic) (usrp : UdpMsg) : Logic :=
  let s := { s with udp_seq := nextSeq s.udp_seq }
  let usrp := { usrp with seq := s.udp_seq }
  if !pack usrp then s else sendUdpMessage s usrp

/-- The decimal text that `operator<<` writes for an unsigned number. -/
def decimal (n : Nat) : List Char := (Nat.repr n).toList

/-- The function `UsrpLogic::sendStopMsg`. -/
def sendStopMsg (pack : UdpMsg → Bool) (s : Logic) : Logic :=
  let s := { s with udp_seq := nextSeq s.udp_seq }
  let usrp : UdpMsg := { kind := MsgKind.stop, seq := s.udp_seq, audio := [] }
  if !pack usrp then s
  else
    let s := sendUdpMessage s usrp
    let s := { s with ident := false }
    processEvent s ("transmission_stop ".toList ++ decimal s.m_selected_tg)

/-- The function `UsrpLogic::sendMetaMsg`. -/
def sendMetaMsg (pack : UdpMsg → Bool) (s : Logic) : Logic :=
  let s := { s with udp_seq := nextSeq s.udp_seq }
  let usrp : UdpMsg := { kind := MsgKind.metadata, seq := s.udp_seq, audio := [] }
  if !pack usrp then s
  else
    let s := sendUdpMessage s usrp
    let s := { s with ident := true }
    processEvent s ("transmission_start ".toList ++ decimal s.m_selected_tg)

/-- Modelled from the spec: `UsrpAudioMsg::setAudioData` of `UsrpMsg.h`, which
is not among the sources; a voice message carries one network frame of 160
samples, taken from the start of the array it is given. -/
def setAudioData (usrp : UdpMsg) (r_buf : List Int) : UdpMsg :=
  { usrp with audio := r_buf.take USRP_AUDIO_FRAME_LEN }

/-- The calls `memcpy(dst + off, src, n)` and `memmove` alike, `n` the length of `src`:
the source is a value, so an overlap does no harm. -/
def memcpy {α : Type} (dst : List α) (off : Nat) (src : List α) : List α :=
  dst.take off ++ src ++ dst.drop (off + src.length)

/-- The loop `while (stored_samples >= USRP_AUDIO_FRAME_LEN)` of
`sendEncodedAudio`; each round lowers `stored_samples`, so `fuel` rounds are
enough when `fuel` is at least `stored_samples`. -/
def drain (pack : UdpMsg → Bool) : Nat → Logic → Logic
  | 0, s => s
  | fuel + 1, s =>
    if s.stored_samples ≥ USRP_AUDIO_FRAME_LEN then
      let usrp := setAudioData { kind := MsgKind.voice, seq := 0, audio := [] } s.r_buf
      let s := sendAudioMsg pack s usrp
      let s := { s with
        r_buf := memcpy s.r_buf 0
          ((s.r_buf.drop USRP_AUDIO_FRAME_LEN).take (s.stored_samples - USRP_AUDIO_FRAME_LEN)) }
      let s := { s with stored_samples := s.stored_samples - USRP_AUDIO_FRAME_LEN }
      drain pack fuel s
    else s

/-- The function `UsrpLogic::sendEncodedAudio(buf, count)`; `t` is `buf` seen as 16-bit
samples, `count` the number of bytes.  The result is `none` when the `memcpy`
into `r_buf` would read past `t` or write past the 320 samples of `r_buf`. -/
def sendEncodedAudio (pack : UdpMsg → Bool) (s : Logic) (t : List Int) (count : Nat) :
    Option Logic :=
  let s := if !s.ident then sendMetaMsg pack s else s
  let len := count * 1 / 2
  let s := if s.flush_timer_enabled then { s with flush_timer_enabled := false } else s
  if t.length < len ∨ s.r_buf.length < s.stored_samples + len then none
  else
    let s := { s with r_buf := memcpy s.r_buf s.stored_samples (t.take len) }
    let s := { s with stored_samples := s.stored_samples + len }
    some (drain pack s.stored_samples s)

/-- A run of `sendEncodedAudio` calls, each chunk given with its byte count. -/
def sendEncodedAudioAll (pack : UdpMsg → Bool) : Logic → List (List Int) → Option Logic
  | s, [] => some s
  | s, t :: ts =>
    match sendEncodedAudio pack s t (2 * t.length) with
    | none => none
    | some s1 => sendEncodedAudioAll pack s1 ts

/-- A run of `n` consecutive `sendAudioMsg` calls. -/
def sendAudioMsgTimes (pack : UdpMsg → Bool) : Nat → Logic → Logic
  | 0, s => s
  | n + 1, s =>
    sendAudioMsgTimes pack n (sendAudioMsg pack s { kind := MsgKind.voice, seq := 0, audio := [] })

/-- The sequence numbers of the messages sent so far. -/
def seqs (s : Logic) : List Int := s.sent.map (fun m => m.seq)

/-- The samples carried by the messages sent so far, in order. -/
def audioSent (s : Logic) : List Int := (s.sent.map (fun m => m.audio)).flatten

/-- The voice messages sent so far. -/
def voiceSent (s : Logic) : List UdpMsg := s.sent.filter (fun m => m.kind = MsgKind.voice)

/-- The samples waiting in `r_buf`. -/
def pending (s : Logic) : List Int := s.r_buf.take s.stored_samples

/-! ## Inbound datagrams -/

/-- An inbound datagram, given by what the classes of `UsrpMsg.h` make of it:
the results of the `unpack` calls and of the getters that
`udpDatagramReceived` uses, and `metadata`, the bytes of the datagram from
offset `USRP_HEADER_LEN` on. -/
structure Datagram where
  headerOk : Bool
  type : Nat
  keyup : Bool
  audioOk : Bool
  audioData : List Int
  metaOk : Bool
  isTlv : Bool
  tlvOk : Bool
  callsign : Option (List Char)
  tg : Nat
  dmrId : Nat
  metadata : List Char
  dtmfOk : Bool
  dtmfTg : Nat
  deriving DecidableEq, Repr

/-- What `Json::Reader::parse` and the three lookups
`value["digital"]["call" | "tg" | "rpt"].asString()` give for a text. -/
structure Digital where
  call : List Char
  tg : List Char
  rpt : List Char
  deriving DecidableEq, Repr

/-- The function `std::string::find(pat)`: the first position where `pat` occurs, `none` for `npos`. -/
def find : List Char → List Char → Option Nat
  | [], pat => if pat = [] then some 0 else none
  | c :: cs, pat =>
    if pat.isPrefixOf (c :: cs) then some 0
    else match find cs pat with
      | some i => some (i + 1)
      | none => none

/-- The function `std::string::find_last_of` for a single character: its last position,
`none` for `npos`. -/
def find_last_of : List Char → Char → Option Nat
  | [], _ => none
  | c :: cs, ch =>
    match find_last_of cs ch with
    | some i => some (i + 1)
    | none => if c = ch then some 0 else none

/-- The number `metadata.find_last_of(" ") + 1` handed to `erase`: `npos + 1`
wraps to 0. -/
def eraseLen (metadata : List Char) : Nat :=
  match find_last_of metadata ' ' with
  | some i => i + 1
  | none => 0

/-- The function `std::string::erase(0, n)`. -/
def erase0 (s : List Char) (n : Nat) : List Char := s.drop n

/-- The digits that `atoi` reads, folded into the number read so far. -/
def atoiDigits : List Char → Int → Int
  | [], acc => acc
  | c :: cs, acc =>
    if c.isDigit then atoiDigits cs (acc * 10 + ((c.toNat - 48 : Nat) : Int)) else acc

/-- The number that a text begins with: white space, an optional sign, then digits. -/
def leadingNumber (s : List Char) : Int :=
  match s.dropWhile (fun c => c = ' ' || (9 ≤ c.toNat && c.toNat ≤ 13)) with
  | '-' :: r => - atoiDigits r 0
  | '+' :: r => atoiDigits r 0
  | r => atoiDigits r 0

/-- The C library function `strtol(s, NULL, 10)` for a `long` of 64 bits: the
number the text begins with, and `LONG_MAX` or `LONG_MIN` for a number
outside `long`. -/
def strtol (s : List Char) : Int :=
  if leadingNumber s > 2 ^ 63 - 1 then 2 ^ 63 - 1
  else if leadingNumber s < -(2 ^ 63) then -(2 ^ 63)
  else leadingNumber s

/-- The C library function `atoi` as the GNU C library has it,
`(int) strtol(s, NULL, 10)`: the conversion to the 32-bit `int` keeps the low
32 bits.  (The C standard leaves the result undefined for a number outside
`int`.) -/
def atoi (s : List Char) : Int :=
  Int.bmod (strtol s) (2 ^ 32)

/-- The decimal value of a text of digits, as the specification speaks of it. -/
def decimalValue (ds : List Char) : Nat :=
  ds.foldl (fun a c => a * 10 + (c.toNat - 48)) 0

/-- Conversion of an `int` to `uint32_t`. -/
def toU32 (i : Int) : Nat := (i % 2 ^ 32).toNat

/-- The function `UsrpLogic::handleSettingsMsg`. -/
def handleSettingsMsg (s : Logic) (infomsg : List Char) : Logic :=
  processEvent s ("setting_mode ".toList ++ infomsg)

/-- The function `UsrpLogic::handleVoiceStream`; the time of day is an argument, `audioData`
the samples after `ntohs`. -/
def handleVoiceStream (s : Logic) (now : Timeval) (audioData : List Int) : Logic :=
  { s with m_last_talker_timestamp := now,
           codec := s.codec ++ [CodecCall.decWriteEncodedSamples audioData] }

/-- The function `UsrpLogic::handleStreamStop`. -/
def handleStreamStop (s : Logic) : Logic :=
  let s := { s with codec := s.codec ++ [CodecCall.decFlushEncodedSamples] }
  let s := checkIdle s
  let s := { s with codec := s.codec ++ [CodecCall.encAllEncodedSamplesFlushed] }
  let s := { s with m_last_talker_timestamp := { tv_sec := 0, tv_usec := 0 } }
  processEvent s ("talker_stop ".toList ++ decimal s.m_last_tg ++ " ".toList ++ s.m_last_call)

/-- The event that ends the text branch of `udpDatagramReceived` (lines 516-518). -/
def stationData (s : Logic) : Logic :=
  processEvent s ("usrp_stationdata_received ".toList ++ s.m_last_call ++ " ".toList
    ++ decimal s.m_last_tg ++ " ".toList ++ decimal s.m_last_dmrid)

/-- The function `UsrpLogic::udpDatagramReceived`. -/
def udpDatagramReceived (json : List Char → Option Digital) (now : Timeval) (s : Logic)
    (d : Datagram) : Logic :=
  if !d.headerOk then s
  else if d.type = USRP_TYPE_VOICE then
    if d.keyup = false then handleStreamStop s
    else if !d.audioOk then s
    else handleVoiceStream s now d.audioData
  else if d.type = USRP_TYPE_TEXT then
    if !d.metaOk then s
    else if d.isTlv then
      if !d.tlvOk then s
      else match d.callsign with
        | none => s
        | some call =>
          stationData { s with m_last_call := call, m_last_tg := d.tg, m_last_dmrid := d.dmrId }
    else
      let metadata := d.metadata
      if (find metadata "INFO:MSG:".toList).isSome then
        handleSettingsMsg s (erase0 metadata (eraseLen metadata))
      else if (find metadata "INFO:\x7b".toList).isSome then
        let metadata := erase0 metadata 5
        match json metadata with
        | some value =>
          stationData { s with m_last_call := value.call,
                               m_last_tg := toU32 (atoi value.tg),
                               m_last_dmrid := toU32 (atoi value.rpt) }
        | none => stationData s
      else if (find metadata "INFO:".toList).isSome then s
      else stationData s
  else if d.type = USRP_TYPE_DTMF then
    if !d.dtmfOk then s
    else processEvent s ("usrp_tunetg_received ".toList ++ decimal d.dtmfTg)
  else s

/-- A text datagram that is not TLV and carries the given metadata string. -/
def textDatagram (metadata : List Char) : Datagram :=
  { headerOk := true, type := USRP_TYPE_TEXT, keyup := false, audioOk := false,
    audioData := [], metaOk := true, isTlv := false, tlvOk := false, callsign := none,
    tg := 0, dmrId := 0, metadata := metadata, dtmfOk := false, dtmfTg := 0 }

/-- A JSON reader that knows one text and gives `value` for it. -/
def jsonOnly (text : List Char) (value : Digital) (t : List Char) : Option Digital :=
  if t = text then some value else none

/-- The metadata of the example: INFO: and the object with call W1AW, tg 9, rpt 1. -/
def infoW1AW : List Char :=
  "INFO:\x7b\"digital\":\x7b\"call\":\"W1AW\",\"tg\":\"9\",\"rpt\":\"1\"\x7d\x7d".toList

/-- The same object with the tg 4294967297. -/
def infoBigTg : List Char :=
  "INFO:\x7b\"digital\":\x7b\"call\":\"W1AW\",\"tg\":\"4294967297\",\"rpt\":\"1\"\x7d\x7d".toList

/-- The same object with the text INFO:MSG: as its call. -/
def infoMsgCall : List Char :=
  "INFO:\x7b\"digital\":\x7b\"call\":\"INFO:MSG:\",\"tg\":\"9\",\"rpt\":\"1\"\x7d\x7d".toList

end Usrp

namespace Dv3k

/-! ## Frames used as examples -/

/-- A decoded-audio frame as the comments of `callback` describe it: type 0x02,
160 bytes of payload (length field 00 a0), 164 bytes with the header. -/
def audioFrame160 : List Nat := [0x61, 0x00, 0xa0, 0x02] ++ List.replicate 160 0

/-- The big-endian 16-bit value of the second and third byte, both taken as
unsigned values 0..255. -/
def bigEndianLen (data : List Nat) : Nat := 256 * (data.getD 1 0 % 256) + data.getD 2 0 % 256

end Dv3k

namespace Usrp

/-! ## The inactivity watchdog -/

/-- The macro `timerisset` of `<sys/time.h>`. -/
def timerisset (tv : Timeval) : Bool := tv.tv_sec != 0 || tv.tv_usec != 0

/-- The macro `timersub(a, b, result)` of `<sys/time.h>`. -/
def timersub (a b : Timeval) : Timeval :=
  let sec := a.tv_sec - b.tv_sec
  let usec := a.tv_usec - b.tv_usec
  if usec < 0 then { tv_sec := sec - 1, tv_usec := usec + 1000000 }
  else { tv_sec := sec, tv_usec := usec }

/-- The function `UsrpLogic::handleTimerTick`; `now` is what `gettimeofday` gives. -/
def handleTimerTick (s : Logic) (now : Timeval) : Logic :=
  if timerisset s.m_last_talker_timestamp then
    let diff := timersub now s.m_last_talker_timestamp
    if diff.tv_sec > 3 then
      { s with codec := s.codec ++ [CodecCall.decFlushEncodedSamples],
               m_last_talker_timestamp := { tv_sec := 0, tv_usec := 0 } }
    else s
  else s

/-- The time from `ts` to `now` in microseconds. -/
def elapsedMicros (now ts : Timeval) : Int :=
  (now.tv_sec - ts.tv_sec) * 1000000 + (now.tv_usec - ts.tv_usec)

/-- A `struct timeval` as `gettimeofday` fills it: microseconds in 0..999999. -/
def normalTime (tv : Timeval) : Prop := 0 ≤ tv.tv_usec ∧ tv.tv_usec < 1000000

instance (tv : Timeval) : Decidable (normalTime tv) := by
  unfold normalTime; infer_instance

/-! ## Outbound messages of every kind -/

/-- The function `UsrpLogic::switchMode(mode)`; the table `selected_mode` is not
declared in the sources at hand and is an argument. -/
def switchMode (pack : UdpMsg → Bool) (selected_mode : Nat → List Char) (s : Logic)
    (mode : Nat) : Logic :=
  let s := { s with udp_seq := nextSeq s.udp_seq }
  let usrp : UdpMsg := { kind := MsgKind.mode, seq := s.udp_seq, audio := [] }
  if !pack usrp then s
  else
    let s := sendUdpMessage s usrp
    processEvent s ("switch_to_mode ".toList ++ selected_mode mode)

/-- One call of a function that sends a message. -/
inductive SendOp where
  | audioMsg (usrp : UdpMsg)
  | stopMsg
  | metaMsg
  | modeMsg (mode : Nat)
  deriving DecidableEq, Repr

/-- The call that a `SendOp` stands for. -/
def applyOp (pack : UdpMsg → Bool) (selected_mode : Nat → List Char) (s : Logic) :
    SendOp → Logic
  | SendOp.audioMsg usrp => sendAudioMsg pack s usrp
  | SendOp.stopMsg => sendStopMsg pack s
  | SendOp.metaMsg => sendMetaMsg pack s
  | SendOp.modeMsg mode => switchMode pack selected_mode s mode

/-- The calls of a list, one after another. -/
def runOps (pack : UdpMsg → Bool) (selected_mode : Nat → List Char) :
    Logic → List SendOp → Logic
  | s, [] => s
  | s, op :: ops => runOps pack selected_mode (applyOp pack selected_mode s op) ops

end Usrp

namespace Usrp

/-! ## Transmissions -/

/-- One step of a transmission: a `sendEncodedAudio` call with a chunk of
samples, or the `sendStopMsg` call made when the local source goes idle. -/
inductive TxOp where
  | audio (t : List Int)
  | stop
  deriving DecidableEq, Repr

/-- The call that a `TxOp` stands for. -/
def txStep (pack : UdpMsg → Bool) (s : Logic) : TxOp → Option Logic
  | TxOp.audio t => sendEncodedAudio pack s t (2 * t.length)
  | TxOp.stop => some (sendStopMsg pack s)

/-- The calls of a list, one after another. -/
def txRun (pack : UdpMsg → Bool) : Logic → List TxOp → Option Logic
  | s, [] => some s
  | s, op :: ops =>
    match txStep pack s op with
    | none => none
    | some s1 => txRun pack s1 ops

/-- The kinds of the messages sent so far, in order. -/
def kindsSent (s : Logic) : List MsgKind := s.sent.map (fun m => m.kind)

/-- The messages that the outbound transmission lifecycle prescribes for a
run, from the `identified` flag and the number of samples stored at its start:
an audio call sends the metadata message first if the transmission is not yet
identified, then one voice message for every 160 samples that are complete;
a stop sends the stop message and ends the transmission. -/
def txKinds : Bool → Nat → List TxOp → List MsgKind
  | _, _, [] => []
  | ident, stored, TxOp.audio t :: ops =>
    (if ident then [] else [MsgKind.metadata])
      ++ List.replicate ((stored + t.length) / USRP_AUDIO_FRAME_LEN) MsgKind.voice
      ++ txKinds true ((stored + t.length) % USRP_AUDIO_FRAME_LEN) ops
  | _, stored, TxOp.stop :: ops => MsgKind.stop :: txKinds false stored ops

/-- The events that the lifecycle prescribes for a run: transmission_start
with the metadata message, transmission_stop with the stop message, both
with the selected talkgroup. -/
def txEvents (tg : Nat) : Bool → List TxOp → List (List Char)
  | _, [] => []
  | ident, TxOp.audio _ :: ops =>
    (if ident then [] else ["transmission_start ".toList ++ decimal tg]) ++ txEvents tg true ops
  | _, TxOp.stop :: ops => ("transmission_stop ".toList ++ decimal tg) :: txEvents tg false ops

/-- The `identified` flag that the lifecycle prescribes after a run. -/
def txIdent : Bool → List TxOp → Bool
  | ident, [] => ident
  | _, TxOp.audio _ :: ops => txIdent true ops
  | _, TxOp.stop :: ops => txIdent false ops

/-- The chunks of a run hold at most one network frame each. -/
def smallChunks : List TxOp → Prop
  | [] => True
  | TxOp.audio t :: ops => t.length ≤ USRP_AUDIO_FRAME_LEN ∧ smallChunks ops
  | TxOp.stop :: ops => smallChunks ops

instance (ops : List TxOp) : Decidable (smallChunks ops) := by
  induction ops with
  | nil => unfold smallChunks; infer_instance
  | cons op ops ih =>
    cases op with
    | audio t => unfold smallChunks; infer_instance
    | stop => unfold smallChunks; exact ih

end Usrp

namespace Dv3k

/-! ## The session registry (`Multiton`) and the construction of sessions -/

/-- The type `AudioCodecAmbe::Options`, a `std::map<string,string>`, held as the
list of its entries; two option sets are equal when the lists are. -/
abbrev Options := List (List Char × List Char)

/-- The call `options.find(name)`: the value found, `none` for `end()`. -/
def optFind : Options → List Char → Option (List Char)
  | [], _ => none
  | (k, v) :: rest, name => if k = name then some v else optFind rest name

/-- The transport a session was constructed with. -/
inductive Transport where
  /-- An `AudioCodecAmbeDv3kAmbeServer` with its `ambehost` and `ambeport`. -/
  | ambeServer (ambehost : List Char) (ambeport : Int)
  /-- An `AudioCodecAmbeDv3kTty` with its serial device and baud rate. -/
  | tty (device : List Char) (baudrate : Int)
  deriving DecidableEq, Repr

/-- How a construction ends when it does not yield a session. -/
inductive CreateError where
  /-- A `throw` of the given text. -/
  | thrown (what : List Char)
  /-- The `throw;` after a failed `serial->open`, with no exception to rethrow. -/
  | terminate
  deriving DecidableEq, Repr

/-- The result of a construction or of a request for a session. -/
inductive Created (α : Type) where
  | ok (value : α)
  | failed (error : CreateError)
  deriving DecidableEq, Repr

/-- The constructor `AudioCodecAmbeDv3kAmbeServer(options)`. -/
def newAmbeServer (options : Options) : Created Transport :=
  match optFind options "AMBESERVER_HOST".toList with
  | none => Created.failed
      (CreateError.thrown "*** ERROR: Parameter AMBESERVER_HOST not defined.".toList)
  | some ambehost =>
    match optFind options "AMBESERVER_PORT".toList with
    | none => Created.failed
        (CreateError.thrown "*** ERROR: Parameter AMBESERVER_PORT not defined.".toList)
    | some port => Created.ok (Transport.ambeServer ambehost (Usrp.atoi port))

/-- The constructor `AudioCodecAmbeDv3kTty(options)`; `serialOpens` tells
whether `serial->open(true)` succeeds for a device. -/
def newTty (serialOpens : List Char → Bool) (options : Options) : Created Transport :=
  match optFind options "TTY_DEVICE".toList with
  | none => Created.failed
      (CreateError.thrown "*** ERROR: Parameter AMBE_TTY_DEVICE not defined.".toList)
  | some device =>
    match optFind options "TTY_BAUDRATE".toList with
    | none => Created.failed
        (CreateError.thrown "*** ERROR: Parameter AMBE_TTY_BAUDRATE not defined.".toList)
    | some baud =>
      let baudrate := Usrp.atoi baud
      if baudrate ≠ 230400 ∧ baudrate ≠ 460800 then Created.failed
        (CreateError.thrown "*** ERROR: AMBE_TTY_BAUDRATE must be 230400 or 460800.".toList)
      else if !serialOpens device then Created.failed CreateError.terminate
      else Created.ok (Transport.tty device baudrate)

/-- The function `AudioCodecAmbeDv3k::create(options)`. -/
def create (serialOpens : List Char → Bool) (options : Options) : Created Transport :=
  match optFind options "TYPE".toList with
  | some type =>
    if type = "AMBESERVER".toList then newAmbeServer options
    else if type = "TTY".toList then newTty serialOpens options
    else Created.failed (CreateError.thrown "unknown Ambe codec TYPE".toList)
  | none => Created.failed (CreateError.thrown "unspecified Ambe codec TYPE".toList)

/-- A live session object: `serial` tells which construction made it (the
identity of the object), `transport` what it was constructed with. -/
structure Instance where
  serial : Nat
  transport : Transport
  deriving DecidableEq, Repr

/-- The static map `instances` of the `Multiton`, with the number of objects
constructed so far. -/
structure Registry where
  instances : List (Options × Instance)
  constructed : Nat
  deriving DecidableEq, Repr

/-- The registry at program start. -/
def emptyRegistry : Registry := { instances := [], constructed := 0 }

/-- The call `instances.find(key)`: the session stored for the key, `none` for `end()`. -/
def instFind : List (Options × Instance) → Options → Option Instance
  | [], _ => none
  | (k, i) :: rest, key => if k = key then some i else instFind rest key

/-- The function `Multiton::getPtr(key)`: the registry afterwards and what the
caller gets, a session or the exception of the constructor. -/
def getPtr (serialOpens : List Char → Bool) (reg : Registry) (key : Options) :
    Registry × Created Instance :=
  match instFind reg.instances key with
  | some inst => (reg, Created.ok inst)
  | none =>
    match create serialOpens key with
    | Created.failed e => (reg, Created.failed e)
    | Created.ok transport =>
      let inst : Instance := { serial := reg.constructed, transport := transport }
      ({ instances := (key, inst) :: reg.instances, constructed := reg.constructed + 1 },
        Created.ok inst)

/-- The function `Multiton::destroy(key)`. -/
def destroy (reg : Registry) (key : Options) : Registry :=
  { reg with instances := reg.instances.filter (fun e => decide (e.1 ≠ key)) }

/-- The function `Multiton::destroyAll()`. -/
def destroyAll (reg : Registry) : Registry :=
  { reg with instances := [] }

/-- The function `AudioCodecAmbe::create(options)`. -/
def AudioCodecAmbe_create (serialOpens : List Char → Bool) (reg : Registry)
    (options : Options) : Registry × Created Instance :=
  match optFind options "TYPE".toList with
  | some type =>
    if type = "AMBESERVER".toList ∨ type = "TTY".toList then getPtr serialOpens reg options
    else (reg, Created.failed (CreateError.thrown "unknown Ambe codec TYPE".toList))
  | none => (reg, Created.failed (CreateError.thrown "unspecified Ambe codec TYPE".toList))

/-- A request to the registry. -/
inductive Request where
  | getPtr (key : Options)
  | destroy (key : Options)
  | destroyAll
  deriving DecidableEq, Repr

/-- The registry after a request. -/
def serve (serialOpens : List Char → Bool) (reg : Registry) : Request → Registry
  | Request.getPtr key => (getPtr serialOpens reg key).1
  | Request.destroy key => destroy reg key
  | Request.destroyAll => destroyAll reg

/-- The registry after a sequence of requests. -/
def serveAll (serialOpens : List Char → Bool) : Registry → List Request → Registry
  | reg, [] => reg
  | reg, r :: rs => serveAll serialOpens (serve serialOpens reg r) rs

/-- No request of the list destroys the session of the key. -/
def keepsKey (key : Options) (reqs : List Request) : Prop :=
  ∀ r ∈ reqs, r ≠ Request.destroy key ∧ r ≠ Request.destroyAll

instance (key : Options) (reqs : List Request) : Decidable (keepsKey key reqs) := by
  unfold keepsKey; infer_instance

/-- The keys of the kinds that the specification lists as configuration
errors, the baud rate being the `int` that `atoi` makes of TTY_BAUDRATE: TYPE
absent or neither AMBESERVER nor TTY; AMBESERVER without AMBESERVER_HOST or
AMBESERVER_PORT; TTY without TTY_DEVICE or TTY_BAUDRATE, or with a baud rate
that is neither 230400 nor 460800. -/
def configError (options : Options) : Bool :=
  match optFind options "TYPE".toList with
  | none => true
  | some type =>
    if type = "AMBESERVER".toList then
      decide (optFind options "AMBESERVER_HOST".toList = none)
        || decide (optFind options "AMBESERVER_PORT".toList = none)
    else if type = "TTY".toList then
      decide (optFind options "TTY_DEVICE".toList = none)
        || match optFind options "TTY_BAUDRATE".toList with
          | none => true
          | some baud => decide (Usrp.atoi baud ≠ 230400 ∧ Usrp.atoi baud ≠ 460800)
    else true

/-- A key for a serial device with the given text as its baud rate. -/
def ttyKey (baud : List Char) : Options :=
  [("TTY_BAUDRATE".toList, baud), ("TTY_DEVICE".toList, "/dev/ttyUSB0".toList),
   ("TYPE".toList, "TTY".toList)]

/-- A key for a server at the given port. -/
def serverKey (port : List Char) : Options :=
  [("AMBESERVER_HOST".toList, "localhost".toList), ("AMBESERVER_PORT".toList, port),
   ("TYPE".toList, "AMBESERVER".toList)]

/-- The result is an exception thrown with a text, the form of every
configuration error of the constructors. -/
def isThrown {α : Type} : Created α → Bool
  | Created.failed (CreateError.thrown _) => true
  | _ => false

end Dv3k

namespace Dv3k

/-- What holds of every registry that requests can produce: at most one
entry per key, no two entries with the same session, and every session made
by a construction that has been counted. -/
def Sound (reg : Registry) : Prop :=
  (reg.instances.map Prod.fst).Nodup ∧
  (reg.instances.map (fun e => e.2.serial)).Nodup ∧
  ∀ e ∈ reg.instances, e.2.serial < reg.constructed

instance (reg : Registry) : Decidable (Sound reg) := by
  unfold Sound; infer_instance

end Dv3k

namespace Usrp

/-! ## Stream-state changes -/

/-- The function `UsrpLogic::onLogicConInStreamStateChanged`, the handler of the
stream-state detector on the side coming from the logic core; `is_active` and
`is_idle` are what the detector reports with the change. -/
def onLogicConInStreamStateChanged (pack : UdpMsg → Bool) (s : Logic)
    (is_active is_idle : Bool) : Logic :=
  let s := checkIdle s
  if is_idle then sendStopMsg pack s else s

/-- The function `UsrpLogic::onLogicConOutStreamStateChanged`, the handler of the
stream-state detector on the side going to the logic core. -/
def onLogicConOutStreamStateChanged (s : Logic) (is_active is_idle : Bool) : Logic :=
  checkIdle s

end Usrp

/-! # Properties of the device framing engine -/

namespace Dv3k

/-! ## Reassembly -/

/-- C1: the frames are the product-id response (15 bytes) and the version
response (10 bytes), the transport reads every chunk into its one buffer at
address 16 and calls `callback` with that address.  With the first frame cut
inside its payload, after 8 bytes, the second call finds the second chunk at
the address it had stored for the first one, appends the chunk to itself and
dispatches 45 33 30 30 30 52 00 42 45 33 30 30 30 52 00, not the frame
(the source notes on line 219 that the data of the first call has been
lost); the chunks of the source's own comment, collected by later calls, are
not collected.  Apart from that: two frames in one chunk are dispatched as
one frame of 25 bytes; a frame cut inside its header is not dispatched at
all; and after a frame of type 0x01, whose dispatch aborts the program at
the assertion of `unpackEncoded`, no later frame is dispatched. -/
theorem reassembly_fails :
    validFrame false prodidResponse ∧ validFrame false versidResponse ∧
    validFrame true prodidResponse ∧ validFrame true versidResponse ∧
    (feedMem false (constructMem 0 0) exampleMemory
        (reused 16 [prodidResponse.take 8, prodidResponse.drop 8, versidResponse])).frames
      = [[0x45, 0x33, 0x30, 0x30, 0x30, 0x52, 0x00, 0x42, 0x45, 0x33, 0x30, 0x30, 0x30, 0x52,
          0x00], versidResponse] ∧
    (feedMem true (constructMem 0 0) exampleMemory
        (reused 16 [prodidResponse.take 8, prodidResponse.drop 8, versidResponse])).frames
      = [[0x45, 0x33, 0x30, 0x30, 0x30, 0x52, 0x00, 0x42, 0x45, 0x33, 0x30, 0x30, 0x30, 0x52,
          0x00], versidResponse] ∧
    (feedMem false (constructMem 0 0) exampleMemory
        (reused 16 [prodidResponse.take 8, prodidResponse.drop 8, versidResponse])).frames
      ≠ [prodidResponse, versidResponse] ∧
    (feedMem false (constructMem 0 0) exampleMemory
        (reused 16 [prodidResponse ++ versidResponse])).frames
      = [prodidResponse ++ versidResponse] ∧
    (feedMem false (constructMem 0 0) exampleMemory
        (reused 16 [versidResponse.take 2, versidResponse.drop 2])).frames = [] ∧
    validFrame false [0x61, 0x00, 0x01, 0x01, 0xaa] ∧
    (feedMem false (constructMem 0 0) exampleMemory
        (reused 16 [[0x61, 0x00, 0x01, 0x01, 0xaa], versidResponse])).frames
      = [[0x61, 0x00, 0x01, 0x01, 0xaa]] ∧
    (feedMem false (constructMem 0 0) exampleMemory
        (reused 16 [[0x61, 0x00, 0x01, 0x01, 0xaa], versidResponse])).effects
      = [Effect.unimplemented] := by
  refine ⟨by decide, by decide, by decide, by decide, by decide, by decide, by decide,
    by decide, by decide, by decide, by decide, by decide⟩


theorem dispatch_offline (sgn : Bool) (s : Session) (f : List Nat)
    (h : s.m_state = STATE.OFFLINE) : (dispatch sgn s f).1.m_state = STATE.OFFLINE := by
  unfold dispatch
  simp only
  split_ifs <;> simp [h]

theorem callback_offline (sgn : Bool) (s : Session) (c : List Nat)
    (h : s.m_state = STATE.OFFLINE) : (callback sgn s c).st.m_state = STATE.OFFLINE := by
  unfold callback
  simp only
  split_ifs
  · simpa [init] using h
  · simpa using h
  · exact dispatch_offline sgn _ _ (by simpa using h)
  · exact dispatch_offline sgn _ _ (by simpa using h)
  · simpa using h
  · exact h

/-- From OFFLINE no sequence of chunks ever changes the handshake state. -/
theorem stateAfter_offline (sgn : Bool) (chunks : List (List Nat)) :
    ∀ s : Session, s.m_state = STATE.OFFLINE →
      (stateAfter sgn s chunks).m_state = STATE.OFFLINE := by
  induction chunks with
  | nil => intro s h; simpa [stateAfter, feed] using h
  | cons c cs ih =>
    intro s h
    have h1 := callback_offline sgn s c h
    have h2 := ih (callback sgn s c).st h1
    simp only [stateAfter, feed] at h2 ⊢
    split_ifs
    · exact h1
    · exact h2

/-- C4: a session that was constructed and opened (state OFFLINE, `init()` has
sent the PRODID request) and is then fed a complete product-id response and a
complete version response is still OFFLINE, not READY, and has sent nothing
in reply: `init()` never leaves OFFLINE, and the control dispatch has no
branch for OFFLINE. -/
theorem handshake_stuck_offline :
    (init (construct 0 0)).2 = [Effect.send [0x61, 0x00, 0x01, 0x00, 0x30]] ∧
    (stateAfter false (opened 0 0) [prodidResponse, versidResponse]).m_state = STATE.OFFLINE ∧
    (stateAfter true (opened 0 0) [prodidResponse, versidResponse]).m_state = STATE.OFFLINE ∧
    (stateAfter false (opened 0 0) [prodidResponse, versidResponse]).m_state ≠ STATE.READY ∧
    (feed false (opened 0 0) [prodidResponse, versidResponse]).2.1 = [] ∧
    framesOf false (opened 0 0) [prodidResponse, versidResponse]
      = [prodidResponse, versidResponse] := by
  refine ⟨by decide, by decide, by decide, by decide, by decide, by decide⟩

/-- C5: in every handshake state and every reassembly state, a chunk shorter
than the 4-byte header makes `callback` send exactly one PRODID request
(61 00 01 00 30), dispatch no frame, and leave the whole session (handshake
state, pending buffer, expected payload length) as it was. -/
theorem callback_short_chunk (sgn : Bool) (s : Session) (buffer : List Nat)
    (h : buffer.length < 4) :
    callback sgn s buffer
      = { st := s, effects := [Effect.send [0x61, 0x00, 0x01, 0x00, 0x30]], frame := none } := by
  simp [callback, h, init, DV3K_REQ_PRODID, DV3K_START_BYTE, DV3K_TYPE_CONTROL,
    DV3K_CONTROL_PRODID]

theorem callback_short_chunk_witness :
    callback true
        { m_state := STATE.VERSID, stored_bufferlen := 160, t_buffer := [0x61, 0, 160, 2, 7],
          t_b := 5 } [0x61, 0x00, 0x0b]
      = { st := { m_state := STATE.VERSID, stored_bufferlen := 160,
                  t_buffer := [0x61, 0, 160, 2, 7], t_b := 5 },
          effects := [Effect.send [0x61, 0x00, 0x01, 0x00, 0x30]], frame := none } :=
  callback_short_chunk true _ [0x61, 0x00, 0x0b] (by decide)

/-! ## Outbound sub-frame packetization -/

/-- C6: for a superframe of any size, 27 bytes included, the loop
`for (a=0; a<=27; a+=9)` runs four times: `send` is called four times, and the
offsets read from the superframe are 0..35, so the fourth packet is built from
the nine bytes that follow a 27-byte superframe in memory. -/
theorem writeEncodedSamples_four_sends (garbage : Nat → Nat) (buf : List Nat)
    (beyond : Nat → Nat) :
    (writeEncodedSamples garbage buf beyond).sent.length = 4 ∧
    (writeEncodedSamples garbage buf beyond).reads = List.range 36 ∧
    (writeEncodedSamples garbage (List.range 27) beyond).sent.getD 3 []
      = [0x61, 0x00, 0x0c, 0x01, 0x01, 0x48] ++ (List.range 9).map beyond ++ [garbage 15] ∧
    27 ∈ (writeEncodedSamples garbage (List.range 27) beyond).reads := by
  refine ⟨?_, ?_, ?_, ?_⟩
  · simp [writeEncodedSamples, writeLoop]
  · simp [writeEncodedSamples, writeLoop, AMBE_BYTE_LEN]; decide
  · simp [writeEncodedSamples, writeLoop, AMBE_BYTE_LEN, localArray, memcpy, bytesAt, byteAt,
      packForDecoding, DV3K_AMBE_HEADERFRAME, DV3K_AMBE_HEADERFRAME_LEN, DV3K_START_BYTE,
      DV3K_TYPE_AMBE, List.range, List.range.loop]
  · simp [writeEncodedSamples, writeLoop, AMBE_BYTE_LEN]

theorem bytesAt_inside (buf : List Nat) (beyond : Nat → Nat) (a n : Nat)
    (h : a + n ≤ buf.length) : bytesAt buf beyond a n = (buf.drop a).take n := by
  apply List.ext_getElem
  · simp [bytesAt]; omega
  · intro i h1 h2
    simp only [bytesAt, List.length_map, List.length_range] at h1
    simp [bytesAt, byteAt, List.getD_eq_getElem?_getD]
    have : a + i < buf.length := by omega
    simp [this]

/-- One round of the loop body on the local array: header, sub-frame, and the
untouched last byte. -/
theorem array_after_round (arr bs : List Nat) (g : Nat) (h : arr.drop 15 = [g])
    (hb : bs.length = 9) :
    memcpy (memcpy arr 0 (DV3K_AMBE_HEADERFRAME.take DV3K_AMBE_HEADERFRAME_LEN))
        DV3K_AMBE_HEADERFRAME_LEN bs
      = [0x61, 0x00, 0x0c, 0x01, 0x01, 0x48] ++ bs ++ [g] := by
  have h2 : List.drop 9 (List.drop 6 arr) = [g] := by rw [List.drop_drop]; exact h
  simp [memcpy, DV3K_AMBE_HEADERFRAME, DV3K_AMBE_HEADERFRAME_LEN, DV3K_START_BYTE,
    DV3K_TYPE_AMBE, hb, h2]

theorem localArray_last (garbage : Nat → Nat) : (localArray garbage).drop 15 = [garbage 15] := by
  simp [localArray, List.range, List.range.loop]

/-- C7: for every 27-byte superframe and each k in 0, 1, 2, the k-th packet
that `writeEncodedSamples` hands to `send` is not the 15 bytes of header and
sub-frame but the whole local array of 16 bytes: the 6-byte header
61 00 0c 01 01 48, the 9 superframe bytes at offsets 9k..9k+8, and behind
them byte 15 of the array, which the function never sets.  An uninitialised
byte of the stack goes out on the transport with every packet, where the
comment of the source says "sending HEADER + 9 bytes" and the two `memcpy`
fill 6 and 9 bytes. -/
theorem subframe_packet (garbage : Nat → Nat) (buf : List Nat) (beyond : Nat → Nat)
    (k : Nat) (hlen : buf.length = 27) (hk : k < 3) :
    (writeEncodedSamples garbage buf beyond).sent.getD k []
      = [0x61, 0x00, 0x0c, 0x01, 0x01, 0x48] ++ (buf.drop (9 * k)).take 9 ++ [garbage 15] ∧
    ((writeEncodedSamples garbage buf beyond).sent.getD k []).length = 16 := by
  have e0 := bytesAt_inside buf beyond 0 9 (by omega)
  have e1 := bytesAt_inside buf beyond 9 9 (by omega)
  have e2 := bytesAt_inside buf beyond 18 9 (by omega)
  have l0 : ((buf.drop 0).take 9).length = 9 := by simp; omega
  have l1 : ((buf.drop 9).take 9).length = 9 := by simp; omega
  have l2 : ((buf.drop 18).take 9).length = 9 := by simp; omega
  have g0 := localArray_last garbage
  have a0 := array_after_round (localArray garbage) _ _ g0 l0
  have g1 : ([0x61, 0x00, 0x0c, 0x01, 0x01, 0x48] ++ (buf.drop 0).take 9 ++ [garbage 15]).drop 15
      = [garbage 15] := by
    rw [List.drop_append_of_le_length (by simp; omega)]
    rw [List.drop_of_length_le (by simp)]
    rfl
  have a1 := array_after_round _ _ _ g1 l1
  have g2 : ([0x61, 0x00, 0x0c, 0x01, 0x01, 0x48] ++ (buf.drop 9).take 9 ++ [garbage 15]).drop 15
      = [garbage 15] := by
    rw [List.drop_append_of_le_length (by simp; omega)]
    rw [List.drop_of_length_le (by simp)]
    rfl
  have a2 := array_after_round _ _ _ g2 l2
  have t0 : ∀ bs : List Nat, bs.length = 9 →
      List.take 16 ([0x61, 0x00, 0x0c, 0x01, 0x01, 0x48] ++ bs ++ [garbage 15])
        = [0x61, 0x00, 0x0c, 0x01, 0x01, 0x48] ++ bs ++ [garbage 15] := by
    intro bs hbs; apply List.take_of_length_le; simp; omega
  have hk3 : k = 0 ∨ k = 1 ∨ k = 2 := by omega
  rcases hk3 with rfl | rfl | rfl
  · simp only [writeEncodedSamples, writeLoop, packForDecoding, AMBE_BYTE_LEN, e0, a0, t0 _ l0]
    simp; omega
  · simp only [writeEncodedSamples, writeLoop, packForDecoding, AMBE_BYTE_LEN, e0, a0, e1, a1,
      t0 _ l1]
    simp; omega
  · simp only [writeEncodedSamples, writeLoop, packForDecoding, AMBE_BYTE_LEN, e0, a0, e1, a1,
      e2, a2, t0 _ l2]
    simp; omega

theorem subframe_packet_witness :
    ((writeEncodedSamples (fun _ => 0xaa) (List.range 27) (fun _ => 0)).sent.getD 2 []
      = [0x61, 0x00, 0x0c, 0x01, 0x01, 0x48] ++ ((List.range 27).drop (9 * 2)).take 9 ++ [0xaa] ∧
    ((writeEncodedSamples (fun _ => 0xaa) (List.range 27) (fun _ => 0)).sent.getD 2 []).length
      = 16) ∧
    (writeEncodedSamples (fun _ => 0xaa) (List.range 27) (fun _ => 0)).sent.getD 0 []
      = [0x61, 0x00, 0x0c, 0x01, 0x01, 0x48, 0, 1, 2, 3, 4, 5, 6, 7, 8, 0xaa] ∧
    (writeEncodedSamples (fun _ => 0xaa) (List.range 27) (fun _ => 0)).sent.getD 0 []
      ≠ [0x61, 0x00, 0x0c, 0x01, 0x01, 0x48] ++ ((List.range 27).drop 0).take 9 ∧
    (writeEncodedSamples (fun _ => 0x55) (List.range 27) (fun _ => 0)).sent.getD 0 []
      = [0x61, 0x00, 0x0c, 0x01, 0x01, 0x48, 0, 1, 2, 3, 4, 5, 6, 7, 8, 0x55] :=
  ⟨subframe_packet (fun _ => 0xaa) (List.range 27) (fun _ => 0) 2 (by decide) (by decide),
    by decide, by decide, by decide⟩

end Dv3k

/-! # Properties of the USRP logic core -/

namespace Usrp

/-! ## Sequence numbers -/

theorem sendAudioMsg_packed (s : Logic) (usrp : UdpMsg) :
    (sendAudioMsg (fun _ => true) s usrp).udp_seq = nextSeq s.udp_seq ∧
    seqs (sendAudioMsg (fun _ => true) s usrp) = seqs s ++ [nextSeq s.udp_seq] := by
  simp [sendAudioMsg, sendUdpMessage, seqs]

/-- While the counter is at most 0x7fff before each call, every message
carries the counter plus one. -/
theorem sendAudioMsgTimes_rising (n : Nat) :
    ∀ s : Logic, 0 ≤ s.udp_seq → s.udp_seq + n ≤ 0x8000 →
      (sendAudioMsgTimes (fun _ => true) n s).udp_seq = s.udp_seq + n ∧
      seqs (sendAudioMsgTimes (fun _ => true) n s)
        = seqs s ++ (List.range n).map (fun (i : Nat) => s.udp_seq + 1 + (i : Int)) := by
  induction n with
  | zero => intro s _ _; simp [sendAudioMsgTimes]
  | succ n ih =>
    intro s h0 hle
    obtain ⟨e1, e2⟩ := sendAudioMsg_packed s { kind := MsgKind.voice, seq := 0, audio := [] }
    have hn : nextSeq s.udp_seq = s.udp_seq + 1 := by
      unfold nextSeq; rw [if_neg]; push_cast at hle; omega
    rw [hn] at e1 e2
    have := ih (sendAudioMsg (fun _ => true) s { kind := MsgKind.voice, seq := 0, audio := [] })
      (by rw [e1]; omega) (by rw [e1]; push_cast at hle ⊢; omega)
    rw [e1, e2] at this
    simp only [sendAudioMsgTimes]
    refine ⟨by rw [this.1]; push_cast; ring, ?_⟩
    rw [this.2, List.range_succ_eq_map, List.append_assoc]
    simp only [List.map_cons, List.map_map, List.singleton_append, Nat.cast_zero, add_zero]
    congr 2
    apply List.map_congr_left
    intro a _
    simp only [Function.comp, Nat.cast_succ]
    ring

theorem sendAudioMsgTimes_add (m n : Nat) (s : Logic) :
    sendAudioMsgTimes (fun _ => true) (m + n) s
      = sendAudioMsgTimes (fun _ => true) n (sendAudioMsgTimes (fun _ => true) m s) := by
  induction m generalizing s with
  | zero => simp [sendAudioMsgTimes]
  | succ m ih => rw [Nat.succ_add]; simp only [sendAudioMsgTimes]; exact ih _

/-- C2: of 0x8001 messages sent one after another by a fresh logic core
(udp_seq = 0), the k-th carries k for k = 1 .. 0x8000 and the last carries 0.
So the message after the one carrying 0x7fff carries 0x8000, a number above
0x7fff, and only the message after that one carries 0. -/
theorem seq_wraps_after_0x8000 (garbage : Nat → Int) (dmrid : Nat) :
    seqs (sendAudioMsgTimes (fun _ => true) 0x8001 (fresh garbage dmrid))
      = (List.range 0x8000).map (fun (i : Nat) => 1 + (i : Int)) ++ [0] ∧
    (seqs (sendAudioMsgTimes (fun _ => true) 0x8001 (fresh garbage dmrid))).getD 0x7ffe 0
      = 0x7fff ∧
    (seqs (sendAudioMsgTimes (fun _ => true) 0x8001 (fresh garbage dmrid))).getD 0x7fff 0
      = 0x8000 ∧
    (seqs (sendAudioMsgTimes (fun _ => true) 0x8001 (fresh garbage dmrid))).getD 0x8000 1
      = 0 := by
  have h := sendAudioMsgTimes_rising 0x8000 (fresh garbage dmrid) (by simp [fresh])
    (by simp [fresh])
  have hs : seqs (fresh garbage dmrid) = [] := rfl
  have hu : (fresh garbage dmrid).udp_seq = 0 := rfl
  rw [hs, hu] at h
  obtain ⟨h1, h2⟩ := h
  have e := sendAudioMsg_packed (sendAudioMsgTimes (fun _ => true) 0x8000 (fresh garbage dmrid))
    { kind := MsgKind.voice, seq := 0, audio := [] }
  rw [h1, h2] at e
  have hw : nextSeq (0 + ((0x8000 : Nat) : Int)) = 0 := by decide
  rw [hw] at e
  have hall : seqs (sendAudioMsgTimes (fun _ => true) 0x8001 (fresh garbage dmrid))
      = (List.range 0x8000).map (fun (i : Nat) => 1 + (i : Int)) ++ [0] := by
    have : (0x8001 : Nat) = 0x8000 + 1 := by norm_num
    have one : ∀ x : Logic, sendAudioMsgTimes (fun _ => true) 1 x
        = sendAudioMsg (fun _ => true) x { kind := MsgKind.voice, seq := 0, audio := [] } :=
      fun _ => rfl
    rw [this, sendAudioMsgTimes_add, one, e.2, List.nil_append]
    congr 1
  have hlen : ((List.range 0x8000).map (fun (i : Nat) => 1 + (i : Int))).length = 0x8000 := by
    rw [List.length_map, List.length_range]
  refine ⟨hall, ?_, ?_, ?_⟩
  · rw [hall, List.getD_append _ _ _ _ (by rw [hlen]; norm_num),
      List.getD_eq_getElem _ _ (by rw [hlen]; norm_num)]
    simp only [List.getElem_map, List.getElem_range]
    norm_num
  · rw [hall, List.getD_append _ _ _ _ (by rw [hlen]; norm_num),
      List.getD_eq_getElem _ _ (by rw [hlen]; norm_num)]
    simp only [List.getElem_map, List.getElem_range]
    norm_num
  · rw [hall, List.getD_append_right _ _ _ _ (by rw [hlen])]
    simp only [hlen, Nat.sub_self, List.getD_cons_zero]

/-! ## Repacking of encoded audio -/

theorem memcpy_length {α : Type} (dst src : List α) (off : Nat)
    (h : off + src.length ≤ dst.length) : (memcpy dst off src).length = dst.length := by
  simp [memcpy]; omega

theorem memcpy_take {α : Type} (dst src : List α) (off : Nat) (h : off ≤ dst.length) :
    (memcpy dst off src).take (off + src.length) = dst.take off ++ src := by
  have hl : (dst.take off ++ src).length = off + src.length := by simp; omega
  unfold memcpy
  rw [← hl, List.take_left]

theorem take_add_drop {α : Type} (l : List α) (a b : Nat) :
    l.take a ++ (l.drop a).take b = l.take (a + b) := by
  rw [List.take_add]

/-- One round of the loop of `sendEncodedAudio`, when a full frame is stored. -/
theorem drain_round (pack : UdpMsg → Bool) (fuel : Nat) (s : Logic)
    (h : USRP_AUDIO_FRAME_LEN ≤ s.stored_samples) :
    drain pack (fuel + 1) s
      = drain pack fuel
          { sendAudioMsg pack s (setAudioData { kind := MsgKind.voice, seq := 0, audio := [] }
              s.r_buf) with
            r_buf := memcpy s.r_buf 0
              ((s.r_buf.drop USRP_AUDIO_FRAME_LEN).take (s.stored_samples - USRP_AUDIO_FRAME_LEN))
            stored_samples := s.stored_samples - USRP_AUDIO_FRAME_LEN } := by
  have e1 : ∀ m, (sendAudioMsg pack s m).r_buf = s.r_buf := by
    intro m; unfold sendAudioMsg sendUdpMessage; simp only; split_ifs <;> rfl
  have e2 : ∀ m, (sendAudioMsg pack s m).stored_samples = s.stored_samples := by
    intro m; unfold sendAudioMsg sendUdpMessage; simp only; split_ifs <;> rfl
  simp only [drain, ge_iff_le, h, if_true, e1, e2]

theorem drain_done (pack : UdpMsg → Bool) (fuel : Nat) (s : Logic)
    (h : s.stored_samples < USRP_AUDIO_FRAME_LEN) : drain pack fuel s = s := by
  cases fuel with
  | zero => rfl
  | succ n => simp only [drain, ge_iff_le, Nat.not_le.mpr h, if_false]

/-- What the loop of `sendEncodedAudio` does when packing succeeds: it leaves
fewer than 160 samples, sends one voice message of 160 samples per full
frame stored, and neither loses nor reorders a sample. -/
theorem drain_spec (fuel : Nat) :
    ∀ s : Logic, s.stored_samples ≤ fuel → s.stored_samples ≤ s.r_buf.length →
      (drain (fun _ => true) fuel s).stored_samples = s.stored_samples % USRP_AUDIO_FRAME_LEN ∧
      (drain (fun _ => true) fuel s).r_buf.length = s.r_buf.length ∧
      audioSent (drain (fun _ => true) fuel s) ++ pending (drain (fun _ => true) fuel s)
        = audioSent s ++ pending s ∧
      (drain (fun _ => true) fuel s).ident = s.ident ∧
      ∃ new : List UdpMsg, (drain (fun _ => true) fuel s).sent = s.sent ++ new ∧
        new.length = s.stored_samples / USRP_AUDIO_FRAME_LEN ∧
        ∀ m ∈ new, m.kind = MsgKind.voice ∧ m.audio.length = USRP_AUDIO_FRAME_LEN := by
  induction fuel with
  | zero =>
    intro s h0 _
    have hz : s.stored_samples = 0 := by omega
    simp [drain, hz, USRP_AUDIO_FRAME_LEN]
  | succ n ih =>
    intro s hf hl
    by_cases hge : USRP_AUDIO_FRAME_LEN ≤ s.stored_samples
    · rw [drain_round _ n s hge]
      have h160 : USRP_AUDIO_FRAME_LEN = 160 := rfl
      have hX : ((s.r_buf.drop USRP_AUDIO_FRAME_LEN).take
          (s.stored_samples - USRP_AUDIO_FRAME_LEN)).length
            = s.stored_samples - USRP_AUDIO_FRAME_LEN := by
        rw [List.length_take, List.length_drop]; omega
      obtain ⟨i1, i2, i3, i4, new, i5, i6, i7⟩ := ih
        { sendAudioMsg (fun _ => true) s
            (setAudioData { kind := MsgKind.voice, seq := 0, audio := [] } s.r_buf) with
          r_buf := memcpy s.r_buf 0
            ((s.r_buf.drop USRP_AUDIO_FRAME_LEN).take (s.stored_samples - USRP_AUDIO_FRAME_LEN))
          stored_samples := s.stored_samples - USRP_AUDIO_FRAME_LEN }
        (by simp only; omega)
        (by simp only; rw [memcpy_length _ _ _ (by rw [hX]; omega)]; omega)
      simp only at i1 i2 i3 i4 i5
      refine ⟨?_, ?_, ?_, ?_, ?_⟩
      · rw [i1, h160]; omega
      · rw [i2, memcpy_length _ _ _ (by rw [hX]; omega)]
      · rw [i3]
        have hp : (memcpy s.r_buf 0 ((s.r_buf.drop USRP_AUDIO_FRAME_LEN).take
            (s.stored_samples - USRP_AUDIO_FRAME_LEN))).take
              (s.stored_samples - USRP_AUDIO_FRAME_LEN)
            = (s.r_buf.drop USRP_AUDIO_FRAME_LEN).take
                (s.stored_samples - USRP_AUDIO_FRAME_LEN) := by
          have := memcpy_take s.r_buf ((s.r_buf.drop USRP_AUDIO_FRAME_LEN).take
            (s.stored_samples - USRP_AUDIO_FRAME_LEN)) 0 (Nat.zero_le _)
          rw [hX, Nat.zero_add] at this
          rw [this]; simp
        simp only [audioSent, pending, hp, sendAudioMsg, sendUdpMessage, setAudioData,
          Bool.not_true, Bool.false_eq_true, if_false, List.map_append, List.map_cons,
          List.map_nil, List.flatten_append, List.flatten_cons, List.flatten_nil,
          List.append_nil, List.append_assoc]
        rw [take_add_drop, Nat.add_sub_cancel' hge]
      · rw [i4]; simp [sendAudioMsg, sendUdpMessage]
      · refine ⟨setAudioData { kind := MsgKind.voice, seq := nextSeq s.udp_seq, audio := [] }
          s.r_buf :: new, ?_, ?_, ?_⟩
        · rw [i5]; simp [sendAudioMsg, sendUdpMessage, setAudioData]
        · simp only [List.length_cons, i6, h160]; omega
        · intro m hm
          rcases List.mem_cons.mp hm with rfl | hm
          · simp only [setAudioData, List.length_take, true_and]; omega
          · exact i7 m hm
    · have hlt : s.stored_samples < USRP_AUDIO_FRAME_LEN := Nat.not_le.mp hge
      rw [drain_done _ _ s hlt]
      refine ⟨(Nat.mod_eq_of_lt hlt).symm, rfl, rfl, rfl, [], by simp, ?_, by simp⟩
      simp [Nat.div_eq_of_lt hlt]

theorem sendMetaMsg_buffer (pack : UdpMsg → Bool) (s : Logic) :
    (sendMetaMsg pack s).r_buf = s.r_buf ∧
    (sendMetaMsg pack s).stored_samples = s.stored_samples := by
  unfold sendMetaMsg processEvent checkIdle setIdle sendUdpMessage
  simp only
  split_ifs <;> exact ⟨rfl, rfl⟩

/-- The copy into `r_buf` is the only place where `sendEncodedAudio` can
fail, and it fails exactly when the chunk does not fit behind the stored
samples. -/
theorem sendEncodedAudio_eq_none_iff (pack : UdpMsg → Bool) (s : Logic) (t : List Int) :
    sendEncodedAudio pack s t (2 * t.length) = none
      ↔ s.r_buf.length < s.stored_samples + t.length := by
  have hlen : 2 * t.length * 1 / 2 = t.length := by omega
  have hb := sendMetaMsg_buffer pack s
  unfold sendEncodedAudio
  simp only [hlen, lt_irrefl, false_or]
  split_ifs with h1 h2 h3 h4 h5 <;> simp_all

/-- The state on which `sendEncodedAudio` starts to copy: after the metadata
message, if one is due, and with the flush timer disabled. -/
theorem sendMetaMsg_packed (s : Logic) :
    (sendMetaMsg (fun _ => true) s).r_buf = s.r_buf ∧
    (sendMetaMsg (fun _ => true) s).stored_samples = s.stored_samples ∧
    (sendMetaMsg (fun _ => true) s).ident = true ∧
    audioSent (sendMetaMsg (fun _ => true) s) = audioSent s ∧
    voiceSent (sendMetaMsg (fun _ => true) s) = voiceSent s := by
  simp [sendMetaMsg, processEvent, checkIdle, setIdle, sendUdpMessage, audioSent, voiceSent]

/-- One `sendEncodedAudio` call whose chunk fits into `r_buf`, packing
succeeding: the call returns, leaves fewer than 160 samples, sends one voice
message of 160 samples for each full frame, and the samples sent followed by
the samples kept are the earlier ones followed by the chunk. -/
theorem sendEncodedAudio_fits (s : Logic) (t : List Int)
    (h : s.stored_samples + t.length ≤ s.r_buf.length) :
    ∃ s1 : Logic, ∃ new : List UdpMsg,
      sendEncodedAudio (fun _ => true) s t (2 * t.length) = some s1 ∧
      s1.stored_samples = (s.stored_samples + t.length) % USRP_AUDIO_FRAME_LEN ∧
      s1.r_buf.length = s.r_buf.length ∧
      audioSent s1 ++ pending s1 = audioSent s ++ pending s ++ t ∧
      voiceSent s1 = voiceSent s ++ new ∧
      new.length = (s.stored_samples + t.length) / USRP_AUDIO_FRAME_LEN ∧
      (∀ m ∈ new, m.kind = MsgKind.voice ∧ m.audio.length = USRP_AUDIO_FRAME_LEN) ∧
      s1.ident = true := by
  have hlen : 2 * t.length * 1 / 2 = t.length := by omega
  -- the state before the copy
  obtain ⟨s0, hs0, b1, b2, b3, b4, b5⟩ : ∃ s0 : Logic,
      (if (!s.ident) = true then sendMetaMsg (fun _ => true) s else s) = s0 ∧
      s0.r_buf = s.r_buf ∧ s0.stored_samples = s.stored_samples ∧ s0.ident = true ∧
      audioSent s0 = audioSent s ∧ voiceSent s0 = voiceSent s := by
    refine ⟨_, rfl, ?_⟩
    obtain ⟨m1, m2, m3, m4, m5⟩ := sendMetaMsg_packed s
    cases hi : s.ident
    · simpa using ⟨m1, m2, m3, m4, m5⟩
    · simp [hi]
  obtain ⟨s0f, hs0f, f1, f2, f3, f4, f5⟩ : ∃ s0f : Logic,
      (if s0.flush_timer_enabled = true then { s0 with flush_timer_enabled := false } else s0)
        = s0f ∧
      s0f.r_buf = s.r_buf ∧ s0f.stored_samples = s.stored_samples ∧ s0f.ident = true ∧
      audioSent s0f = audioSent s ∧ voiceSent s0f = voiceSent s := by
    refine ⟨_, rfl, ?_⟩
    split_ifs
    · exact ⟨b1, b2, b3, b4, b5⟩
    · exact ⟨b1, b2, b3, b4, b5⟩
  have hfit : ¬ (t.length < t.length ∨ s0f.r_buf.length < s0f.stored_samples + t.length) := by
    rw [f1, f2]; omega
  have hE : sendEncodedAudio (fun _ => true) s t (2 * t.length)
      = some (drain (fun _ => true) (s0f.stored_samples + t.length)
          { s0f with r_buf := memcpy s0f.r_buf s0f.stored_samples t,
                     stored_samples := s0f.stored_samples + t.length }) := by
    unfold sendEncodedAudio
    simp only [hlen, hs0, hs0f, hfit, if_false, List.take_length]
  obtain ⟨d1, d2, d3, d4, new, d5, d6, d7⟩ := drain_spec (s0f.stored_samples + t.length)
    { s0f with r_buf := memcpy s0f.r_buf s0f.stored_samples t,
               stored_samples := s0f.stored_samples + t.length }
    (le_refl _)
    (by simp only; rw [memcpy_length _ _ _ (by rw [f1, f2]; exact h), f1, f2]; exact h)
  simp only at d1 d2 d4 d5
  refine ⟨_, new, hE, ?_, ?_, ?_, ?_, d6.trans (by rw [f2]), d7, d4.trans f3⟩
  · rw [d1, f2]
  · rw [d2, memcpy_length _ _ _ (by rw [f1, f2]; exact h), f1]
  · rw [d3]
    have hp : pending { s0f with r_buf := memcpy s0f.r_buf s0f.stored_samples t,
                                  stored_samples := s0f.stored_samples + t.length }
        = pending s ++ t := by
      simp only [pending]
      rw [memcpy_take _ _ _ (by rw [f1, f2]; omega), f1, f2]
    have ha : audioSent { s0f with r_buf := memcpy s0f.r_buf s0f.stored_samples t,
                                   stored_samples := s0f.stored_samples + t.length }
        = audioSent s := f4
    rw [hp, ha, List.append_assoc]
  · have hv : voiceSent { s0f with r_buf := memcpy s0f.r_buf s0f.stored_samples t,
                                   stored_samples := s0f.stored_samples + t.length }
        = voiceSent s := f5
    have : List.filter (fun m => decide (m.kind = MsgKind.voice)) new = new :=
      List.filter_eq_self.mpr (fun m hm => by simpa using (d7 m hm).1)
    simp only [voiceSent] at hv ⊢
    rw [d5, List.filter_append, hv, this]

/-- A run of `sendEncodedAudio` calls with chunks of at most 160 samples
each, packing succeeding, from a state with a 320-sample `r_buf` holding
fewer than 160 samples: every call returns; afterwards the voice messages
sent during the run number (stored + total) / 160, each carries 160 samples,
(stored + total) mod 160 samples are kept, and the samples sent followed by
the samples kept are the earlier ones followed by the chunks in call order. -/
theorem sendEncodedAudioAll_fits (chunks : List (List Int)) :
    ∀ s : Logic, s.r_buf.length = 2 * USRP_AUDIO_FRAME_LEN →
      s.stored_samples < USRP_AUDIO_FRAME_LEN →
      (∀ t ∈ chunks, t.length ≤ USRP_AUDIO_FRAME_LEN) →
      ∃ s1 : Logic, ∃ new : List UdpMsg,
        sendEncodedAudioAll (fun _ => true) s chunks = some s1 ∧
        s1.stored_samples = (s.stored_samples + chunks.flatten.length) % USRP_AUDIO_FRAME_LEN ∧
        s1.r_buf.length = 2 * USRP_AUDIO_FRAME_LEN ∧
        audioSent s1 ++ pending s1 = audioSent s ++ pending s ++ chunks.flatten ∧
        voiceSent s1 = voiceSent s ++ new ∧
        new.length = (s.stored_samples + chunks.flatten.length) / USRP_AUDIO_FRAME_LEN ∧
        (∀ m ∈ new, m.kind = MsgKind.voice ∧ m.audio.length = USRP_AUDIO_FRAME_LEN) := by
  have h160 : USRP_AUDIO_FRAME_LEN = 160 := rfl
  induction chunks with
  | nil =>
    intro s _ hs _
    refine ⟨s, [], rfl, ?_, by assumption, by simp, by simp, ?_, by simp⟩
    · simp only [List.flatten_nil, List.length_nil, Nat.add_zero]
      exact (Nat.mod_eq_of_lt hs).symm
    · simp only [List.flatten_nil, List.length_nil, Nat.add_zero, List.length_nil]
      exact (Nat.div_eq_of_lt hs).symm
  | cons t ts ih =>
    intro s hr hs ht
    have htl := ht t (List.mem_cons_self _ _)
    obtain ⟨s1, new1, e1, e2, e3, e4, e5, e6, e7, _⟩ :=
      sendEncodedAudio_fits s t (by rw [hr]; omega)
    obtain ⟨s2, new2, g1, g2, g3, g4, g5, g6, g7⟩ := ih s1 (by rw [e3, hr])
      (by rw [e2]; exact Nat.mod_lt _ (by rw [h160]; norm_num))
      (fun u hu => ht u (List.mem_cons_of_mem _ hu))
    refine ⟨s2, new1 ++ new2, ?_, ?_, g3, ?_, ?_, ?_, ?_⟩
    · simp only [sendEncodedAudioAll, e1, g1]
    · rw [g2, e2, List.flatten_cons, List.length_append, h160]; omega
    · rw [g4, e4, List.flatten_cons]; simp only [List.append_assoc]
    · rw [g5, e5, List.append_assoc]
    · rw [List.length_append, e6, g6, e2, List.flatten_cons, List.length_append, h160]; omega
    · intro m hm
      rcases List.mem_append.mp hm with hm | hm
      · exact e7 m hm
      · exact g7 m hm

/-- C3: a single `sendEncodedAudio` call with 480 samples (3 x 160), made on
a fresh logic core with an empty buffer, copies 480 samples into the 320
samples of `r_buf`: the call has no defined result, where the claim expects
three voice messages.  The same happens on the second of the calls with
256, 256 and 128 samples (4 x 160 in all), which finds 96 samples stored. -/
theorem sendEncodedAudio_overflow (garbage : Nat → Int) (dmrid : Nat) :
    (List.replicate 480 (0 : Int)).length = 3 * USRP_AUDIO_FRAME_LEN ∧
    (fresh garbage dmrid).stored_samples = 0 ∧
    (fresh garbage dmrid).r_buf.length = 320 ∧
    sendEncodedAudio (fun _ => true) (fresh garbage dmrid) (List.replicate 480 0) 960 = none ∧
    sendEncodedAudioAll (fun _ => true) (fresh garbage dmrid) [List.replicate 480 0] = none ∧
    sendEncodedAudioAll (fun _ => true) (fresh garbage dmrid)
      [List.replicate 256 0, List.replicate 256 0, List.replicate 128 0] = none := by
  have hr : (fresh garbage dmrid).r_buf.length = 320 := by
    simp only [fresh, List.length_map, List.length_range, USRP_AUDIO_FRAME_LEN]
  have h := (sendEncodedAudio_eq_none_iff (fun _ => true) (fresh garbage dmrid)
    (List.replicate 480 0)).mpr
    (by rw [hr, List.length_replicate]; show 320 < 0 + 480; norm_num)
  have h960 : 2 * (List.replicate 480 (0 : Int)).length = 960 := by
    rw [List.length_replicate]
  refine ⟨by rw [List.length_replicate]; rfl, rfl, hr, ?_, ?_, ?_⟩
  · rw [← h960]; exact h
  · simp only [sendEncodedAudioAll, h]
  · obtain ⟨s1, _, e1, e2, e3, _⟩ := sendEncodedAudio_fits (fresh garbage dmrid)
      (List.replicate 256 0) (by rw [hr, List.length_replicate]; show 0 + 256 ≤ 320; norm_num)
    have hs : s1.stored_samples = 96 := by
      rw [e2, List.length_replicate]
      show (0 + 256) % 160 = 96
      norm_num
    have h2 := (sendEncodedAudio_eq_none_iff (fun _ => true) s1 (List.replicate 256 0)).mpr
      (by rw [e3, hr, hs, List.length_replicate]; norm_num)
    simp only [sendEncodedAudioAll, e1, h2]

/-! ## Idle state -/

/-- C10: `isIdle` is true exactly when the outbound-to-logic detector and the
inbound-from-logic detector are both idle; `checkIdle` hands exactly that
value to `setIdle` and changes nothing else; with the inbound detector idle
and the outbound detector active the value reported is false. -/
theorem isIdle_iff_both_idle (s : Logic) :
    (isIdle s = true ↔ (s.con_in_idle = true ∧ s.con_out_idle = true)) ∧
    checkIdle s = setIdle s (isIdle s) ∧
    (checkIdle s).idle = (s.con_out_idle && s.con_in_idle) ∧
    isIdle { s with con_in_idle := true, con_out_idle := false } = false ∧
    (checkIdle { s with con_in_idle := true, con_out_idle := false }).idle = false := by
  refine ⟨?_, rfl, rfl, rfl, rfl⟩
  simp [isIdle, and_comm]

/-! ## Text messages -/

theorem find_last_of_none (ch : Char) (s : List Char) :
    find_last_of s ch = none ↔ ch ∉ s := by
  induction s with
  | nil => simp [find_last_of]
  | cons c cs ih =>
    unfold find_last_of
    cases h : find_last_of cs ch with
    | none =>
      have := ih.mp h
      by_cases hc : c = ch
      · simp [hc]
      · simp [hc, this, Ne.symm hc]
    | some i =>
      have : ch ∈ cs := by
        by_contra hn
        rw [ih.mpr hn] at h
        cases h
      simp [this]

theorem find_last_of_some (ch : Char) (s : List Char) :
    ∀ i, find_last_of s ch = some i →
      s = s.take i ++ ch :: s.drop (i + 1) ∧ ch ∉ s.drop (i + 1) := by
  induction s with
  | nil => intro i h; simp [find_last_of] at h
  | cons c cs ih =>
    intro i h
    unfold find_last_of at h
    cases hf : find_last_of cs ch with
    | none =>
      rw [hf] at h
      by_cases hc : c = ch
      · simp only [hc, if_true, Option.some.injEq] at h
        subst h
        subst hc
        exact ⟨by simp, by simpa using (find_last_of_none c cs).mp hf⟩
      · simp [hc] at h
    | some j =>
      rw [hf] at h
      simp only [Option.some.injEq] at h
      subst h
      obtain ⟨e1, e2⟩ := ih j hf
      refine ⟨?_, by simpa using e2⟩
      simp only [List.take_succ_cons, List.drop_succ_cons, List.cons_append]
      rw [← e1]

/-- What `erase(0, find_last_of(" ") + 1)` leaves: the text after the last
space, and the whole text when there is no space. -/
theorem erase0_eraseLen (m : List Char) :
    (' ' ∉ m → erase0 m (eraseLen m) = m) ∧
    (' ' ∈ m → ∃ pre, m = pre ++ ' ' :: erase0 m (eraseLen m)) ∧
    ' ' ∉ erase0 m (eraseLen m) := by
  unfold erase0 eraseLen
  cases h : find_last_of m ' ' with
  | none =>
    have := (find_last_of_none ' ' m).mp h
    simp [this]
  | some i =>
    obtain ⟨e1, e2⟩ := find_last_of_some ' ' m i h
    have hin : ' ' ∈ m := by
      by_contra hn
      rw [(find_last_of_none ' ' m).mpr hn] at h
      cases h
    exact ⟨fun hn => absurd hin hn, fun _ => ⟨m.take i, e1⟩, e2⟩

/-- C8, the claim as written fails: for the metadata INFO:MSG:idle, which
has no space, nothing is erased and the event is setting_mode INFO:MSG:idle,
not setting_mode idle. -/
theorem info_msg_counterexample :
    (udpDatagramReceived (jsonOnly [] ⟨[], [], []⟩) ⟨0, 0⟩ (fresh (fun _ => 0) 0)
        (textDatagram "INFO:MSG:idle".toList)).events
      = ["setting_mode INFO:MSG:idle".toList] ∧
    (udpDatagramReceived (jsonOnly [] ⟨[], [], []⟩) ⟨0, 0⟩ (fresh (fun _ => 0) 0)
        (textDatagram "INFO:MSG:idle".toList)).events
      ≠ ["setting_mode idle".toList] := by
  refine ⟨by decide, by decide⟩

/-- C8, amended: for every text message that is not TLV and whose metadata
contains INFO:MSG: (so also when it starts with it), `udpDatagramReceived`
emits exactly one event, setting_mode followed by what is left of the
metadata after erasing everything up to and including its last space: the
text after the last space, or the whole metadata when it has no space.  No
stationdata event is emitted and the last callsign, talkgroup and radio id
are not changed. -/
theorem settings_message (json : List Char → Option Digital) (now : Timeval) (s : Logic)
    (d : Datagram) (hh : d.headerOk = true) (ht : d.type = USRP_TYPE_TEXT)
    (hm : d.metaOk = true) (hn : d.isTlv = false)
    (hf : (find d.metadata "INFO:MSG:".toList).isSome = true) :
    (udpDatagramReceived json now s d).events
      = s.events ++ ["setting_mode ".toList ++ erase0 d.metadata (eraseLen d.metadata)] ∧
    (udpDatagramReceived json now s d).m_last_call = s.m_last_call ∧
    (udpDatagramReceived json now s d).m_last_tg = s.m_last_tg ∧
    (udpDatagramReceived json now s d).m_last_dmrid = s.m_last_dmrid ∧
    (' ' ∉ d.metadata → erase0 d.metadata (eraseLen d.metadata) = d.metadata) ∧
    (' ' ∈ d.metadata → ∃ pre, d.metadata = pre ++ ' ' :: erase0 d.metadata (eraseLen d.metadata)) ∧
    ' ' ∉ erase0 d.metadata (eraseLen d.metadata) := by
  have hv : ¬ (USRP_TYPE_TEXT = USRP_TYPE_VOICE) := by decide
  obtain ⟨k1, k2, k3⟩ := erase0_eraseLen d.metadata
  refine ⟨?_, ?_, ?_, ?_, k1, k2, k3⟩ <;>
    simp only [udpDatagramReceived, hh, ht, hm, hn, hf, hv, handleSettingsMsg, processEvent,
      checkIdle, setIdle, Bool.not_true, Bool.false_eq_true, if_false, if_true]

theorem settings_message_witness :
    (udpDatagramReceived (jsonOnly [] ⟨[], [], []⟩) ⟨0, 0⟩ (fresh (fun _ => 0) 0)
        (textDatagram "INFO:MSG: Setting mode to DMR".toList)).events
      = (fresh (fun _ => 0) 0).events
        ++ ["setting_mode ".toList ++ erase0 "INFO:MSG: Setting mode to DMR".toList
              (eraseLen "INFO:MSG: Setting mode to DMR".toList)] ∧
    erase0 "INFO:MSG: Setting mode to DMR".toList
        (eraseLen "INFO:MSG: Setting mode to DMR".toList) = "DMR".toList :=
  ⟨(settings_message (jsonOnly [] ⟨[], [], []⟩) ⟨0, 0⟩ (fresh (fun _ => 0) 0)
      (textDatagram "INFO:MSG: Setting mode to DMR".toList) rfl rfl rfl rfl (by decide)).1,
    by decide⟩

theorem find_of_isPrefixOf (pat m : List Char) (h : pat.isPrefixOf m = true) :
    find m pat = some 0 := by
  cases m with
  | nil =>
    cases pat with
    | nil => simp [find]
    | cons p ps => simp [List.isPrefixOf] at h
  | cons c cs => simp [find, h]

theorem atoiDigits_of_digits (ds : List Char) (h : ∀ c ∈ ds, c.isDigit = true) :
    ∀ acc : Int, atoiDigits ds acc
      = ds.foldl (fun a c => a * 10 + ((c.toNat - 48 : Nat) : Int)) acc := by
  induction ds with
  | nil => intro acc; rfl
  | cons c cs ih =>
    intro acc
    have hc := h c (List.mem_cons_self _ _)
    simp only [atoiDigits, hc, if_true, List.foldl_cons]
    exact ih (fun d hd => h d (List.mem_cons_of_mem _ hd)) _

theorem decimalValue_cast (ds : List Char) :
    ∀ acc : Nat, ((ds.foldl (fun a c => a * 10 + (c.toNat - 48)) acc : Nat) : Int)
      = ds.foldl (fun a c => a * 10 + ((c.toNat - 48 : Nat) : Int)) (acc : Int) := by
  induction ds with
  | nil => intro acc; rfl
  | cons c cs ih =>
    intro acc
    simp only [List.foldl_cons]
    rw [ih]
    congr 1

/-- On a text of decimal digits the number read is its decimal value. -/
theorem leadingNumber_of_digits (ds : List Char) (h : ∀ c ∈ ds, c.isDigit = true) :
    leadingNumber ds = (decimalValue ds : Int) := by
  have hv : (decimalValue ds : Int)
      = ds.foldl (fun a c => a * 10 + ((c.toNat - 48 : Nat) : Int)) 0 := by
    unfold decimalValue
    exact decimalValue_cast ds 0
  rw [hv]
  cases ds with
  | nil => rfl
  | cons c cs =>
    have hc := h c (List.mem_cons_self _ _)
    have hr : 48 ≤ c.toNat ∧ c.toNat ≤ 57 := by
      simp only [Char.isDigit, Bool.and_eq_true, decide_eq_true_eq] at hc
      exact ⟨hc.1, hc.2⟩
    have hsp : (c = ' ' || (decide (9 ≤ c.toNat) && decide (c.toNat ≤ 13))) = false := by
      have h1 : c ≠ ' ' := by
        intro e; rw [e] at hr; exact absurd hr.1 (by decide)
      have h2 : ¬ c.toNat ≤ 13 := by omega
      simp [h1, h2]
    have hm : c ≠ '-' := by intro e; rw [e] at hr; exact absurd hr.1 (by decide)
    have hp : c ≠ '+' := by intro e; rw [e] at hr; exact absurd hr.1 (by decide)
    unfold leadingNumber
    rw [List.dropWhile_cons_of_neg (by simpa using hsp)]
    split
    · rename_i heq; cases heq; exact absurd rfl hm
    · rename_i heq; cases heq; exact absurd rfl hp
    · exact atoiDigits_of_digits _ h 0

/-- On a text of decimal digits whose value is below 2^31, `atoi` gives the
decimal value, and so does its conversion to `uint32_t`. -/
theorem atoi_of_digits (ds : List Char) (h : ∀ c ∈ ds, c.isDigit = true)
    (hv : decimalValue ds < 2 ^ 31) :
    atoi ds = (decimalValue ds : Int) ∧ toU32 (atoi ds) = decimalValue ds := by
  have hl := leadingNumber_of_digits ds h
  have h31 : (2 : Nat) ^ 31 = 2147483648 := by norm_num
  have h63 : (2 : Int) ^ 63 = 9223372036854775808 := by norm_num
  have h32 : ((2 ^ 32 : Nat) : Int) = 4294967296 := by norm_num
  have h32i : (2 : Int) ^ 32 = 4294967296 := by norm_num
  rw [h31] at hv
  have hs : strtol ds = (decimalValue ds : Int) := by
    unfold strtol
    rw [hl, h63]
    split_ifs <;> omega
  have ha : atoi ds = (decimalValue ds : Int) := by
    unfold atoi
    rw [hs, Int.bmod_def, h32]
    split_ifs <;> omega
  refine ⟨ha, ?_⟩
  unfold toU32
  rw [ha, h32i]
  omega

set_option maxRecDepth 20000 in
/-- C9, the claim as written fails: the test for INFO:MSG: comes first and
looks at the whole metadata, so the JSON object whose call is the text
INFO:MSG: is taken as a settings message: the only event is setting_mode
with the whole metadata, no stationdata event is emitted and the last
callsign is not stored.  Nor is the number stored always the decimal value:
for the tg 4294967297 it is 1. -/
theorem json_branch_counterexample :
    "INFO:\x7b".toList.isPrefixOf infoMsgCall = true ∧
    jsonOnly (infoMsgCall.drop 5) ⟨"INFO:MSG:".toList, "9".toList, "1".toList⟩
        (infoMsgCall.drop 5)
      = some ⟨"INFO:MSG:".toList, "9".toList, "1".toList⟩ ∧
    (udpDatagramReceived
        (jsonOnly (infoMsgCall.drop 5) ⟨"INFO:MSG:".toList, "9".toList, "1".toList⟩) ⟨0, 0⟩
        (fresh (fun _ => 0) 0) (textDatagram infoMsgCall)).events
      = ["setting_mode ".toList ++ infoMsgCall] ∧
    (udpDatagramReceived
        (jsonOnly (infoMsgCall.drop 5) ⟨"INFO:MSG:".toList, "9".toList, "1".toList⟩) ⟨0, 0⟩
        (fresh (fun _ => 0) 0) (textDatagram infoMsgCall)).events
      ≠ ["usrp_stationdata_received INFO:MSG: 9 1".toList] ∧
    (udpDatagramReceived
        (jsonOnly (infoMsgCall.drop 5) ⟨"INFO:MSG:".toList, "9".toList, "1".toList⟩) ⟨0, 0⟩
        (fresh (fun _ => 0) 0) (textDatagram infoMsgCall)).m_last_call = [] ∧
    (udpDatagramReceived
        (jsonOnly (infoBigTg.drop 5) ⟨"W1AW".toList, "4294967297".toList, "1".toList⟩) ⟨0, 0⟩
        (fresh (fun _ => 0) 0) (textDatagram infoBigTg)).m_last_tg = 1 := by
  refine ⟨by decide, by decide, by decide, by decide, by decide, by decide⟩

/-- C9, amended: for every text message that is not TLV, whose metadata
starts with INFO: and an opening brace and does not contain INFO:MSG:
anywhere, and for which the JSON reader, given the metadata without its first
5 characters, yields the strings call, tg and rpt for digital.call,
digital.tg and digital.rpt: `udpDatagramReceived` stores call as the last
callsign and `atoi(tg)`, `atoi(rpt)`, the `int` results converted to unsigned
32-bit numbers, as the last talkgroup and radio id, and then emits exactly
one event, usrp_stationdata_received with these three values.  For a tg or
rpt that is a text of decimal digits with a value below 2^31 the number
stored is that decimal value. -/
theorem inline_json (json : List Char → Option Digital) (now : Timeval) (s : Logic)
    (d : Datagram) (value : Digital) (hh : d.headerOk = true) (ht : d.type = USRP_TYPE_TEXT)
    (hm : d.metaOk = true) (hn : d.isTlv = false)
    (hp : "INFO:\x7b".toList.isPrefixOf d.metadata = true)
    (hno : find d.metadata "INFO:MSG:".toList = none)
    (hj : json (d.metadata.drop 5) = some value) :
    (udpDatagramReceived json now s d).m_last_call = value.call ∧
    (udpDatagramReceived json now s d).m_last_tg = toU32 (atoi value.tg) ∧
    (udpDatagramReceived json now s d).m_last_dmrid = toU32 (atoi value.rpt) ∧
    (udpDatagramReceived json now s d).events
      = s.events ++ ["usrp_stationdata_received ".toList ++ value.call ++ " ".toList
          ++ decimal (toU32 (atoi value.tg)) ++ " ".toList
          ++ decimal (toU32 (atoi value.rpt))] ∧
    ((∀ c ∈ value.tg, c.isDigit = true) → decimalValue value.tg < 2 ^ 31 →
      (udpDatagramReceived json now s d).m_last_tg = decimalValue value.tg) ∧
    ((∀ c ∈ value.rpt, c.isDigit = true) → decimalValue value.rpt < 2 ^ 31 →
      (udpDatagramReceived json now s d).m_last_dmrid = decimalValue value.rpt) := by
  have hv : ¬ (USRP_TYPE_TEXT = USRP_TYPE_VOICE) := by decide
  have hf := find_of_isPrefixOf _ _ hp
  have hj2 : json (erase0 d.metadata 5) = some value := hj
  have e2 : (udpDatagramReceived json now s d).m_last_tg = toU32 (atoi value.tg) := by
    simp only [udpDatagramReceived, hh, ht, hm, hn, hf, hno, hv, hj2, stationData, processEvent,
      checkIdle, setIdle, Bool.not_true, Bool.false_eq_true, if_false, if_true,
      Option.isSome_none, Option.isSome_some]
  have e3 : (udpDatagramReceived json now s d).m_last_dmrid = toU32 (atoi value.rpt) := by
    simp only [udpDatagramReceived, hh, ht, hm, hn, hf, hno, hv, hj2, stationData, processEvent,
      checkIdle, setIdle, Bool.not_true, Bool.false_eq_true, if_false, if_true,
      Option.isSome_none, Option.isSome_some]
  refine ⟨?_, e2, e3, ?_, ?_, ?_⟩
  · simp only [udpDatagramReceived, hh, ht, hm, hn, hf, hno, hv, hj2, stationData, processEvent,
      checkIdle, setIdle, Bool.not_true, Bool.false_eq_true, if_false, if_true,
      Option.isSome_none, Option.isSome_some]
  · simp only [udpDatagramReceived, hh, ht, hm, hn, hf, hno, hv, hj2, stationData, processEvent,
      checkIdle, setIdle, Bool.not_true, Bool.false_eq_true, if_false, if_true,
      Option.isSome_none, Option.isSome_some]
  · intro hd hb
    rw [e2]; exact (atoi_of_digits _ hd hb).2
  · intro hd hb
    rw [e3]; exact (atoi_of_digits _ hd hb).2

set_option maxRecDepth 20000 in
theorem inline_json_witness :
    (udpDatagramReceived
        (jsonOnly (infoW1AW.drop 5) ⟨"W1AW".toList, "9".toList, "1".toList⟩) ⟨0, 0⟩
        (fresh (fun _ => 0) 0) (textDatagram infoW1AW)).events
      = (fresh (fun _ => 0) 0).events ++ ["usrp_stationdata_received ".toList
          ++ (Digital.mk "W1AW".toList "9".toList "1".toList).call ++ " ".toList
          ++ decimal (toU32 (atoi (Digital.mk "W1AW".toList "9".toList "1".toList).tg))
          ++ " ".toList
          ++ decimal (toU32 (atoi (Digital.mk "W1AW".toList "9".toList "1".toList).rpt))] ∧
    ["usrp_stationdata_received ".toList ++ "W1AW".toList ++ " ".toList
        ++ decimal (toU32 (atoi "9".toList)) ++ " ".toList ++ decimal (toU32 (atoi "1".toList))]
      = ["usrp_stationdata_received W1AW 9 1".toList] ∧
    (udpDatagramReceived
        (jsonOnly (infoW1AW.drop 5) ⟨"W1AW".toList, "9".toList, "1".toList⟩) ⟨0, 0⟩
        (fresh (fun _ => 0) 0) (textDatagram infoW1AW)).m_last_tg = 9 :=
  ⟨(inline_json (jsonOnly (infoW1AW.drop 5) ⟨"W1AW".toList, "9".toList, "1".toList⟩) ⟨0, 0⟩
      (fresh (fun _ => 0) 0) (textDatagram infoW1AW) ⟨"W1AW".toList, "9".toList, "1".toList⟩
      rfl rfl rfl rfl (by decide) (by decide) (by decide)).2.2.2.1,
    by decide,
   (inline_json (jsonOnly (infoW1AW.drop 5) ⟨"W1AW".toList, "9".toList, "1".toList⟩) ⟨0, 0⟩
      (fresh (fun _ => 0) 0) (textDatagram infoW1AW) ⟨"W1AW".toList, "9".toList, "1".toList⟩
      rfl rfl rfl rfl (by decide) (by decide) (by decide)).2.2.2.2.1 (by decide) (by decide)⟩

end Usrp

namespace Dv3k

/-! ## Frames of an unknown type -/

theorem charVal_small (sgn : Bool) (b : Nat) (hb : b < 128) : charVal sgn b = (b : Int) := by
  have h1 : b % 256 = b := Nat.mod_eq_of_lt (by omega)
  have h2 : ¬ 128 ≤ b := by omega
  simp [charVal, h1, h2]

theorem charVal_eq_small (sgn : Bool) (b k : Nat) (hb : b < 256) (hk : k < 128) :
    charVal sgn b = (k : Int) ↔ b = k := by
  have h1 : b % 256 = b := Nat.mod_eq_of_lt hb
  unfold charVal
  rw [h1]
  split_ifs with h
  · simp only [Bool.and_eq_true, decide_eq_true_eq] at h
    constructor
    · intro e; omega
    · intro e; omega
  · constructor
    · intro e; exact_mod_cast e
    · intro e; exact_mod_cast e

/-- The dispatch does nothing with a frame whose type byte is not 0, 1 or 2. -/
theorem dispatch_unknown (sgn : Bool) (s : Session) (f : List Nat) (hb : f.getD 3 0 < 256)
    (h0 : f.getD 3 0 ≠ DV3K_TYPE_CONTROL) (h1 : f.getD 3 0 ≠ DV3K_TYPE_AMBE)
    (h2 : f.getD 3 0 ≠ DV3K_TYPE_AUDIO) : dispatch sgn s f = (s, []) := by
  have e0 := (charVal_eq_small sgn _ DV3K_TYPE_CONTROL hb (by decide)).not.mpr h0
  have e1 := (charVal_eq_small sgn _ DV3K_TYPE_AMBE hb (by decide)).not.mpr h1
  have e2 := (charVal_eq_small sgn _ DV3K_TYPE_AUDIO hb (by decide)).not.mpr h2
  simp only [dispatch, e0, e1, e2, if_false]

/-- A frame that `callback` brings to the dispatch is dispatched in a session
that has the handshake state from before the call; the call has the effects
of that dispatch and no others. -/
theorem callback_dispatches (sgn : Bool) (s : Session) (buffer f : List Nat)
    (hf : (callback sgn s buffer).frame = some f) :
    ∃ s1 : Session, s1.m_state = s.m_state ∧
      (callback sgn s buffer).st = (dispatch sgn s1 f).1 ∧
      (callback sgn s buffer).effects = (dispatch sgn s1 f).2 := by
  unfold callback at hf ⊢
  simp only at hf ⊢
  split_ifs at hf ⊢ with c1 c2 c3 c4 c5
  · cases hf
    refine ⟨_, ?_, rfl, rfl⟩
    rfl
  · cases hf
    refine ⟨_, ?_, rfl, rfl⟩
    rfl

/-- C18: whenever `callback` brings a complete frame to the dispatch, be it a
chunk that is a whole frame or one assembled from several chunks, and the type
byte of that frame is none of 0x00 (control), 0x01 (vocoder audio) and 0x02
(decoded audio), the handshake state is left as it was and the call has no
effect outside the session: nothing is sent on the transport and nothing is
forwarded to the audio-encode or the audio-sink consumer. -/
theorem unknown_type_dropped (sgn : Bool) (s : Session) (buffer f : List Nat)
    (hf : (callback sgn s buffer).frame = some f) (hb : f.getD 3 0 < 256)
    (h0 : f.getD 3 0 ≠ 0x00) (h1 : f.getD 3 0 ≠ 0x01) (h2 : f.getD 3 0 ≠ 0x02) :
    (callback sgn s buffer).st.m_state = s.m_state ∧ (callback sgn s buffer).effects = [] := by
  obtain ⟨s1, e1, e2, e3⟩ := callback_dispatches sgn s buffer f hf
  rw [e2, e3, dispatch_unknown sgn s1 f hb h0 h1 h2]
  exact ⟨e1, rfl⟩

theorem unknown_type_dropped_witness :
    (callback true { m_state := STATE.PRODID, stored_bufferlen := 0, t_buffer := [], t_b := 0 }
        [0x61, 0x00, 0x01, 0x07, 0x2a]).st.m_state = STATE.PRODID ∧
    (callback true { m_state := STATE.PRODID, stored_bufferlen := 0, t_buffer := [], t_b := 0 }
        [0x61, 0x00, 0x01, 0x07, 0x2a]).effects = [] :=
  unknown_type_dropped true _ [0x61, 0x00, 0x01, 0x07, 0x2a] [0x61, 0x00, 0x01, 0x07, 0x2a]
    (by decide) (by decide) (by decide) (by decide) (by decide)

end Dv3k

namespace Dv3k

/-! ## The length field -/

/-- Where plain `char` is unsigned, `callback` reads the length field as the
big-endian 16-bit value, which lies in 0..65535. -/
theorem tlenOf_unsigned (data : List Nat) :
    tlenOf false data = bigEndianLen data ∧ tlenOf false data ≤ 65535 := by
  have h1 : data.getD 1 0 % 256 < 256 := Nat.mod_lt _ (by norm_num)
  have h2 : data.getD 2 0 % 256 < 256 := Nat.mod_lt _ (by norm_num)
  have e : tlenOf false data = bigEndianLen data := by
    simp only [tlenOf, toU32, charVal, bigEndianLen, Bool.false_and, Bool.false_eq_true, if_false]
    omega
  rw [e]
  refine ⟨rfl, ?_⟩
  unfold bigEndianLen
  omega

/-- Where plain `char` is signed, the same holds as long as both length
bytes are below 0x80. -/
theorem tlenOf_signed_small (data : List Nat) (h1 : data.getD 1 0 < 128)
    (h2 : data.getD 2 0 < 128) : tlenOf true data = bigEndianLen data := by
  rw [tlenOf, charVal_small true _ h1, charVal_small true _ h2]
  simp only [toU32, bigEndianLen]
  omega

set_option maxRecDepth 20000 in
/-- C13: with signed plain `char` the length bytes 00 a0 are read as
-96, which becomes 4294967200 in the `uint32_t`, not 160; the value is neither
the big-endian 16-bit value nor within 0..65535.  A complete 164-byte
decoded-audio frame with these length bytes is then taken for the first piece
of a frame of 4294967200 payload bytes and is not dispatched.  With unsigned
plain `char` the same bytes are read as 160 and the frame is dispatched. -/
theorem length_field_signed_char :
    4 ≤ audioFrame160.length ∧ audioFrame160.getD 0 0 = 0x61 ∧
    bigEndianLen audioFrame160 = 160 ∧
    tlenOf true audioFrame160 = 4294967200 ∧
    ¬ tlenOf true audioFrame160 ≤ 65535 ∧
    (callback true (opened 0 0) audioFrame160).frame = none ∧
    (callback true (opened 0 0) audioFrame160).st.stored_bufferlen = 4294967200 ∧
    tlenOf false audioFrame160 = 160 ∧
    (callback false (opened 0 0) audioFrame160).frame = some audioFrame160 := by
  refine ⟨by decide, by decide, by decide, by decide, by decide, by decide, by decide,
    by decide, by decide⟩

end Dv3k

namespace Dv3k

/-! ## The expected payload length after a call -/

/-- The dispatch leaves the reassembly members alone. -/
theorem dispatch_buffers (sgn : Bool) (s : Session) (f : List Nat) :
    (dispatch sgn s f).1.t_buffer = s.t_buffer ∧
    (dispatch sgn s f).1.stored_bufferlen = s.stored_bufferlen := by
  unfold dispatch
  simp only
  split_ifs
  · cases s.m_state <;> exact ⟨rfl, rfl⟩
  · exact ⟨rfl, rfl⟩
  · exact ⟨rfl, rfl⟩
  · exact ⟨rfl, rfl⟩

/-- A chunk that is a whole frame clears the expected payload length. -/
theorem callback_whole_frame_state (sgn : Bool) (s : Session) (f : List Nat)
    (hf : validFrame sgn f) :
    (callback sgn s f).st.stored_bufferlen = 0 ∧ (callback sgn s f).st.t_buffer = f := by
  obtain ⟨h4, hm, hl, hb⟩ := hf
  have h1 : ¬ f.length < 4 := by omega
  have h2 : ¬ (tlenOf sgn f + DV3K_HEADER_LEN) % 2 ^ 32 > f.length := by
    rw [← hl, Nat.mod_eq_of_lt hb]; omega
  simp only [callback, h1, hm, h2, if_false, if_true]
  exact ⟨(dispatch_buffers sgn _ f).2, (dispatch_buffers sgn _ f).1⟩

/-- A continuation chunk that completes the frame leaves nothing in the
pending buffer, and leaves the expected payload length as it was. -/
theorem callback_last_piece_state (sgn : Bool) (s : Session) (c : List Nat)
    (hc : contChunk sgn c) (hpos : 0 < s.stored_bufferlen)
    (hb : s.stored_bufferlen + DV3K_HEADER_LEN < 2 ^ 32)
    (heq : (s.t_buffer ++ c).length = s.stored_bufferlen + DV3K_HEADER_LEN) :
    (callback sgn s c).st.t_buffer = [] ∧
    (callback sgn s c).st.stored_bufferlen = s.stored_bufferlen := by
  obtain ⟨h4, hm⟩ := hc
  have h1 : ¬ c.length < 4 := by omega
  have h3 : (s.t_buffer ++ c).length ≥ (s.stored_bufferlen + DV3K_HEADER_LEN) % 2 ^ 32 := by
    rw [Nat.mod_eq_of_lt hb]; omega
  simp only [callback, h1, hm, hpos, h3, if_false, if_true]
  refine ⟨?_, (dispatch_buffers sgn _ _).2⟩
  rw [(dispatch_buffers sgn _ _).1]
  simp only
  rw [Nat.mod_eq_of_lt hb, ← heq, List.drop_length, List.take_nil, List.set_nil]

/-- C14: the frame 61 00 06 00 31 56 31 32 30 00 arrives in the two chunks
61 00 06 00 31 56 and 31 32 30 00.  After the second call the frame has been
extracted and dispatched and the pending buffer is empty, but the expected
payload length is still 6: the continuation branch never clears it, while
the branch for a frame in one chunk sets it to 0.  A following chunk
01 02 03 04 of noise is therefore not discarded but kept as pending bytes. -/
theorem expected_length_not_cleared :
    framesOf false (opened 0 0) [[0x61, 0x00, 0x06, 0x00, 0x31, 0x56], [0x31, 0x32, 0x30, 0x00]]
      = [versidResponse] ∧
    (stateAfter false (opened 0 0)
        [[0x61, 0x00, 0x06, 0x00, 0x31, 0x56], [0x31, 0x32, 0x30, 0x00]]).t_buffer = [] ∧
    (stateAfter false (opened 0 0)
        [[0x61, 0x00, 0x06, 0x00, 0x31, 0x56], [0x31, 0x32, 0x30, 0x00]]).stored_bufferlen = 6 ∧
    (stateAfter true (opened 0 0)
        [[0x61, 0x00, 0x06, 0x00, 0x31, 0x56], [0x31, 0x32, 0x30, 0x00]]).stored_bufferlen = 6 ∧
    (stateAfter false (opened 0 0) [versidResponse]).stored_bufferlen = 0 ∧
    (stateAfter false (opened 0 0)
        [[0x61, 0x00, 0x06, 0x00, 0x31, 0x56], [0x31, 0x32, 0x30, 0x00],
         [0x01, 0x02, 0x03, 0x04]]).t_buffer = [0x01, 0x02, 0x03, 0x04] ∧
    (stateAfter false (opened 0 0) [versidResponse, [0x01, 0x02, 0x03, 0x04]]).t_buffer
      = versidResponse := by
  refine ⟨by decide, by decide, by decide, by decide, by decide, by decide, by decide⟩

end Dv3k

namespace Dv3k

/-! ## `callback` on the memory of its caller -/

/-- The bytes that `load` gives are as many as were asked for. -/
theorem load_length (mem : List Nat) (p : Option Nat) (n : Nat) (bytes : List Nat)
    (h : load mem p n = some bytes) : bytes.length = n := by
  unfold load at h
  split_ifs at h with h0
  · cases h; exact h0.symm
  · cases p with
    | none => cases h
    | some a =>
      simp only at h
      split_ifs at h with h1
      cases h
      rw [List.length_take, List.length_drop]
      omega


theorem load_eq_some (mem : List Nat) (a n : Nat) (bytes : List Nat) (hn : 0 < n)
    (h : load mem (some a) n = some bytes) :
    bytes = (mem.drop a).take n ∧ a + n ≤ mem.length := by
  unfold load at h
  have h0 : ¬ n = 0 := by omega
  simp only [h0, if_false] at h
  split_ifs at h with h1
  cases h
  exact ⟨rfl, h1⟩

theorem store_eq_some (mem : List Nat) (a : Nat) (bytes mem1 : List Nat)
    (hn : 0 < bytes.length) (h : store mem (some a) bytes = some mem1) :
    mem1 = memcpy mem a bytes ∧ a + bytes.length ≤ mem.length := by
  unfold store at h
  have h0 : ¬ bytes.length = 0 := by omega
  simp only [h0, if_false] at h
  split_ifs at h with h1
  cases h
  exact ⟨rfl, h1⟩

theorem memcpy_getD_lt (m src : List Nat) (off i : Nat) (hi : i < off) (ho : off ≤ m.length) :
    (memcpy m off src).getD i 0 = m.getD i 0 := by
  unfold memcpy
  rw [List.append_assoc, List.getD_append _ _ _ _ (by rw [List.length_take]; omega)]
  simp only [List.getD_eq_getElem?_getD, List.getElem?_take, hi, if_true]

theorem memcpy_getD_ge (m src : List Nat) (off i : Nat) (hi : off + src.length ≤ i)
    (ho : off + src.length ≤ m.length) :
    (memcpy m off src).getD i 0 = m.getD i 0 := by
  unfold memcpy
  have h1 : (List.take off m ++ src).length = off + src.length := by
    rw [List.length_append, List.length_take]; omega
  rw [List.getD_append_right _ _ _ _ (by rw [h1]; exact hi), h1]
  simp only [List.getD_eq_getElem?_getD, List.getElem?_drop]
  congr 2
  omega

theorem memcpy_getD_at (m src : List Nat) (off : Nat) (hs : 0 < src.length)
    (ho : off ≤ m.length) :
    (memcpy m off src).getD off 0 = src.getD 0 0 := by
  unfold memcpy
  have h1 : (List.take off m).length = off := by rw [List.length_take]; omega
  rw [List.append_assoc, List.getD_append_right _ _ _ _ (by rw [h1]), h1, Nat.sub_self,
    List.getD_append _ _ _ _ hs]

theorem memcpy_length_mem (m src : List Nat) (off : Nat) (h : off + src.length ≤ m.length) :
    (memcpy m off src).length = m.length := by
  simp [memcpy]; omega

theorem memcpy_self (m : List Nat) (a n : Nat) (h : a + n ≤ m.length) :
    memcpy m a ((m.drop a).take n) = m := by
  unfold memcpy
  rw [List.length_take, List.length_drop, Nat.min_eq_left (by omega), ← List.drop_drop,
    List.append_assoc, List.take_append_drop, List.take_append_drop]

/-- A frame that `callback` brings to the dispatch, whatever the memory made
of it, is dispatched in a session that has the handshake state from before
the call, and the call has the effects of that dispatch and no others. -/
theorem callbackMem_dispatches (sgn : Bool) (s : MemSession) (mem : List Nat) (buffer : Buffer)
    (o : MemOutcome) (f : List Nat) (h : callbackMem sgn s mem buffer = Step.done o)
    (hf : o.frame = some f) :
    ∃ s1 : Session, s1.m_state = s.m_state ∧
      o.st.m_state = (dispatch sgn s1 f).1.m_state ∧ o.effects = (dispatch sgn s1 f).2 := by
  have key : ∀ (s2 : MemSession) (m g : List Nat), s2.m_state = s.m_state →
      dispatchMem sgn s2 m g = Step.done o →
      ∃ s1 : Session, s1.m_state = s.m_state ∧
        o.st.m_state = (dispatch sgn s1 f).1.m_state ∧ o.effects = (dispatch sgn s1 f).2 := by
    intro s2 m g hs hd
    unfold dispatchMem at hd
    simp only [Step.done.injEq] at hd
    subst hd
    simp only [Option.some.injEq] at hf
    subst hf
    exact ⟨members s2, hs, rfl, rfl⟩
  unfold callbackMem at h
  simp only at h
  repeat' split at h
  all_goals first
    | (simp only [Step.done.injEq] at h; subst h; cases hf)
    | (refine key _ _ _ ?_ h; rfl)
    | cases h

/-- The type dispatch reads no member but `m_state`. -/
theorem dispatch_m_state (sgn : Bool) (s1 s2 : Session) (f : List Nat)
    (h : s1.m_state = s2.m_state) :
    (dispatch sgn s1 f).1.m_state = (dispatch sgn s2 f).1.m_state ∧
    (dispatch sgn s1 f).2 = (dispatch sgn s2 f).2 := by
  unfold dispatch
  simp only [h]
  split_ifs
  · cases hs : s2.m_state
    all_goals first
      | exact ⟨rfl, rfl⟩
      | exact ⟨by simp only; rw [h, hs], rfl⟩
  · exact ⟨h, rfl⟩
  · exact ⟨h, rfl⟩
  · exact ⟨h, rfl⟩

/-- On a chunk that is shorter than 4 bytes or begins with the start marker,
`callback` makes no use of the pending buffer: what it does on the memory is
what the function on the bytes does, and the memory is left as it was. -/
theorem callbackMem_start (sgn : Bool) (s : MemSession) (mem : List Nat) (buffer : Buffer)
    (bytes : List Nat) (hl : load mem buffer.data buffer.length = some bytes)
    (h : buffer.length < 4 ∨ charVal sgn (bytes.getD 0 0) = (DV3K_START_BYTE : Int)) :
    ∃ o : MemOutcome, callbackMem sgn s mem buffer = Step.done o ∧ o.mem = mem ∧
      o.effects = (callback sgn (members s) bytes).effects ∧
      o.frame = (callback sgn (members s) bytes).frame ∧
      o.st.m_state = (callback sgn (members s) bytes).st.m_state ∧
      o.st.stored_bufferlen = (callback sgn (members s) bytes).st.stored_bufferlen := by
  have hbl : bytes.length = buffer.length := load_length _ _ _ _ hl
  by_cases h4 : buffer.length < 4
  · have h4b : bytes.length < 4 := by rw [hbl]; exact h4
    have e : callbackMem sgn s mem buffer
        = Step.done { st := s, mem := mem, effects := (init (members s)).2, frame := none } := by
      simp only [callbackMem, h4, if_true]
    refine ⟨_, e, rfl, ?_, ?_, ?_, ?_⟩ <;>
      simp only [callback, h4b, if_true, init, members]
  · have h4b : ¬ bytes.length < 4 := by rw [hbl]; exact h4
    have hst : charVal sgn (bytes.getD 0 0) = (DV3K_START_BYTE : Int) := by
      rcases h with h | h
      · exact absurd h h4
      · exact h
    by_cases hp : (tlenOf sgn bytes + DV3K_HEADER_LEN) % 2 ^ 32 > buffer.length
    · have hpb : (tlenOf sgn bytes + DV3K_HEADER_LEN) % 2 ^ 32 > bytes.length := by
        rw [hbl]; exact hp
      have e : callbackMem sgn s mem buffer
          = Step.done { st := { s with stored_bufferlen := tlenOf sgn bytes,
                                       t_buffer := buffer },
                        mem := mem, effects := [], frame := none } := by
        simp only [callbackMem, h4, hl, hst, hp, if_false, if_true]
      refine ⟨_, e, rfl, ?_, ?_, ?_, ?_⟩ <;>
        simp only [callback, h4b, hst, hpb, if_false, if_true, members]
    · have hpb : ¬ (tlenOf sgn bytes + DV3K_HEADER_LEN) % 2 ^ 32 > bytes.length := by
        rw [hbl]; exact hp
      have hd := dispatch_m_state sgn
        (members { s with stored_bufferlen := 0, t_buffer := buffer })
        { members s with stored_bufferlen := 0, t_buffer := bytes } bytes rfl
      have e : callbackMem sgn s mem buffer
          = Step.done
              { st := { s with
                  stored_bufferlen := 0, t_buffer := buffer,
                  m_state := (dispatch sgn
                    (members { s with stored_bufferlen := 0, t_buffer := buffer })
                    bytes).1.m_state },
                mem := mem,
                effects := (dispatch sgn
                  (members { s with stored_bufferlen := 0, t_buffer := buffer }) bytes).2,
                frame := some bytes } := by
        simp only [callbackMem, h4, hl, hst, hp, if_false, if_true]
        rfl
      refine ⟨_, e, rfl, ?_, ?_, ?_, ?_⟩
      · simp only [callback, h4b, hst, hpb, if_false, if_true]
        exact hd.2
      · simp only [callback, h4b, hst, hpb, if_false, if_true]
      · simp only [callback, h4b, hst, hpb, if_false, if_true]
        exact hd.1
      · simp only [callback, h4b, hst, hpb, if_false, if_true]
        exact ((dispatch_buffers sgn
          { members s with stored_bufferlen := 0, t_buffer := bytes } bytes).2).symm

theorem dispatchMem_frame (sgn : Bool) (s : MemSession) (mem f : List Nat) (o : MemOutcome)
    (h : dispatchMem sgn s mem f = Step.done o) : o.frame = some f ∧ o.mem = mem := by
  unfold dispatchMem at h
  simp only [Step.done.injEq] at h
  subst h
  exact ⟨rfl, rfl⟩

/-- A continuation chunk handed over at the address that the session holds
as its pending buffer, completing the expected length: if the call ends
without a fault, the frame it dispatches begins with the first byte of the
chunk, not with the first byte that was pending. -/
theorem callbackMem_same_address (sgn : Bool) (s : MemSession) (mem : List Nat) (a q : Nat)
    (c : List Nat) (hd : s.t_buffer.data = some a) (hl : load mem (some a) q = some c)
    (hq : 4 ≤ q) (hp : 0 < s.t_buffer.length)
    (hs : s.stored_bufferlen + DV3K_HEADER_LEN < 2 ^ 32)
    (he : s.t_buffer.length + q = s.stored_bufferlen + DV3K_HEADER_LEN)
    (hm : mem.length < 2 ^ 63) (o : MemOutcome)
    (hdone : callbackMem sgn s mem { data := some a, length := q } = Step.done o)
    (f : List Nat) (hf : o.frame = some f) : f.getD 0 0 = c.getD 0 0 := by
  have h4 : DV3K_HEADER_LEN = 4 := rfl
  have p32 : (2 : Nat) ^ 32 = 4294967296 := by norm_num
  have p63 : (2 : Nat) ^ 63 = 9223372036854775808 := by norm_num
  have p64 : (2 : Nat) ^ 64 = 18446744073709551616 := by norm_num
  rw [h4, p32] at hs
  rw [h4] at he
  rw [p63] at hm
  obtain ⟨hc, hin⟩ := load_eq_some mem a q c (by omega) hl
  have hcl : c.length = q := load_length mem (some a) q c hl
  have hq' : ¬ q < 4 := by omega
  unfold callbackMem at hdone
  simp only [hq', if_false, hl] at hdone
  by_cases h1 : charVal sgn (c.getD 0 0) = (DV3K_START_BYTE : Int)
  · simp only [h1, if_true] at hdone
    split_ifs at hdone with h2
    · cases hdone; cases hf
    · have := (dispatchMem_frame _ _ _ _ _ hdone).1
      rw [this] at hf; cases hf; rfl
  · simp only [h1, if_false] at hdone
    by_cases h2 : s.stored_bufferlen > 0
    · simp only [h2, if_true, hd] at hdone
      have hN : (s.stored_bufferlen + DV3K_HEADER_LEN) % 2 ^ 32 = s.stored_bufferlen + 4 := by
        rw [h4, p32]; exact Nat.mod_eq_of_lt hs
      have hplus : plus (some a) s.t_buffer.length = some (a + s.t_buffer.length) := by
        simp only [plus, Option.map_some', Option.some.injEq]
        rw [p64]; exact Nat.mod_eq_of_lt (by omega)
      have hcount : (((s.t_buffer.length + q : Nat) : Int) - (s.stored_bufferlen : Int)
          - (DV3K_HEADER_LEN : Int)) % 2 ^ 64 = 0 := by
        have : ((DV3K_HEADER_LEN : Nat) : Int) = 4 := rfl
        rw [this, he]; push_cast; simp
      have hnew : toU32 (Int.bmod ((s.t_buffer.length + q : Nat) : Int) (2 ^ 32)
          - (s.stored_bufferlen : Int) - (DV3K_HEADER_LEN : Int)) = 0 := by
        have h4i : ((DV3K_HEADER_LEN : Nat) : Int) = 4 := rfl
        have q32 : ((2 ^ 32 : Nat) : Int) = 4294967296 := by norm_num
        have i32 : (2 : Int) ^ 32 = 4294967296 := by norm_num
        unfold toU32
        rw [h4i, Int.bmod_def, q32, i32]
        split_ifs <;> omega
      have hterm : termPos 0 s.stored_bufferlen = 2 ^ 64 - s.stored_bufferlen - 3 := by
        have h4i : ((DV3K_HEADER_LEN : Nat) : Int) = 4 := rfl
        have i64 : (2 : Int) ^ 64 = 18446744073709551616 := by norm_num
        unfold termPos
        rw [h4i, i64, p64]
        omega
      rw [hN, hplus, hcount, hnew, hterm] at hdone
      cases h3 : load mem (some a) s.t_buffer.length with
      | none => rw [h3] at hdone; cases hdone
      | some v =>
        rw [h3] at hdone
        simp only at hdone
        cases h5 : store mem (some (a + s.t_buffer.length)) c with
        | none => rw [h5] at hdone; cases hdone
        | some mem1 =>
          rw [h5] at hdone
          have hge : s.t_buffer.length + q ≥ s.stored_bufferlen + 4 := by omega
          simp only [hge, if_true] at hdone
          obtain ⟨e1, b1⟩ := store_eq_some mem _ c mem1 (by omega) h5
          have l1 : mem1.length = mem.length := by
            rw [e1]; exact memcpy_length_mem _ _ _ b1
          cases h6 : load mem1 (some a) (s.stored_bufferlen + 4) with
          | none => rw [h6] at hdone; cases hdone
          | some dv3k =>
            rw [h6] at hdone
            simp only at hdone
            obtain ⟨e2, b2⟩ := load_eq_some mem1 a _ dv3k (by omega) h6
            have hself : store mem1 (some a) dv3k = some mem1 := by
              have hl2 : dv3k.length = s.stored_bufferlen + 4 := load_length _ _ _ _ h6
              unfold store
              have : ¬ dv3k.length = 0 := by omega
              simp only [this, if_false]
              rw [hl2, if_pos b2, e2, memcpy_self _ _ _ b2]
            have hl0 : ∀ p, load mem1 p (Int.toNat 0) = some [] := by
              intro p; simp [load]
            have hs0 : store mem1 (some a) [] = some mem1 := by simp [store]
            rw [hself] at hdone
            simp only [hl0, hs0] at hdone
            cases h7 : store mem1 (plus (some a) (2 ^ 64 - s.stored_bufferlen - 3)) [0] with
            | none => rw [h7] at hdone; cases hdone
            | some mem4 =>
              rw [h7] at hdone
              simp only at hdone
              have hz : plus (some a) (2 ^ 64 - s.stored_bufferlen - 3)
                  = some ((a + (2 ^ 64 - s.stored_bufferlen - 3)) % 2 ^ 64) := rfl
              rw [hz] at h7
              obtain ⟨e4, b4⟩ := store_eq_some mem1 _ [0] mem4 (by simp) h7
              have hzlt : (a + (2 ^ 64 - s.stored_bufferlen - 3)) % 2 ^ 64 + 1 ≤ a := by
                simp only [List.length_singleton] at b4
                rw [p64] at b4 ⊢
                omega
              cases h8 : load mem4 (some a) (s.stored_bufferlen + 4) with
              | none => rw [h8] at hdone; cases hdone
              | some fr =>
                rw [h8] at hdone
                simp only at hdone
                have hfr := (dispatchMem_frame _ _ _ _ _ hdone).1
                rw [hfr] at hf
                simp only [Option.some.injEq] at hf
                subst hf
                obtain ⟨e5, b5⟩ := load_eq_some mem4 a _ fr (by omega) h8
                have g1 : ∀ (m : List Nat) (k : Nat), 0 < k →
                    ((m.drop a).take k).getD 0 0 = m.getD a 0 := by
                  intro m k hk
                  simp only [List.getD_eq_getElem?_getD, List.getElem?_take, hk, if_true,
                    List.getElem?_drop, Nat.add_zero]
                rw [e5, g1 _ _ (by omega), e4,
                  memcpy_getD_ge _ _ _ _ (by simpa using hzlt) (by simpa using b4), e1,
                  memcpy_getD_lt _ _ _ _ (by omega) (by omega), hc, g1 _ _ (by omega)]
    · simp only [h2, if_false] at hdone
      cases hdone; cases hf

/-! ## Declared lengths of any size -/

/-- C19: `callback` compares the declared length with nothing but the length
of the chunk at hand.  Every chunk of at least 4 bytes that begins with the
start marker and declares more payload than it holds is kept: the declared
length, whatever it is, becomes the expected length and the pointer and the
length of the chunk become the pending buffer; nothing is rejected and no
byte is copied into a buffer of the session.  And the copy of a later chunk
behind the pending bytes (line 222) is made with no bound: as soon as the
pending bytes and the chunk together are more than the memory behind the
pointer holds, the copy leaves that memory. -/
theorem declared_length_unchecked (sgn : Bool) (s : MemSession) (mem : List Nat)
    (buffer : Buffer) (bytes : List Nat) (h4 : 4 ≤ buffer.length)
    (hl : load mem buffer.data buffer.length = some bytes)
    (hm : charVal sgn (bytes.getD 0 0) = (DV3K_START_BYTE : Int))
    (hd : buffer.length < (tlenOf sgn bytes + DV3K_HEADER_LEN) % 2 ^ 32) :
    callbackMem sgn s mem buffer
      = Step.done { st := { s with stored_bufferlen := tlenOf sgn bytes, t_buffer := buffer },
                    mem := mem, effects := [], frame := none } ∧
    ∀ (s2 : MemSession) (mem2 : List Nat) (a b q : Nat) (c : List Nat),
      0 < s2.stored_bufferlen → s2.t_buffer.data = some a →
      load mem2 (some b) q = some c → 4 ≤ q →
      charVal sgn (c.getD 0 0) ≠ (DV3K_START_BYTE : Int) →
      a + s2.t_buffer.length ≤ mem2.length → mem2.length < a + s2.t_buffer.length + q →
      mem2.length < 2 ^ 64 →
      callbackMem sgn s2 mem2 { data := some b, length := q } = Step.fault Fault.append := by
  have h1 : ¬ buffer.length < 4 := by omega
  refine ⟨by simp only [callbackMem, h1, hl, hm, gt_iff_lt, hd, if_false, if_true], ?_⟩
  intro s2 mem2 a b q c hpos hdat hlc hq hnm hin hout hmem
  have hq4 : ¬ q < 4 := by omega
  have hcl : c.length = q := load_length _ _ _ _ hlc
  have hpend : ∃ v, load mem2 (some a) s2.t_buffer.length = some v := by
    unfold load
    by_cases h0 : s2.t_buffer.length = 0
    · exact ⟨[], by simp only [h0, if_true]⟩
    · exact ⟨(mem2.drop a).take s2.t_buffer.length,
        by simp only [h0, hin, if_false, if_true]⟩
  obtain ⟨v, hv⟩ := hpend
  have hplus : plus (some a) s2.t_buffer.length = some (a + s2.t_buffer.length) := by
    simp only [plus, Option.map_some', Option.some.injEq]
    exact Nat.mod_eq_of_lt (by omega)
  have hstore : store mem2 (some (a + s2.t_buffer.length)) c = none := by
    unfold store
    have h0 : ¬ c.length = 0 := by omega
    have h2 : ¬ a + s2.t_buffer.length + c.length ≤ mem2.length := by omega
    simp only [h0, h2, if_false]
  simp only [callbackMem, hq4, hlc, hnm, gt_iff_lt, hpos, hdat, hv, hplus, hstore, if_false,
    if_true]

/-- The chunk 61 ff ff 02 01 declares 65535 bytes, the largest value of the
length field, and is kept with 65535 as the expected length (with a signed
`char` with 4294967039).  The transport reads the next chunks, of 12 bytes
each, into its buffer at address 16; `callback` copies each behind the bytes
it counts as pending, at the addresses 21, 33 and 45, and the third copy
leaves the 48 bytes of memory. -/
theorem declared_length_unchecked_witness :
    callbackMem false (constructMem 0 0) (memcpy exampleMemory 16 [0x61, 0xff, 0xff, 0x02, 0x01])
        { data := some 16, length := 5 }
      = Step.done { st := { constructMem 0 0 with
                            stored_bufferlen := tlenOf false [0x61, 0xff, 0xff, 0x02, 0x01],
                            t_buffer := { data := some 16, length := 5 } },
                    mem := memcpy exampleMemory 16 [0x61, 0xff, 0xff, 0x02, 0x01],
                    effects := [], frame := none } ∧
    tlenOf false [0x61, 0xff, 0xff, 0x02, 0x01] = 65535 ∧
    tlenOf true [0x61, 0xff, 0xff, 0x02, 0x01] = 4294967039 ∧
    (feedMem false (constructMem 0 0) exampleMemory
        (reused 16 [[0x61, 0xff, 0xff, 0x02, 0x01], List.replicate 12 1,
          List.replicate 12 2])).st.t_buffer = { data := some 16, length := 29 } ∧
    (feedMem false (constructMem 0 0) exampleMemory
        (reused 16 [[0x61, 0xff, 0xff, 0x02, 0x01], List.replicate 12 1,
          List.replicate 12 2])).mem
      = List.replicate 16 0xee ++ List.replicate 12 2 ++ List.replicate 5 1
          ++ List.replicate 12 2 ++ [0, 0, 0] ∧
    (feedMem false (constructMem 0 0) exampleMemory
        (reused 16 [[0x61, 0xff, 0xff, 0x02, 0x01], List.replicate 12 1, List.replicate 12 2,
          List.replicate 12 3])).fault = some Fault.append ∧
    (feedMem false (constructMem 0 0) exampleMemory
        (reused 16 [[0x61, 0xff, 0xff, 0x02, 0x01], List.replicate 12 1, List.replicate 12 2,
          List.replicate 12 3])).frames = [] :=
  ⟨(declared_length_unchecked false (constructMem 0 0) _ { data := some 16, length := 5 }
      [0x61, 0xff, 0xff, 0x02, 0x01] (by decide) (by decide) (by decide) (by decide)).1,
    by decide, by decide, by decide, by decide, by decide, by decide⟩

/-! ## A frame in two chunks -/

theorem load_memcpy (mem : List Nat) (a : Nat) (c : List Nat) (h : a + c.length ≤ mem.length) :
    load (memcpy mem a c) (some a) c.length = some c := by
  unfold load
  by_cases h0 : c.length = 0
  · simp only [h0, if_true, Option.some.injEq]
    exact (List.length_eq_zero.mp h0).symm
  · simp only [h0, if_false]
    rw [memcpy_length_mem _ _ _ h, if_pos h]
    congr 1
    unfold memcpy
    have h1 : (List.take a mem).length = a := by rw [List.length_take]; omega
    rw [List.append_assoc, List.drop_append_of_le_length (by rw [h1]),
      List.drop_of_length_le (by rw [h1]), List.nil_append, List.take_left]

theorem tlenOf_take (sgn : Bool) (F : List Nat) (p : Nat) (hp : 4 ≤ p) :
    tlenOf sgn (F.take p) = tlenOf sgn F := by
  unfold tlenOf
  have g : ∀ i, i < p → (F.take p).getD i 0 = F.getD i 0 := by
    intro i hi
    simp only [List.getD_eq_getElem?_getD, List.getElem?_take, hi, if_true]
  rw [g 2 (by omega), g 1 (by omega)]

/-- C20: let F be any frame that is valid as `callback` reads its length field
(with an unsigned `char` every frame; with a signed `char` the frames whose
length bytes are below 0x80, the others being misread already) and p any cut
position of the claim (4 <= p < 4 + L, the byte of F at p not the start
marker), and let the transport read both chunks into its one buffer, at any
address `a` of any memory that has room for F there.  The
first call dispatches nothing.  The second call finds the second chunk at
the address it stored with the first one: whatever it dispatches begins with
the byte F[p] and so is not F, which begins with the start marker.  The
source keeps the pointer of the first chunk where a copy of its bytes was
meant (the comment on lines 195-198 speaks of a temporary buffer that shall
collect all further data, the comment on line 219 notes that the data of the
first call has been lost). -/
theorem two_chunks_one_buffer (sgn : Bool) (s : MemSession) (mem : List Nat) (a : Nat)
    (F : List Nat) (p : Nat) (hF : validFrame sgn F) (hp : 4 ≤ p) (hpl : p < F.length)
    (hb : charVal sgn (F.getD p 0) ≠ (DV3K_START_BYTE : Int))
    (ha : a + F.length ≤ mem.length) (hm : mem.length < 2 ^ 63) :
    (feedMem sgn s mem (reused a [F.take p])).frames = [] ∧
    ∀ f ∈ (feedMem sgn s mem (reused a [F.take p, F.drop p])).frames,
      f.getD 0 0 = F.getD p 0 ∧ f ≠ F := by
  obtain ⟨_, hstart, hlen, hbound⟩ := hF
  have h4 : DV3K_HEADER_LEN = 4 := rfl
  have l1 : (F.take p).length = p := by rw [List.length_take]; omega
  have l2 : (F.drop p).length = F.length - p := List.length_drop p F
  have ht := tlenOf_take sgn F p hp
  -- the first call
  have hload1 : load (memcpy mem a (F.take p)) (some a) (F.take p).length = some (F.take p) :=
    load_memcpy mem a _ (by rw [l1]; omega)
  have hst1 : charVal sgn ((F.take p).getD 0 0) = (DV3K_START_BYTE : Int) := by
    have : (F.take p).getD 0 0 = F.getD 0 0 := by
      simp only [List.getD_eq_getElem?_getD, List.getElem?_take]
      rw [if_pos (by omega)]
    rw [this]; exact hstart
  have hpart : (tlenOf sgn (F.take p) + DV3K_HEADER_LEN) % 2 ^ 32 > (F.take p).length := by
    rw [ht, ← hlen, Nat.mod_eq_of_lt hbound, l1]; exact hpl
  have hcall1 : callbackMem sgn s (memcpy mem a (F.take p))
        { data := some a, length := (F.take p).length }
      = Step.done { st := { s with stored_bufferlen := tlenOf sgn (F.take p),
                                   t_buffer := { data := some a, length := (F.take p).length } },
                    mem := memcpy mem a (F.take p), effects := [], frame := none } := by
    have h1 : ¬ (F.take p).length < 4 := by rw [l1]; omega
    simp only [callbackMem, h1, hload1, hst1, hpart, if_false, if_true]
  have hab : aborted [] = false := rfl
  refine ⟨?_, ?_⟩
  · simp only [reused, List.map, feedMem, hcall1, hab, Bool.false_eq_true, if_false,
      List.append_nil]
    rfl
  · intro f hfm
    have lm1 : (memcpy mem a (F.take p)).length = mem.length :=
      memcpy_length_mem _ _ _ (by rw [l1]; omega)
    have hload2 : load (memcpy (memcpy mem a (F.take p)) a (F.drop p)) (some a)
        (F.drop p).length = some (F.drop p) :=
      load_memcpy _ a _ (by rw [lm1, l2]; omega)
    have lm2 : (memcpy (memcpy mem a (F.take p)) a (F.drop p)).length = mem.length := by
      rw [memcpy_length_mem _ _ _ (by rw [lm1, l2]; omega), lm1]
    simp only [reused, List.map, feedMem, hcall1, hab, Bool.false_eq_true, if_false,
      List.nil_append, List.append_nil] at hfm
    have key : ∀ o : MemOutcome,
        callbackMem sgn { s with stored_bufferlen := tlenOf sgn (F.take p),
                                 t_buffer := { data := some a, length := (F.take p).length } }
            (memcpy (memcpy mem a (F.take p)) a (F.drop p))
            { data := some a, length := (F.drop p).length } = Step.done o →
        ∀ g, o.frame = some g → g.getD 0 0 = (F.drop p).getD 0 0 := by
      intro o ho g hg
      by_cases hq : (F.drop p).length < 4
      · simp only [callbackMem, hq, if_true, Step.done.injEq] at ho
        subst ho
        cases hg
      · exact callbackMem_same_address sgn _ _ a (F.drop p).length (F.drop p) rfl hload2
          (by omega) (by simp only; rw [l1]; omega)
          (by simp only; rw [ht, ← hlen]; exact hbound)
          (by simp only; rw [ht, ← hlen, l1, l2]; omega)
          (by rw [lm2]; exact hm) o ho g hg
    have hfirst : (F.drop p).getD 0 0 = F.getD p 0 := by
      simp only [List.getD_eq_getElem?_getD, List.getElem?_drop, Nat.add_zero]
    cases hc : (callbackMem sgn
        ({ s with stored_bufferlen := tlenOf sgn (F.take p),
                  t_buffer := { data := some a, length := (F.take p).length } })
        (memcpy (memcpy mem a (F.take p)) a (F.drop p))
        { data := some a, length := (F.drop p).length }) with
    | fault e =>
      rw [hc] at hfm
      simp only at hfm
      cases hfm
    | done o =>
      rw [hc] at hfm
      have hmem : f ∈ o.frame.toList := by
        simp only at hfm
        split_ifs at hfm
        · exact hfm
        · simpa using hfm
      have hof : o.frame = some f := by
        cases hfr : o.frame with
        | none => rw [hfr] at hmem; cases hmem
        | some g =>
          rw [hfr] at hmem
          simp only [Option.toList, List.mem_singleton] at hmem
          rw [hmem]
      have e := key o hc f hof
      rw [hfirst] at e
      refine ⟨e, ?_⟩
      intro hfF
      rw [hfF] at e
      rw [← e] at hb
      exact hb hstart

/-- The frame 61 00 06 00 0a 0b 0c 0d 0e 0f (L = 6) cut at p = 6, where its
byte is 0c, in the memory of the examples with the read buffer at address
16: the second call dispatches 0c 0d 0e 0f 0a 0b 0c 0d 0e 0f, for either
signedness of `char`, and writes the zero byte of line 244 at address 7, in
front of the buffer.  With the buffer at address 8 of a memory of 40 bytes
that write is outside the memory and no frame is dispatched.  The frame is
dispatched only when the
caller has left the first chunk where it was, with room behind it, and hands
over the second chunk elsewhere (here at address 32).  The frame
61 00 01 00 30 cut at p = 4 is never dispatched either: its second chunk,
one byte, only triggers `init()`. -/
theorem two_chunks_one_buffer_witness :
    ((feedMem false (constructMem 0 0) exampleMemory (reused 16 [exampleFrame.take 6])).frames
        = [] ∧
      ∀ f ∈ (feedMem false (constructMem 0 0) exampleMemory
          (reused 16 [exampleFrame.take 6, exampleFrame.drop 6])).frames,
        f.getD 0 0 = exampleFrame.getD 6 0 ∧ f ≠ exampleFrame) ∧
    validFrame false exampleFrame ∧ validFrame true exampleFrame ∧
    exampleFrame.getD 6 0 ≠ 0x61 ∧
    (feedMem false (constructMem 0 0) exampleMemory
        (reused 16 [exampleFrame.take 6, exampleFrame.drop 6])).frames
      = [[0x0c, 0x0d, 0x0e, 0x0f, 0x0a, 0x0b, 0x0c, 0x0d, 0x0e, 0x0f]] ∧
    (feedMem true (constructMem 0 0) exampleMemory
        (reused 16 [exampleFrame.take 6, exampleFrame.drop 6])).frames
      = [[0x0c, 0x0d, 0x0e, 0x0f, 0x0a, 0x0b, 0x0c, 0x0d, 0x0e, 0x0f]] ∧
    (feedMem false (constructMem 0 0) exampleMemory
        (reused 16 [exampleFrame.take 6, exampleFrame.drop 6])).frames ≠ [exampleFrame] ∧
    (feedMem false (constructMem 0 0) exampleMemory
        (reused 16 [exampleFrame.take 6, exampleFrame.drop 6])).fault = none ∧
    (feedMem false (constructMem 0 0) exampleMemory
        (reused 16 [exampleFrame.take 6, exampleFrame.drop 6])).mem.take 16
      = List.replicate 7 0xee ++ [0] ++ List.replicate 8 0xee ∧
    (feedMem false (constructMem 0 0) (List.replicate 40 0)
        (reused 8 [exampleFrame.take 6, exampleFrame.drop 6])).fault = some Fault.zero ∧
    (feedMem false (constructMem 0 0) (List.replicate 40 0)
        (reused 8 [exampleFrame.take 6, exampleFrame.drop 6])).frames = [] ∧
    (feedMem false (constructMem 0 0) exampleMemory
        [(16, exampleFrame.take 6), (32, exampleFrame.drop 6)]).frames = [exampleFrame] ∧
    validFrame false [0x61, 0x00, 0x01, 0x00, 0x30] ∧
    (feedMem false (constructMem 0 0) exampleMemory
        (reused 16 [[0x61, 0x00, 0x01, 0x00], [0x30]])).frames = [] ∧
    (feedMem false (constructMem 0 0) exampleMemory
        (reused 16 [[0x61, 0x00, 0x01, 0x00], [0x30]])).effects
      = [Effect.send DV3K_REQ_PRODID] :=
  ⟨two_chunks_one_buffer false (constructMem 0 0) exampleMemory 16 exampleFrame 6 (by decide)
      (by decide) (by decide) (by decide) (by decide) (by decide),
    by decide, by decide, by decide, by decide, by decide, by decide, by decide,
    by decide, by decide, by decide, by decide, by decide, by decide, by decide⟩

end Dv3k

namespace Usrp

/-! ## The inactivity watchdog -/

/-- For times as `gettimeofday` gives them, the seconds of `timersub` exceed 3
exactly when at least 4 seconds have passed. -/
theorem timersub_sec_gt_three (now ts : Timeval) (hn : normalTime now) (ht : normalTime ts) :
    (timersub now ts).tv_sec > 3 ↔ elapsedMicros now ts ≥ 4000000 := by
  obtain ⟨n1, n2⟩ := hn
  obtain ⟨t1, t2⟩ := ht
  unfold timersub elapsedMicros
  simp only
  split_ifs with h
  · simp only; constructor <;> intro g <;> omega
  · simp only; constructor <;> intro g <;> omega

/-- C17, the claim as written fails: with the timestamp set to second 100 and
the clock at 103.5 s, that is 3.5 seconds later, `handleTimerTick` changes
nothing; it flushes when the clock is at 104.0 s. -/
theorem watchdog_counterexample :
    elapsedMicros ⟨103, 500000⟩ ⟨100, 0⟩ = 3500000 ∧
    handleTimerTick { fresh (fun _ => 0) 0 with m_last_talker_timestamp := ⟨100, 0⟩ }
        ⟨103, 500000⟩
      = { fresh (fun _ => 0) 0 with m_last_talker_timestamp := ⟨100, 0⟩ } ∧
    (handleTimerTick { fresh (fun _ => 0) 0 with m_last_talker_timestamp := ⟨100, 0⟩ }
        ⟨104, 0⟩).codec = [CodecCall.decFlushEncodedSamples] ∧
    (handleTimerTick { fresh (fun _ => 0) 0 with m_last_talker_timestamp := ⟨100, 0⟩ }
        ⟨104, 0⟩).m_last_talker_timestamp = ⟨0, 0⟩ := by
  refine ⟨by decide, by rfl, by decide, by decide⟩

/-- C17, amended: `handleTimerTick` flushes the decoder and clears the
last-talker timestamp exactly when the timestamp is set and the seconds of
now minus timestamp (after the borrow for the microseconds) are more than 3,
that is when at least 4 seconds have passed; otherwise it changes nothing. -/
theorem watchdog_four_seconds (s : Logic) (now : Timeval) (hn : normalTime now)
    (ht : normalTime s.m_last_talker_timestamp) :
    handleTimerTick s now
      = if timerisset s.m_last_talker_timestamp = true
            ∧ elapsedMicros now s.m_last_talker_timestamp ≥ 4000000 then
          { s with codec := s.codec ++ [CodecCall.decFlushEncodedSamples],
                   m_last_talker_timestamp := { tv_sec := 0, tv_usec := 0 } }
        else s := by
  have h := timersub_sec_gt_three now s.m_last_talker_timestamp hn ht
  unfold handleTimerTick
  simp only
  by_cases hset : timerisset s.m_last_talker_timestamp = true
  · by_cases hgt : (timersub now s.m_last_talker_timestamp).tv_sec > 3
    · rw [if_pos hset, if_pos hgt, if_pos ⟨hset, h.mp hgt⟩]
    · rw [if_pos hset, if_neg hgt, if_neg (fun g => hgt (h.mpr g.2))]
  · rw [if_neg hset, if_neg (fun g => hset g.1)]

theorem watchdog_four_seconds_witness :
    handleTimerTick { fresh (fun _ => 0) 0 with m_last_talker_timestamp := ⟨100, 250000⟩ }
        ⟨104, 250000⟩
      = if timerisset (⟨100, 250000⟩ : Timeval) = true
            ∧ elapsedMicros ⟨104, 250000⟩ ⟨100, 250000⟩ ≥ 4000000 then
          { fresh (fun _ => 0) 0 with
            codec := (fresh (fun _ => 0) 0).codec ++ [CodecCall.decFlushEncodedSamples],
            m_last_talker_timestamp := { tv_sec := 0, tv_usec := 0 } }
        else { fresh (fun _ => 0) 0 with m_last_talker_timestamp := ⟨100, 250000⟩ } :=
  watchdog_four_seconds { fresh (fun _ => 0) 0 with m_last_talker_timestamp := ⟨100, 250000⟩ }
    ⟨104, 250000⟩ (by decide) (by decide)

end Usrp

namespace Usrp

/-! ## One sequence number per message -/

/-- Every sending function advances the counter by the same step, whether
packing succeeds or not. -/
theorem applyOp_udp_seq (pack : UdpMsg → Bool) (table : Nat → List Char) (s : Logic)
    (op : SendOp) : (applyOp pack table s op).udp_seq = nextSeq s.udp_seq := by
  cases op <;>
    simp only [applyOp, sendAudioMsg, sendStopMsg, sendMetaMsg, switchMode, sendUdpMessage,
      processEvent, checkIdle, setIdle] <;>
    split_ifs <;> rfl

/-- When packing succeeds, every sending function sends one message, and it
carries the advanced counter. -/
theorem applyOp_seqs (table : Nat → List Char) (s : Logic) (op : SendOp) :
    seqs (applyOp (fun _ => true) table s op) = seqs s ++ [nextSeq s.udp_seq] := by
  cases op <;>
    simp [applyOp, sendAudioMsg, sendStopMsg, sendMetaMsg, switchMode, sendUdpMessage,
      processEvent, checkIdle, setIdle, seqs]

theorem sendAudioMsg_udp_seq (pack : UdpMsg → Bool) (s : Logic) (usrp : UdpMsg) :
    (sendAudioMsg pack s usrp).udp_seq = nextSeq s.udp_seq :=
  applyOp_udp_seq pack (fun _ => []) s (SendOp.audioMsg usrp)

/-- The counter after a run depends on the number of calls only. -/
theorem runOps_udp_seq (pack : UdpMsg → Bool) (table : Nat → List Char) (ops : List SendOp) :
    ∀ s s1 : Logic, s.udp_seq = s1.udp_seq →
      (runOps pack table s ops).udp_seq = (sendAudioMsgTimes pack ops.length s1).udp_seq := by
  induction ops with
  | nil => intro s s1 h; exact h
  | cons op ops ih =>
    intro s s1 h
    simp only [runOps, List.length_cons, sendAudioMsgTimes]
    apply ih
    rw [applyOp_udp_seq, sendAudioMsg_udp_seq, h]

/-- The numbers carried by the messages of a run are those of a run of
voice messages of the same length. -/
theorem runOps_seqs (table : Nat → List Char) (ops : List SendOp) :
    ∀ s s1 : Logic, s.udp_seq = s1.udp_seq →
      ∃ l : List Int, l.length = ops.length ∧
        seqs (runOps (fun _ => true) table s ops) = seqs s ++ l ∧
        seqs (sendAudioMsgTimes (fun _ => true) ops.length s1) = seqs s1 ++ l := by
  induction ops with
  | nil => intro s s1 _; exact ⟨[], rfl, by simp [runOps], by simp [sendAudioMsgTimes]⟩
  | cons op ops ih =>
    intro s s1 h
    obtain ⟨l, e0, e1, e2⟩ := ih (applyOp (fun _ => true) table s op)
      (sendAudioMsg (fun _ => true) s1 { kind := MsgKind.voice, seq := 0, audio := [] })
      (by rw [applyOp_udp_seq, sendAudioMsg_udp_seq, h])
    refine ⟨nextSeq s.udp_seq :: l, by simp [e0], ?_, ?_⟩
    · simp only [runOps]
      rw [e1, applyOp_seqs, List.append_assoc, List.singleton_append]
    · simp only [List.length_cons, sendAudioMsgTimes]
      rw [e2, (sendAudioMsg_packed s1 _).2, h, List.append_assoc, List.singleton_append]

/-- C15: for every interleaving of `sendAudioMsg`, `sendStopMsg`, `sendMetaMsg`
and `switchMode` calls, from every state, with packing succeeding: each call
sends one message, and the i-th message sent carries the same sequence number
as the i-th message of a run of as many voice messages from the same state.
Whether packing succeeds or not, the counter after the run is the counter
after as many `sendAudioMsg` calls: each call consumes exactly one number. -/
theorem one_number_per_message (table : Nat → List Char) (ops : List SendOp) (s : Logic) :
    seqs (runOps (fun _ => true) table s ops)
      = seqs (sendAudioMsgTimes (fun _ => true) ops.length s) ∧
    (seqs (runOps (fun _ => true) table s ops)).length = (seqs s).length + ops.length ∧
    ∀ pack : UdpMsg → Bool,
      (runOps pack table s ops).udp_seq = (sendAudioMsgTimes pack ops.length s).udp_seq := by
  obtain ⟨l, e0, e1, e2⟩ := runOps_seqs table ops s s rfl
  refine ⟨by rw [e1, e2], ?_, fun pack => runOps_udp_seq pack table ops s s rfl⟩
  rw [e1, List.length_append, e0]

end Usrp

namespace Usrp

/-! ## Transmissions -/

/-- The loop of `sendEncodedAudio` emits no event and keeps the talkgroup. -/
theorem drain_events (pack : UdpMsg → Bool) (fuel : Nat) :
    ∀ s : Logic, (drain pack fuel s).events = s.events ∧
      (drain pack fuel s).m_selected_tg = s.m_selected_tg := by
  induction fuel with
  | zero => intro s; exact ⟨rfl, rfl⟩
  | succ n ih =>
    intro s
    by_cases hge : USRP_AUDIO_FRAME_LEN ≤ s.stored_samples
    · rw [drain_round pack n s hge]
      obtain ⟨i1, i2⟩ := ih
        { sendAudioMsg pack s (setAudioData { kind := MsgKind.voice, seq := 0, audio := [] }
            s.r_buf) with
          r_buf := memcpy s.r_buf 0
            ((s.r_buf.drop USRP_AUDIO_FRAME_LEN).take (s.stored_samples - USRP_AUDIO_FRAME_LEN))
          stored_samples := s.stored_samples - USRP_AUDIO_FRAME_LEN }
      rw [i1, i2]
      unfold sendAudioMsg sendUdpMessage
      simp only
      split_ifs <;> exact ⟨rfl, rfl⟩
    · rw [drain_done pack _ s (Nat.not_le.mp hge)]
      exact ⟨rfl, rfl⟩

theorem sendMetaMsg_trace (s : Logic) :
    kindsSent (sendMetaMsg (fun _ => true) s) = kindsSent s ++ [MsgKind.metadata] ∧
    (sendMetaMsg (fun _ => true) s).events
      = s.events ++ ["transmission_start ".toList ++ decimal s.m_selected_tg] ∧
    (sendMetaMsg (fun _ => true) s).m_selected_tg = s.m_selected_tg := by
  simp [sendMetaMsg, processEvent, checkIdle, setIdle, sendUdpMessage, kindsSent]

/-- The function `sendStopMsg` when packing succeeds: the stop message is sent,
`ident` is cleared and transmission_stop is emitted with the talkgroup. -/
theorem sendStopMsg_trace (s : Logic) :
    kindsSent (sendStopMsg (fun _ => true) s) = kindsSent s ++ [MsgKind.stop] ∧
    (sendStopMsg (fun _ => true) s).events
      = s.events ++ ["transmission_stop ".toList ++ decimal s.m_selected_tg] ∧
    (sendStopMsg (fun _ => true) s).ident = false ∧
    (sendStopMsg (fun _ => true) s).m_selected_tg = s.m_selected_tg ∧
    (sendStopMsg (fun _ => true) s).r_buf = s.r_buf ∧
    (sendStopMsg (fun _ => true) s).stored_samples = s.stored_samples := by
  simp [sendStopMsg, processEvent, checkIdle, setIdle, sendUdpMessage, kindsSent]

/-- One `sendEncodedAudio` call whose chunk fits, packing succeeding: the
metadata message and transmission_start come first and only if `ident` was
not set, then one voice message per complete frame. -/
theorem sendEncodedAudio_trace (s : Logic) (t : List Int)
    (h : s.stored_samples + t.length ≤ s.r_buf.length) :
    ∃ s1 : Logic,
      sendEncodedAudio (fun _ => true) s t (2 * t.length) = some s1 ∧
      kindsSent s1 = kindsSent s ++ (if s.ident then [] else [MsgKind.metadata])
        ++ List.replicate ((s.stored_samples + t.length) / USRP_AUDIO_FRAME_LEN) MsgKind.voice ∧
      s1.events = s.events
        ++ (if s.ident then [] else ["transmission_start ".toList ++ decimal s.m_selected_tg]) ∧
      s1.ident = true ∧ s1.m_selected_tg = s.m_selected_tg ∧
      s1.stored_samples = (s.stored_samples + t.length) % USRP_AUDIO_FRAME_LEN ∧
      s1.r_buf.length = s.r_buf.length := by
  have hlen : 2 * t.length * 1 / 2 = t.length := by omega
  obtain ⟨s0, hs0, b1, b2, b3, b4, b5, b6⟩ : ∃ s0 : Logic,
      (if (!s.ident) = true then sendMetaMsg (fun _ => true) s else s) = s0 ∧
      s0.r_buf = s.r_buf ∧ s0.stored_samples = s.stored_samples ∧ s0.ident = true ∧
      kindsSent s0 = kindsSent s ++ (if s.ident then [] else [MsgKind.metadata]) ∧
      s0.events = s.events
        ++ (if s.ident then [] else ["transmission_start ".toList ++ decimal s.m_selected_tg]) ∧
      s0.m_selected_tg = s.m_selected_tg := by
    refine ⟨_, rfl, ?_⟩
    obtain ⟨m1, m2, m3, _, _⟩ := sendMetaMsg_packed s
    obtain ⟨t1, t2, t3⟩ := sendMetaMsg_trace s
    cases hi : s.ident
    · simpa using ⟨m1, m2, m3, t1, t2, t3⟩
    · simp [hi]
  obtain ⟨s0f, hs0f, f1, f2, f3, f4, f5, f6⟩ : ∃ s0f : Logic,
      (if s0.flush_timer_enabled = true then { s0 with flush_timer_enabled := false } else s0)
        = s0f ∧
      s0f.r_buf = s.r_buf ∧ s0f.stored_samples = s.stored_samples ∧ s0f.ident = true ∧
      kindsSent s0f = kindsSent s ++ (if s.ident then [] else [MsgKind.metadata]) ∧
      s0f.events = s.events
        ++ (if s.ident then [] else ["transmission_start ".toList ++ decimal s.m_selected_tg]) ∧
      s0f.m_selected_tg = s.m_selected_tg := by
    refine ⟨_, rfl, ?_⟩
    by_cases hfl : s0.flush_timer_enabled = true
    · rw [if_pos hfl]; exact ⟨b1, b2, b3, b4, b5, b6⟩
    · rw [if_neg hfl]; exact ⟨b1, b2, b3, b4, b5, b6⟩
  have hfit : ¬ (t.length < t.length ∨ s0f.r_buf.length < s0f.stored_samples + t.length) := by
    rw [f1, f2]; omega
  have hE : sendEncodedAudio (fun _ => true) s t (2 * t.length)
      = some (drain (fun _ => true) (s0f.stored_samples + t.length)
          { s0f with r_buf := memcpy s0f.r_buf s0f.stored_samples t,
                     stored_samples := s0f.stored_samples + t.length }) := by
    unfold sendEncodedAudio
    simp only [hlen, hs0, hs0f, hfit, if_false, List.take_length]
  obtain ⟨d1, d2, _, d4, new, d5, d6, d7⟩ := drain_spec (s0f.stored_samples + t.length)
    { s0f with r_buf := memcpy s0f.r_buf s0f.stored_samples t,
               stored_samples := s0f.stored_samples + t.length }
    (le_refl _)
    (by simp only; rw [memcpy_length _ _ _ (by rw [f1, f2]; exact h), f1, f2]; exact h)
  obtain ⟨v1, v2⟩ := drain_events (fun _ => true) (s0f.stored_samples + t.length)
    { s0f with r_buf := memcpy s0f.r_buf s0f.stored_samples t,
               stored_samples := s0f.stored_samples + t.length }
  simp only at d1 d2 d4 d5 d6 v1 v2
  refine ⟨_, hE, ?_, v1.trans f5, d4.trans f3, v2.trans f6, by rw [d1, f2], ?_⟩
  · have hk : new.map (fun m => m.kind)
        = List.replicate ((s.stored_samples + t.length) / USRP_AUDIO_FRAME_LEN) MsgKind.voice := by
      rw [List.eq_replicate_iff]
      refine ⟨by rw [List.length_map, d6, f2], ?_⟩
      intro k hk
      obtain ⟨m, hm, rfl⟩ := List.mem_map.mp hk
      exact (d7 m hm).1
    have hs : kindsSent s0f = s0f.sent.map (fun m => m.kind) := rfl
    simp only [kindsSent] at f4 ⊢
    rw [d5, List.map_append, f4, hk]
  · rw [d2, memcpy_length _ _ _ (by rw [f1, f2]; exact h), f1]

end Usrp

namespace Usrp

/-- A run with chunks of at most 160 samples, from a state whose 320-sample
buffer holds fewer than 160 samples: every call returns. -/
theorem txRun_small_chunks (ops : List TxOp) (s : Logic)
    (hr : s.r_buf.length = 2 * USRP_AUDIO_FRAME_LEN)
    (hs : s.stored_samples < USRP_AUDIO_FRAME_LEN) (hc : smallChunks ops) :
    ∃ s1 : Logic, txRun (fun _ => true) s ops = some s1 ∧
      kindsSent s1 = kindsSent s ++ txKinds s.ident s.stored_samples ops ∧
      s1.events = s.events ++ txEvents s.m_selected_tg s.ident ops ∧
      s1.ident = txIdent s.ident ops := by
  have h160 : USRP_AUDIO_FRAME_LEN = 160 := rfl
  induction ops generalizing s with
  | nil => exact ⟨s, rfl, by simp [txKinds], by simp [txEvents], rfl⟩
  | cons op ops ih =>
    cases op with
    | audio t =>
      obtain ⟨ht, hrest⟩ := hc
      obtain ⟨s1, e1, e2, e3, e4, e5, e6, e7⟩ := sendEncodedAudio_trace s t (by rw [hr]; omega)
      obtain ⟨s2, g1, g2, g3, g4⟩ := ih s1 (by rw [e7, hr])
        (by rw [e6]; exact Nat.mod_lt _ (by rw [h160]; norm_num)) hrest
      refine ⟨s2, ?_, ?_, ?_, ?_⟩
      · simp only [txRun, txStep, e1, g1]
      · rw [g2, e2, e4, e6]; simp only [txKinds, List.append_assoc]
      · rw [g3, e3, e4, e5]; simp only [txEvents, List.append_assoc]
      · rw [g4, e4]; rfl
    | stop =>
      obtain ⟨t1, t2, t3, t4, t5, t6⟩ := sendStopMsg_trace s
      obtain ⟨s2, g1, g2, g3, g4⟩ := ih (sendStopMsg (fun _ => true) s) (by rw [t5, hr])
        (by rw [t6]; exact hs) hc
      refine ⟨s2, ?_, ?_, ?_, ?_⟩
      · simp only [txRun, txStep, g1]
      · rw [g2, t1, t3, t6]; simp only [txKinds, List.append_assoc, List.singleton_append]
      · rw [g3, t2, t3, t4]; simp only [txEvents, List.append_assoc, List.singleton_append]
      · rw [g4, t3]; rfl

/-- A run in which every call returns follows the lifecycle. -/
theorem txRun_trace (ops : List TxOp) :
    ∀ s s1 : Logic, txRun (fun _ => true) s ops = some s1 →
      kindsSent s1 = kindsSent s ++ txKinds s.ident s.stored_samples ops ∧
      s1.events = s.events ++ txEvents s.m_selected_tg s.ident ops ∧
      s1.ident = txIdent s.ident ops := by
  induction ops with
  | nil =>
    intro s s1 h
    simp only [txRun, Option.some.injEq] at h
    subst h
    exact ⟨by simp [txKinds], by simp [txEvents], rfl⟩
  | cons op ops ih =>
    intro s s2 h
    cases op with
    | audio t =>
      have hfit : s.stored_samples + t.length ≤ s.r_buf.length := by
        by_contra hn
        have hnone := (sendEncodedAudio_eq_none_iff (fun _ => true) s t).mpr (by omega)
        simp only [txRun, txStep, hnone] at h
        cases h
      obtain ⟨s1, e1, e2, e3, e4, e5, e6, _⟩ := sendEncodedAudio_trace s t hfit
      simp only [txRun, txStep, e1] at h
      obtain ⟨g2, g3, g4⟩ := ih s1 s2 h
      refine ⟨?_, ?_, ?_⟩
      · rw [g2, e2, e4, e6]; simp only [txKinds, List.append_assoc]
      · rw [g3, e3, e4, e5]; simp only [txEvents, List.append_assoc]
      · rw [g4, e4]; rfl
    | stop =>
      obtain ⟨t1, t2, t3, t4, _, t6⟩ := sendStopMsg_trace s
      simp only [txRun, txStep] at h
      obtain ⟨g2, g3, g4⟩ := ih (sendStopMsg (fun _ => true) s) s2 h
      refine ⟨?_, ?_, ?_⟩
      · rw [g2, t1, t3, t6]; simp only [txKinds, List.append_assoc, List.singleton_append]
      · rw [g3, t2, t3, t4]; simp only [txEvents, List.append_assoc, List.singleton_append]
      · rw [g4, t3]; rfl

/-- C16: in every run of `sendEncodedAudio` and `sendStopMsg` calls, packing
succeeding, in which every call returns (no copy goes past `r_buf`), the
messages sent, the events emitted and the `identified` flag are the ones the
transmission lifecycle prescribes: the first audio call after start-up or
after a stop sends the metadata message before any voice message, sets
`identified` and emits transmission_start; later audio calls send voice
messages only; `sendStopMsg` sends the stop message, clears `identified` and
emits transmission_stop with the selected talkgroup.  Every call returns
when the 320-sample buffer holds fewer than 160 samples at the start and no
chunk has more than 160 samples. -/
theorem transmission_lifecycle (ops : List TxOp) (s : Logic) :
    (∀ s1 : Logic, txRun (fun _ => true) s ops = some s1 →
      kindsSent s1 = kindsSent s ++ txKinds s.ident s.stored_samples ops ∧
      s1.events = s.events ++ txEvents s.m_selected_tg s.ident ops ∧
      s1.ident = txIdent s.ident ops) ∧
    (s.r_buf.length = 2 * USRP_AUDIO_FRAME_LEN → s.stored_samples < USRP_AUDIO_FRAME_LEN →
      smallChunks ops → ∃ s1 : Logic, txRun (fun _ => true) s ops = some s1) := by
  refine ⟨txRun_trace ops s, fun hr hs hc => ?_⟩
  obtain ⟨s1, h, _⟩ := txRun_small_chunks ops s hr hs hc
  exact ⟨s1, h⟩

theorem transmission_lifecycle_witness :
    (∃ s1 : Logic,
      txRun (fun _ => true) (fresh (fun _ => 0) 0)
          [TxOp.audio [1, 2, 3], TxOp.audio [4, 5], TxOp.stop, TxOp.audio [6]] = some s1) ∧
    txKinds false 0 [TxOp.audio [1, 2, 3], TxOp.audio [4, 5], TxOp.stop, TxOp.audio [6]]
      = [MsgKind.metadata, MsgKind.stop, MsgKind.metadata] ∧
    txKinds false 150 [TxOp.audio [1, 2, 3], TxOp.audio (List.replicate 10 0), TxOp.stop]
      = [MsgKind.metadata, MsgKind.voice, MsgKind.stop] ∧
    txEvents 0 false [TxOp.audio [1, 2, 3], TxOp.audio [4, 5], TxOp.stop, TxOp.audio [6]]
      = ["transmission_start 0".toList, "transmission_stop 0".toList,
         "transmission_start 0".toList] :=
  ⟨(transmission_lifecycle
      [TxOp.audio [1, 2, 3], TxOp.audio [4, 5], TxOp.stop, TxOp.audio [6]]
      (fresh (fun _ => 0) 0)).2
      (by simp only [fresh, List.length_map, List.length_range]; rfl)
      (by decide) (by decide),
    by decide, by decide, by decide⟩

end Usrp

namespace Dv3k

/-! ## The session registry -/

theorem instFind_none_iff (l : List (Options × Instance)) (key : Options) :
    instFind l key = none ↔ key ∉ l.map Prod.fst := by
  induction l with
  | nil => exact ⟨fun _ h => absurd h (List.not_mem_nil _), fun _ => rfl⟩
  | cons e rest ih =>
    obtain ⟨k, i⟩ := e
    by_cases hk : k = key
    · simp only [instFind, hk, if_true, List.map_cons, List.mem_cons, true_or,
        not_true_eq_false, iff_false]
      intro h; cases h
    · simp only [instFind, hk, if_false, ih, List.map_cons, List.mem_cons]
      constructor
      · intro h g
        rcases g with g | g
        · exact hk g.symm
        · exact h g
      · intro h g
        exact h (Or.inr g)

theorem instFind_mem (l : List (Options × Instance)) (key : Options) (i : Instance)
    (h : instFind l key = some i) : (key, i) ∈ l := by
  induction l with
  | nil => simp [instFind] at h
  | cons e rest ih =>
    obtain ⟨k, j⟩ := e
    by_cases hk : k = key
    · simp only [instFind, hk, if_true, Option.some.injEq] at h
      subst h; subst hk
      exact List.mem_cons_self _ _
    · simp only [instFind, hk, if_false] at h
      exact List.mem_cons_of_mem _ (ih h)

theorem instFind_filter (l : List (Options × Instance)) (key gone : Options)
    (hne : gone ≠ key) :
    instFind (l.filter (fun e => decide (e.1 ≠ gone))) key = instFind l key := by
  induction l with
  | nil => rfl
  | cons e rest ih =>
    obtain ⟨k, j⟩ := e
    by_cases hg : k = gone
    · have hk : ¬ k = key := by rw [hg]; exact hne
      rw [List.filter_cons_of_neg (by simpa using hg), ih]
      simp only [instFind, hk, if_false]
    · rw [List.filter_cons_of_pos (by simpa using hg)]
      by_cases hk : k = key
      · simp only [instFind, hk, if_true]
      · simp only [instFind, hk, if_false, ih]

theorem sound_empty : Sound emptyRegistry :=
  ⟨List.nodup_nil, List.nodup_nil, fun _ h => absurd h (List.not_mem_nil _)⟩

theorem sound_getPtr (serialOpens : List Char → Bool) (reg : Registry) (key : Options)
    (h : Sound reg) : Sound (getPtr serialOpens reg key).1 := by
  unfold getPtr
  cases hf : instFind reg.instances key with
  | some i => exact h
  | none =>
    cases hc : create serialOpens key with
    | failed e => exact h
    | ok t =>
      simp only
      refine ⟨?_, ?_, ?_⟩
      · simp only [List.map_cons, List.nodup_cons]
        exact ⟨(instFind_none_iff _ _).mp hf, h.1⟩
      · simp only [List.map_cons, List.nodup_cons]
        refine ⟨?_, h.2.1⟩
        intro hm
        obtain ⟨e, he, hs⟩ := List.mem_map.mp hm
        have := h.2.2 e he
        omega
      · intro e he
        show e.2.serial < reg.constructed + 1
        rcases List.mem_cons.mp he with rfl | he
        · exact Nat.lt_succ_self _
        · exact Nat.lt_succ_of_lt (h.2.2 e he)

theorem sound_destroy (reg : Registry) (key : Options) (h : Sound reg) :
    Sound (destroy reg key) := by
  unfold destroy
  refine ⟨?_, ?_, ?_⟩
  · exact h.1.sublist ((List.filter_sublist _).map _)
  · exact h.2.1.sublist ((List.filter_sublist _).map _)
  · intro e he
    exact h.2.2 e (List.mem_of_mem_filter he)

theorem sound_serve (serialOpens : List Char → Bool) (reg : Registry) (r : Request)
    (h : Sound reg) : Sound (serve serialOpens reg r) := by
  cases r with
  | getPtr key => exact sound_getPtr serialOpens reg key h
  | destroy key => exact sound_destroy reg key h
  | destroyAll => exact ⟨List.nodup_nil, List.nodup_nil, fun _ g => absurd g (List.not_mem_nil _)⟩

theorem sound_serveAll (serialOpens : List Char → Bool) (reqs : List Request) :
    ∀ reg : Registry, Sound reg → Sound (serveAll serialOpens reg reqs) := by
  induction reqs with
  | nil => intro reg h; exact h
  | cons r rs ih => intro reg h; exact ih _ (sound_serve serialOpens reg r h)

/-- A session that `getPtr` returns is the one stored for the key afterwards. -/
theorem getPtr_stored (serialOpens : List Char → Bool) (reg : Registry) (key : Options)
    (i : Instance) (h : (getPtr serialOpens reg key).2 = Created.ok i) :
    instFind (getPtr serialOpens reg key).1.instances key = some i := by
  unfold getPtr at h ⊢
  cases hf : instFind reg.instances key with
  | some j =>
    rw [hf] at h
    simp only [Created.ok.injEq] at h
    simp only [hf, h]
  | none =>
    rw [hf] at h
    cases hc : create serialOpens key with
    | failed e => rw [hc] at h; cases h
    | ok t =>
      rw [hc] at h
      simp only [Created.ok.injEq] at h
      simp only [instFind, if_true, h]

/-- A stored session is returned without any construction. -/
theorem getPtr_found (serialOpens : List Char → Bool) (reg : Registry) (key : Options)
    (i : Instance) (h : instFind reg.instances key = some i) :
    getPtr serialOpens reg key = (reg, Created.ok i) := by
  unfold getPtr
  rw [h]

/-- A request that does not destroy the key keeps its session. -/
theorem serve_keeps (serialOpens : List Char → Bool) (reg : Registry) (key : Options)
    (i : Instance) (r : Request) (h : instFind reg.instances key = some i)
    (h1 : r ≠ Request.destroy key) (h2 : r ≠ Request.destroyAll) :
    instFind (serve serialOpens reg r).instances key = some i := by
  cases r with
  | getPtr k =>
    simp only [serve, getPtr]
    cases hf : instFind reg.instances k with
    | some j => exact h
    | none =>
      cases hc : create serialOpens k with
      | failed e => exact h
      | ok t =>
        have hk : ¬ k = key := by
          intro e; rw [e, h] at hf; cases hf
        simp only [instFind, hk, if_false, h]
  | destroy k =>
    have hk : k ≠ key := fun e => h1 (by rw [e])
    simp only [serve, destroy]
    rw [instFind_filter _ _ _ hk, h]
  | destroyAll => exact absurd rfl h2

theorem serveAll_keeps (serialOpens : List Char → Bool) (key : Options) (i : Instance)
    (reqs : List Request) :
    ∀ reg : Registry, instFind reg.instances key = some i → keepsKey key reqs →
      instFind (serveAll serialOpens reg reqs).instances key = some i := by
  induction reqs with
  | nil => intro reg h _; exact h
  | cons r rs ih =>
    intro reg h hk
    have hr := hk r (List.mem_cons_self _ _)
    exact ih _ (serve_keeps serialOpens reg key i r h hr.1 hr.2)
      (fun q hq => hk q (List.mem_cons_of_mem _ hq))

/-- Two different keys of a sound registry hold different sessions. -/
theorem sound_distinct (reg : Registry) (h : Sound reg) (k1 k2 : Options) (i1 i2 : Instance)
    (hne : k1 ≠ k2) (h1 : instFind reg.instances k1 = some i1)
    (h2 : instFind reg.instances k2 = some i2) : i1.serial ≠ i2.serial := by
  intro hs
  have m1 := instFind_mem _ _ _ h1
  have m2 := instFind_mem _ _ _ h2
  have := List.inj_on_of_nodup_map h.2.1 m1 m2 hs
  exact hne (congrArg Prod.fst this)

/-- A key without a session whose construction succeeds: `getPtr` constructs
the session, counts it, stores it under the key and returns it. -/
theorem getPtr_creates (serialOpens : List Char → Bool) (reg : Registry) (key : Options)
    (t : Transport) (hf : instFind reg.instances key = none)
    (hc : create serialOpens key = Created.ok t) :
    getPtr serialOpens reg key
      = ({ instances := (key, { serial := reg.constructed, transport := t }) :: reg.instances,
           constructed := reg.constructed + 1 },
         Created.ok { serial := reg.constructed, transport := t }) := by
  unfold getPtr
  rw [hf, hc]

/-- C11: after every sequence of `getPtr`, `destroy` and `destroyAll`
requests the registry holds at most one session per key and no session under
two keys.  A request `getPtr` with a key whose construction succeeds returns
a session and leaves it stored under the key: when the key has no session it
is a new one, made by that one construction and counted, and when the key
has a session it is that session and nothing is constructed or changed.  A
session returned by `getPtr` for a key is returned again by every later
`getPtr` with an equal key, as long as no request in between destroys it, and
the later request constructs nothing (it leaves the registry and the count
of constructions as they are).  Requests with different keys return
different sessions. -/
theorem one_session_per_key (serialOpens : List Char → Bool) (reqs : List Request) :
    ((serveAll serialOpens emptyRegistry reqs).instances.map Prod.fst).Nodup ∧
    ((serveAll serialOpens emptyRegistry reqs).instances.map (fun e => e.2.serial)).Nodup ∧
    (∀ (key : Options) (i : Instance) (between : List Request),
      (getPtr serialOpens (serveAll serialOpens emptyRegistry reqs) key).2 = Created.ok i →
      keepsKey key between →
      getPtr serialOpens
          (serveAll serialOpens
            (getPtr serialOpens (serveAll serialOpens emptyRegistry reqs) key).1 between) key
        = (serveAll serialOpens
            (getPtr serialOpens (serveAll serialOpens emptyRegistry reqs) key).1 between,
           Created.ok i)) ∧
    (∀ (k1 k2 : Options) (i1 i2 : Instance), k1 ≠ k2 →
      (getPtr serialOpens (serveAll serialOpens emptyRegistry reqs) k1).2 = Created.ok i1 →
      (getPtr serialOpens
          (getPtr serialOpens (serveAll serialOpens emptyRegistry reqs) k1).1 k2).2
        = Created.ok i2 →
      i1.serial ≠ i2.serial) ∧
    (∀ (key : Options) (t : Transport), create serialOpens key = Created.ok t →
      ∃ i : Instance,
        (getPtr serialOpens (serveAll serialOpens emptyRegistry reqs) key).2 = Created.ok i ∧
        instFind (getPtr serialOpens (serveAll serialOpens emptyRegistry reqs) key).1.instances
          key = some i ∧
        (instFind (serveAll serialOpens emptyRegistry reqs).instances key = none →
          i = { serial := (serveAll serialOpens emptyRegistry reqs).constructed,
                transport := t } ∧
          (getPtr serialOpens (serveAll serialOpens emptyRegistry reqs) key).1.constructed
            = (serveAll serialOpens emptyRegistry reqs).constructed + 1) ∧
        (∀ j : Instance,
          instFind (serveAll serialOpens emptyRegistry reqs).instances key = some j →
          i = j ∧
          (getPtr serialOpens (serveAll serialOpens emptyRegistry reqs) key).1
            = serveAll serialOpens emptyRegistry reqs)) := by
  have hs := sound_serveAll serialOpens reqs emptyRegistry sound_empty
  refine ⟨hs.1, hs.2.1, ?_, ?_, ?_⟩
  · intro key i between hg hk
    exact getPtr_found serialOpens _ key i
      (serveAll_keeps serialOpens key i between _ (getPtr_stored serialOpens _ key i hg) hk)
  · intro k1 k2 i1 i2 hne h1 h2
    have hs1 := sound_getPtr serialOpens _ k1 hs
    have hs2 := sound_getPtr serialOpens _ k2 hs1
    have f1 := getPtr_stored serialOpens _ k1 i1 h1
    have f2 := getPtr_stored serialOpens _ k2 i2 h2
    have f1' := serve_keeps serialOpens _ k1 i1 (Request.getPtr k2) f1
      (by intro e; cases e) (by intro e; cases e)
    exact sound_distinct _ hs2 k1 k2 i1 i2 hne f1' f2
  · intro key t hc
    cases hf : instFind (serveAll serialOpens emptyRegistry reqs).instances key with
    | none =>
      have hg := getPtr_creates serialOpens _ key t hf hc
      refine ⟨{ serial := (serveAll serialOpens emptyRegistry reqs).constructed,
                transport := t }, ?_, ?_, ?_, ?_⟩
      · rw [hg]
      · rw [hg]; simp only [instFind, if_true]
      · intro _; exact ⟨rfl, by rw [hg]⟩
      · intro j hj; cases hj
    | some j =>
      have hg := getPtr_found serialOpens _ key j hf
      refine ⟨j, ?_, ?_, ?_, ?_⟩
      · rw [hg]
      · rw [hg]; exact hf
      · intro h; cases h
      · intro j2 hj2
        simp only [Option.some.injEq] at hj2
        exact ⟨hj2, by rw [hg]⟩

/-- The first request for the server at port 2460 constructs session 0; the
request repeated after a request for the server at port 2461 and the
destruction of that one returns session 0 again and constructs nothing; the
request for the other server returns session 1. -/
theorem one_session_per_key_witness :
    (getPtr (fun _ => true) emptyRegistry (serverKey "2460".toList)).2
      = Created.ok { serial := 0, transport := Transport.ambeServer "localhost".toList 2460 } ∧
    (∃ i : Instance,
      (getPtr (fun _ => true) emptyRegistry (serverKey "2460".toList)).2 = Created.ok i ∧
      i = { serial := 0, transport := Transport.ambeServer "localhost".toList 2460 } ∧
      (getPtr (fun _ => true) emptyRegistry (serverKey "2460".toList)).1.constructed = 1) ∧
    getPtr (fun _ => true)
        (serveAll (fun _ => true)
          (getPtr (fun _ => true) (serveAll (fun _ => true) emptyRegistry [])
            (serverKey "2460".toList)).1
          [Request.getPtr (serverKey "2461".toList), Request.destroy (serverKey "2461".toList)])
        (serverKey "2460".toList)
      = (serveAll (fun _ => true)
          (getPtr (fun _ => true) (serveAll (fun _ => true) emptyRegistry [])
            (serverKey "2460".toList)).1
          [Request.getPtr (serverKey "2461".toList), Request.destroy (serverKey "2461".toList)],
         Created.ok { serial := 0,
                      transport := Transport.ambeServer "localhost".toList 2460 }) ∧
    (serveAll (fun _ => true)
        (getPtr (fun _ => true) (serveAll (fun _ => true) emptyRegistry [])
          (serverKey "2460".toList)).1
        [Request.getPtr (serverKey "2461".toList),
         Request.destroy (serverKey "2461".toList)]).constructed = 2 ∧
    (getPtr (fun _ => true)
        (getPtr (fun _ => true) emptyRegistry (serverKey "2460".toList)).1
        (serverKey "2461".toList)).2
      = Created.ok { serial := 1, transport := Transport.ambeServer "localhost".toList 2461 } ∧
    ({ serial := 0, transport := Transport.ambeServer "localhost".toList 2460 } : Instance).serial
      ≠ ({ serial := 1,
           transport := Transport.ambeServer "localhost".toList 2461 } : Instance).serial := by
  refine ⟨by decide, ?_, ?_, by decide, by decide, ?_⟩
  · obtain ⟨i, h1, _, h3, _⟩ := (one_session_per_key (fun _ => true) []).2.2.2.2
      (serverKey "2460".toList) (Transport.ambeServer "localhost".toList 2460) (by decide)
    exact ⟨i, h1, (h3 (by decide)).1, (h3 (by decide)).2⟩
  · exact (one_session_per_key (fun _ => true) []).2.2.1 (serverKey "2460".toList)
      { serial := 0, transport := Transport.ambeServer "localhost".toList 2460 }
      [Request.getPtr (serverKey "2461".toList), Request.destroy (serverKey "2461".toList)]
      (by decide) (by decide)
  · exact (one_session_per_key (fun _ => true) []).2.2.2.1 (serverKey "2460".toList)
      (serverKey "2461".toList)
      { serial := 0, transport := Transport.ambeServer "localhost".toList 2460 }
      { serial := 1, transport := Transport.ambeServer "localhost".toList 2461 }
      (by decide) (by decide) (by decide)

end Dv3k

namespace Dv3k

/-! ## Construction of sessions -/

/-- For a key of the listed kinds the constructors throw. -/
theorem create_configError (serialOpens : List Char → Bool) (options : Options)
    (h : configError options = true) : isThrown (create serialOpens options) = true := by
  unfold configError at h
  unfold create
  cases hT : optFind options "TYPE".toList with
  | none => rfl
  | some type =>
    rw [hT] at h
    simp only at h ⊢
    by_cases hA : type = "AMBESERVER".toList
    · rw [if_pos hA] at h ⊢
      unfold newAmbeServer
      cases hH : optFind options "AMBESERVER_HOST".toList with
      | none => rfl
      | some host =>
        cases hP : optFind options "AMBESERVER_PORT".toList with
        | none => rfl
        | some port => rw [hH, hP] at h; simp at h
    · rw [if_neg hA] at h ⊢
      by_cases hY : type = "TTY".toList
      · rw [if_pos hY] at h ⊢
        unfold newTty
        cases hD : optFind options "TTY_DEVICE".toList with
        | none => rfl
        | some device =>
          cases hB : optFind options "TTY_BAUDRATE".toList with
          | none => rfl
          | some baud =>
            simp only [hD, hB, Bool.or_eq_true, decide_eq_true_eq] at h
            have hbad : Usrp.atoi baud ≠ 230400 ∧ Usrp.atoi baud ≠ 460800 := by
              rcases h with h | h
              · cases h
              · exact h
            simp only [hbad, ne_eq, not_false_eq_true, and_self, if_true]
            rfl
      · rw [if_neg hY]
        rfl

/-- A failed construction leaves the registry as it was. -/
theorem getPtr_failed (serialOpens : List Char → Bool) (reg : Registry) (key : Options)
    (hf : instFind reg.instances key = none)
    (hc : isThrown (create serialOpens key) = true) :
    (getPtr serialOpens reg key).1 = reg ∧
    isThrown (getPtr serialOpens reg key).2 = true := by
  unfold getPtr
  rw [hf]
  cases hcr : create serialOpens key with
  | ok t => rw [hcr] at hc; cases hc
  | failed e =>
    rw [hcr] at hc
    cases e with
    | thrown w => exact ⟨rfl, rfl⟩
    | terminate => cases hc

/-- A request with a key of the listed kinds, on a registry that holds no
session for the key. -/
theorem request_with_bad_key (serialOpens : List Char → Bool) (reg : Registry)
    (options : Options) (h : configError options = true)
    (hf : instFind reg.instances options = none) :
    isThrown (create serialOpens options) = true ∧
    (getPtr serialOpens reg options).1 = reg ∧
    isThrown (getPtr serialOpens reg options).2 = true ∧
    (AudioCodecAmbe_create serialOpens reg options).1 = reg ∧
    isThrown (AudioCodecAmbe_create serialOpens reg options).2 = true ∧
    instFind (AudioCodecAmbe_create serialOpens reg options).1.instances options = none := by
  have hc := create_configError serialOpens options h
  obtain ⟨g1, g2⟩ := getPtr_failed serialOpens reg options hf hc
  have hA : (AudioCodecAmbe_create serialOpens reg options).1 = reg ∧
      isThrown (AudioCodecAmbe_create serialOpens reg options).2 = true := by
    unfold AudioCodecAmbe_create
    cases hT : optFind options "TYPE".toList with
    | none => exact ⟨rfl, rfl⟩
    | some type =>
      simp only
      split_ifs
      · exact ⟨g1, g2⟩
      · exact ⟨rfl, rfl⟩
  refine ⟨hc, g1, g2, hA.1, hA.2, ?_⟩
  rw [hA.1]; exact hf

theorem instFind_sublist_none (l1 l2 : List (Options × Instance)) (key : Options)
    (hs : l1.Sublist l2) (h : instFind l2 key = none) : instFind l1 key = none := by
  rw [instFind_none_iff] at h ⊢
  exact fun g => h ((hs.map Prod.fst).subset g)

/-- No request stores a session under a key whose construction throws. -/
theorem serve_no_bad_key (serialOpens : List Char → Bool) (key : Options)
    (hc : isThrown (create serialOpens key) = true) (reg : Registry) (r : Request)
    (h : instFind reg.instances key = none) :
    instFind (serve serialOpens reg r).instances key = none := by
  cases r with
  | getPtr k =>
    simp only [serve, getPtr]
    cases hf : instFind reg.instances k with
    | some j => exact h
    | none =>
      cases hk : create serialOpens k with
      | failed e => exact h
      | ok t =>
        have hne : ¬ k = key := by
          intro e; rw [e] at hk; rw [hk] at hc; cases hc
        simp only [instFind, hne, if_false, h]
  | destroy k => exact instFind_sublist_none _ _ key (List.filter_sublist _) h
  | destroyAll => rfl

theorem serveAll_no_bad_key (serialOpens : List Char → Bool) (key : Options)
    (hc : isThrown (create serialOpens key) = true) (reqs : List Request) :
    ∀ reg : Registry, instFind reg.instances key = none →
      instFind (serveAll serialOpens reg reqs).instances key = none := by
  induction reqs with
  | nil => intro reg h; exact h
  | cons r rs ih => intro reg h; exact ih _ (serve_no_bad_key serialOpens key hc reg r h)

/-- What does hold of the listed kinds of keys when the baud rate is taken as
the `int` that `atoi` gives (TYPE absent or neither AMBESERVER nor TTY;
AMBESERVER without AMBESERVER_HOST or AMBESERVER_PORT; TTY without TTY_DEVICE
or TTY_BAUDRATE or with an `atoi` value that is neither 230400 nor 460800):
the construction throws an error text; after any sequence of requests the
registry holds no session for such a key, and a request for a session with
it, by `getPtr` or by `AudioCodecAmbe::create`, ends with that exception and
leaves the registry unchanged. -/
theorem config_error_fails (serialOpens : List Char → Bool) (reqs : List Request)
    (options : Options) (h : configError options = true) :
    isThrown (create serialOpens options) = true ∧
    instFind (serveAll serialOpens emptyRegistry reqs).instances options = none ∧
    (getPtr serialOpens (serveAll serialOpens emptyRegistry reqs) options).1
      = serveAll serialOpens emptyRegistry reqs ∧
    isThrown (getPtr serialOpens (serveAll serialOpens emptyRegistry reqs) options).2 = true ∧
    (AudioCodecAmbe_create serialOpens (serveAll serialOpens emptyRegistry reqs) options).1
      = serveAll serialOpens emptyRegistry reqs ∧
    isThrown (AudioCodecAmbe_create serialOpens (serveAll serialOpens emptyRegistry reqs)
      options).2 = true := by
  have hc := create_configError serialOpens options h
  have hf := serveAll_no_bad_key serialOpens options hc reqs emptyRegistry rfl
  obtain ⟨_, g1, g2, g3, g4, _⟩ := request_with_bad_key serialOpens _ options h hf
  exact ⟨hc, hf, g1, g2, g3, g4⟩

theorem config_error_fails_witness :
    isThrown (create (fun _ => true) (ttyKey "115200".toList)) = true ∧
    (getPtr (fun _ => true)
        (serveAll (fun _ => true) emptyRegistry [Request.getPtr (serverKey "2460".toList)])
        (ttyKey "115200".toList)).1
      = serveAll (fun _ => true) emptyRegistry [Request.getPtr (serverKey "2460".toList)] :=
  ⟨(config_error_fails (fun _ => true) [Request.getPtr (serverKey "2460".toList)]
      (ttyKey "115200".toList) (by decide)).1,
   (config_error_fails (fun _ => true) [Request.getPtr (serverKey "2460".toList)]
      (ttyKey "115200".toList) (by decide)).2.2.1⟩

set_option maxRecDepth 20000 in
/-- C12: the key TYPE=TTY, TTY_DEVICE=/dev/ttyUSB0, TTY_BAUDRATE=4295197696
names a baud rate that is neither 230400 nor 460800, and the constructor has
the text "AMBE_TTY_BAUDRATE must be 230400 or 460800" for such a key.  But
it tests the `int` that `atoi` returns, and `atoi` makes 230400 of
4295197696 (its low 32 bits): the construction does not throw, the session
is built with 230400 baud, and `getPtr` caches it under the key.  The key
with 115200, which `atoi` reads as it is written, is refused. -/
theorem baudrate_overflow_accepted :
    (∀ c ∈ "4295197696".toList, c.isDigit = true) ∧
    Usrp.decimalValue "4295197696".toList = 4295197696 ∧
    Usrp.atoi "4295197696".toList = 230400 ∧
    configError (ttyKey "4295197696".toList) = false ∧
    create (fun _ => true) (ttyKey "4295197696".toList)
      = Created.ok (Transport.tty "/dev/ttyUSB0".toList 230400) ∧
    (getPtr (fun _ => true) emptyRegistry (ttyKey "4295197696".toList)).2
      = Created.ok { serial := 0, transport := Transport.tty "/dev/ttyUSB0".toList 230400 } ∧
    instFind (getPtr (fun _ => true) emptyRegistry (ttyKey "4295197696".toList)).1.instances
        (ttyKey "4295197696".toList)
      = some { serial := 0, transport := Transport.tty "/dev/ttyUSB0".toList 230400 } ∧
    create (fun _ => true) (ttyKey "115200".toList)
      = Created.failed
          (CreateError.thrown "*** ERROR: AMBE_TTY_BAUDRATE must be 230400 or 460800.".toList) := by
  refine ⟨by decide, by decide, by decide, by decide, by decide, by decide, by decide,
    by decide⟩

end Dv3k

namespace Dv3k

/-! ## The handshake steps -/

/-- What the dispatch does with a control frame, by handshake state. -/
theorem dispatch_control (sgn : Bool) (s : Session) (f : List Nat)
    (ht : f.getD 3 0 = DV3K_TYPE_CONTROL) :
    dispatch sgn s f =
      match s.m_state with
      | STATE.RESET => prodid s
      | STATE.PRODID => versid { s with m_state := STATE.VERSID }
      | STATE.VERSID => ({ s with m_state := STATE.READY }, [])
      | _ => (s, []) := by
  have e : charVal sgn (f.getD 3 0) = (DV3K_TYPE_CONTROL : Int) := by
    rw [ht]; exact charVal_small sgn _ (by decide)
  simp only [dispatch, e, if_true]

/-- C21: whenever `callback` brings a complete frame to the dispatch, be it a
chunk that is a whole frame or one assembled from several chunks, and the type
byte of that frame is 0x00 (control): in state RESET the call sends the PRODID
request 61 00 01 00 30 and the state becomes PRODID (ProdIdRequested); in state
PRODID it sends the VERSID request 61 00 01 00 31 and the state becomes VERSID
(VersIdRequested); in state VERSID the state becomes READY and nothing is
sent.  Nothing else is sent or forwarded in any of the three cases. -/
theorem handshake_steps (sgn : Bool) (s : Session) (buffer f : List Nat)
    (hf : (callback sgn s buffer).frame = some f) (ht : f.getD 3 0 = 0x00) :
    (s.m_state = STATE.RESET →
      (callback sgn s buffer).st.m_state = STATE.PRODID ∧
      (callback sgn s buffer).effects = [Effect.send [0x61, 0x00, 0x01, 0x00, 0x30]]) ∧
    (s.m_state = STATE.PRODID →
      (callback sgn s buffer).st.m_state = STATE.VERSID ∧
      (callback sgn s buffer).effects = [Effect.send [0x61, 0x00, 0x01, 0x00, 0x31]]) ∧
    (s.m_state = STATE.VERSID →
      (callback sgn s buffer).st.m_state = STATE.READY ∧
      (callback sgn s buffer).effects = []) := by
  obtain ⟨s1, e1, e2, e3⟩ := callback_dispatches sgn s buffer f hf
  rw [e2, e3, dispatch_control sgn s1 f ht, e1]
  refine ⟨?_, ?_, ?_⟩ <;> intro h <;> rw [h] <;> exact ⟨rfl, rfl⟩

theorem handshake_steps_witness :
    ((callback false { m_state := STATE.RESET, stored_bufferlen := 0, t_buffer := [], t_b := 0 }
        prodidResponse).st.m_state = STATE.PRODID ∧
      (callback false { m_state := STATE.RESET, stored_bufferlen := 0, t_buffer := [], t_b := 0 }
        prodidResponse).effects = [Effect.send [0x61, 0x00, 0x01, 0x00, 0x30]]) ∧
    ((callback false { m_state := STATE.PRODID, stored_bufferlen := 0, t_buffer := [], t_b := 0 }
        prodidResponse).st.m_state = STATE.VERSID ∧
      (callback false { m_state := STATE.PRODID, stored_bufferlen := 0, t_buffer := [], t_b := 0 }
        prodidResponse).effects = [Effect.send [0x61, 0x00, 0x01, 0x00, 0x31]]) ∧
    ((callback true
        { m_state := STATE.VERSID, stored_bufferlen := 6,
          t_buffer := [0x61, 0x00, 0x06, 0x00, 0x31, 0x56], t_b := 0 }
        [0x31, 0x32, 0x30, 0x00]).st.m_state = STATE.READY ∧
      (callback true
        { m_state := STATE.VERSID, stored_bufferlen := 6,
          t_buffer := [0x61, 0x00, 0x06, 0x00, 0x31, 0x56], t_b := 0 }
        [0x31, 0x32, 0x30, 0x00]).effects = []) :=
  ⟨(handshake_steps false
      { m_state := STATE.RESET, stored_bufferlen := 0, t_buffer := [], t_b := 0 }
      prodidResponse prodidResponse (by decide) (by decide)).1 rfl,
   (handshake_steps false
      { m_state := STATE.PRODID, stored_bufferlen := 0, t_buffer := [], t_b := 0 }
      prodidResponse prodidResponse (by decide) (by decide)).2.1 rfl,
   (handshake_steps true
      { m_state := STATE.VERSID, stored_bufferlen := 6,
        t_buffer := [0x61, 0x00, 0x06, 0x00, 0x31, 0x56], t_b := 0 }
      [0x31, 0x32, 0x30, 0x00] versidResponse (by decide) (by decide)).2.2 rfl⟩

end Dv3k

namespace Dv3k

/-! ## The zero byte written after an extraction -/

/-- With fewer than the expected payload length plus 3 bytes retained, the
position of the zero byte is negative before the conversion to `size_t`, and
after it lies 2^64 minus that amount up, far behind the retained bytes. -/
theorem termPos_wraps (retained stored : Nat) (hs : stored < 2 ^ 32)
    (hr : retained < stored + 3) :
    (retained : Int) - (stored : Int) - (DV3K_HEADER_LEN : Int) + 1 < 0 ∧
    termPos retained stored = 2 ^ 64 + retained - stored - 3 ∧
    retained < termPos retained stored := by
  have h4 : (DV3K_HEADER_LEN : Int) = 4 := rfl
  have hp : (2 : Int) ^ 64 = 18446744073709551616 := by norm_num
  have hn : (2 : Nat) ^ 64 = 18446744073709551616 := by norm_num
  have h32 : (2 : Nat) ^ 32 = 4294967296 := by norm_num
  have e : termPos retained stored = 2 ^ 64 + retained - stored - 3 := by
    unfold termPos
    rw [h4, hp, hn]
    omega
  refine ⟨by rw [h4]; omega, e, ?_⟩
  rw [e, hn]; omega

/-- With at least the expected payload length plus 3 bytes retained, the zero
byte falls on a retained byte. -/
theorem termPos_inside (retained stored : Nat) (hr : stored + 3 ≤ retained)
    (hb : retained < 2 ^ 64) :
    termPos retained stored = retained - stored - 3 ∧ termPos retained stored < retained := by
  have h4 : (DV3K_HEADER_LEN : Int) = 4 := rfl
  have hp : (2 : Int) ^ 64 = 18446744073709551616 := by norm_num
  have hn : (2 : Nat) ^ 64 = 18446744073709551616 := by norm_num
  rw [hn] at hb
  have e : termPos retained stored = retained - stored - 3 := by
    unfold termPos
    rw [h4, hp]
    omega
  exact ⟨e, by rw [e]; omega⟩

/-- The continuation branch of `callback` when the pending bytes and the chunk
hold the expected frame: the frame is the first `stored_bufferlen + 4` bytes,
and the bytes behind it are retained with a zero byte written at `termPos` of
their number and the expected payload length. -/
theorem callback_extracts (sgn : Bool) (s : Session) (c : List Nat)
    (hc : contChunk sgn c) (hpos : 0 < s.stored_bufferlen)
    (hb : s.stored_bufferlen + DV3K_HEADER_LEN < 2 ^ 32)
    (hl : (s.t_buffer ++ c).length < 2 ^ 31)
    (hge : s.stored_bufferlen + DV3K_HEADER_LEN ≤ (s.t_buffer ++ c).length) :
    (callback sgn s c).frame
      = some ((s.t_buffer ++ c).take (s.stored_bufferlen + DV3K_HEADER_LEN)) ∧
    (callback sgn s c).st.t_buffer
      = ((s.t_buffer ++ c).drop (s.stored_bufferlen + DV3K_HEADER_LEN)).set
          (termPos ((s.t_buffer ++ c).length - (s.stored_bufferlen + DV3K_HEADER_LEN))
            s.stored_bufferlen) 0 := by
  obtain ⟨h4, hm⟩ := hc
  have h1 : ¬ c.length < 4 := by omega
  have h3 : (s.t_buffer ++ c).length ≥ (s.stored_bufferlen + DV3K_HEADER_LEN) % 2 ^ 32 := by
    rw [Nat.mod_eq_of_lt hb]; omega
  have hH : (DV3K_HEADER_LEN : Int) = 4 := rfl
  have hH4 : DV3K_HEADER_LEN = 4 := rfl
  have hp31 : (2 : Nat) ^ 31 = 2147483648 := by norm_num
  have hp32 : (2 : Nat) ^ 32 = 4294967296 := by norm_num
  have hi32 : (2 : Int) ^ 32 = 4294967296 := by norm_num
  have hbm : Int.bmod ((s.t_buffer ++ c).length : Int) (2 ^ 32) = ((s.t_buffer ++ c).length : Int) := by
    rw [Int.bmod_def]
    have hq : ((2 ^ 32 : Nat) : Int) = 4294967296 := by norm_num
    rw [hq]
    rw [hp31] at hl
    split_ifs with hh <;> omega
  have hnew : toU32 (Int.bmod ((s.t_buffer ++ c).length : Int) (2 ^ 32)
        - (s.stored_bufferlen : Int) - (DV3K_HEADER_LEN : Int))
      = (s.t_buffer ++ c).length - (s.stored_bufferlen + DV3K_HEADER_LEN) := by
    rw [hbm, hH]
    unfold toU32
    rw [hi32, hH4]
    rw [hH4] at hge
    omega
  simp only [callback, h1, hm, hpos, h3, if_false, if_true]
  refine ⟨by rw [Nat.mod_eq_of_lt hb], ?_⟩
  rw [(dispatch_buffers sgn _ _).1]
  simp only
  rw [hnew, Nat.mod_eq_of_lt hb, List.take_of_length_le (by rw [List.length_drop])]

/-- C24: whenever the continuation branch of `callback` extracts a complete
frame and retains fewer bytes than the expected payload length plus 3, as it
does each time the chunk ends with the frame (no byte retained), the position
of the terminating zero byte, retained length - expected payload length - 4 + 1,
is negative; converted to `size_t` it lies behind every retained byte, so the
write of line 244 falls outside the pending bytes.  (The retained length had
the frame length subtracted already, and the position subtracts it again.)
In the embedding a write outside the list changes nothing, so the retained
bytes are the ones behind the frame; in the program the byte written is
outside the data of `t_buffer`. -/
theorem zero_write_outside (sgn : Bool) (s : Session) (c : List Nat)
    (hc : contChunk sgn c) (hpos : 0 < s.stored_bufferlen)
    (hb : s.stored_bufferlen + DV3K_HEADER_LEN < 2 ^ 32)
    (hl : (s.t_buffer ++ c).length < 2 ^ 31)
    (hge : s.stored_bufferlen + DV3K_HEADER_LEN ≤ (s.t_buffer ++ c).length)
    (hr : (s.t_buffer ++ c).length - (s.stored_bufferlen + DV3K_HEADER_LEN)
      < s.stored_bufferlen + 3) :
    (callback sgn s c).frame
      = some ((s.t_buffer ++ c).take (s.stored_bufferlen + DV3K_HEADER_LEN)) ∧
    (callback sgn s c).st.t_buffer
      = (s.t_buffer ++ c).drop (s.stored_bufferlen + DV3K_HEADER_LEN) ∧
    (((s.t_buffer ++ c).length - (s.stored_bufferlen + DV3K_HEADER_LEN) : Nat) : Int)
      - (s.stored_bufferlen : Int) - (DV3K_HEADER_LEN : Int) + 1 < 0 ∧
    (callback sgn s c).st.t_buffer.length
      < termPos ((s.t_buffer ++ c).length - (s.stored_bufferlen + DV3K_HEADER_LEN))
          s.stored_bufferlen := by
  obtain ⟨e1, e2⟩ := callback_extracts sgn s c hc hpos hb hl hge
  have h4 : DV3K_HEADER_LEN = 4 := rfl
  have h32 : (2 : Nat) ^ 32 = 4294967296 := by norm_num
  obtain ⟨w1, _, w3⟩ := termPos_wraps
    ((s.t_buffer ++ c).length - (s.stored_bufferlen + DV3K_HEADER_LEN)) s.stored_bufferlen
    (by rw [h4, h32] at hb; rw [h32]; omega) hr
  have e3 : (callback sgn s c).st.t_buffer
      = (s.t_buffer ++ c).drop (s.stored_bufferlen + DV3K_HEADER_LEN) := by
    rw [e2]
    apply List.set_eq_of_length_le
    rw [List.length_drop]
    exact Nat.le_of_lt w3
  refine ⟨e1, e3, w1, ?_⟩
  rw [e3, List.length_drop]
  exact w3

theorem zero_write_outside_witness :
    (callback false
        { m_state := STATE.VERSID, stored_bufferlen := 6,
          t_buffer := [0x61, 0x00, 0x06, 0x00, 0x31, 0x56], t_b := 0 }
        [0x31, 0x32, 0x30, 0x00]).frame = some versidResponse ∧
    (callback false
        { m_state := STATE.VERSID, stored_bufferlen := 6,
          t_buffer := [0x61, 0x00, 0x06, 0x00, 0x31, 0x56], t_b := 0 }
        [0x31, 0x32, 0x30, 0x00]).st.t_buffer = [] ∧
    ((0 : Nat) : Int) - ((6 : Nat) : Int) - (DV3K_HEADER_LEN : Int) + 1 = -9 ∧
    termPos 0 6 = 2 ^ 64 - 9 ∧
    (callback false
        { m_state := STATE.VERSID, stored_bufferlen := 6,
          t_buffer := [0x61, 0x00, 0x06, 0x00, 0x31, 0x56], t_b := 0 }
        [0x31, 0x32, 0x30, 0x00]).st.t_buffer.length < termPos 0 6 :=
  ⟨(zero_write_outside false
      { m_state := STATE.VERSID, stored_bufferlen := 6,
        t_buffer := [0x61, 0x00, 0x06, 0x00, 0x31, 0x56], t_b := 0 }
      [0x31, 0x32, 0x30, 0x00] (by decide) (by decide) (by decide) (by decide) (by decide)
      (by decide)).1,
   by decide, by decide, by decide,
   (zero_write_outside false
      { m_state := STATE.VERSID, stored_bufferlen := 6,
        t_buffer := [0x61, 0x00, 0x06, 0x00, 0x31, 0x56], t_b := 0 }
      [0x31, 0x32, 0x30, 0x00] (by decide) (by decide) (by decide) (by decide) (by decide)
      (by decide)).2.2.2⟩

end Dv3k

namespace Usrp

/-! ## Stream-state changes -/

/-- C22, the claim as written fails: the detector on the side coming from the
logic core reports idle while the detector on the other side is active.  The
overall idle state is false, and is reported as false, yet the handler sends a
stop message, clears the identified flag and emits the transmission_stop event:
it tests the `is_idle` it is given, not `isIdle()`. -/
theorem stop_while_outbound_active :
    isIdle { fresh (fun _ => 0) 0 with con_in_idle := true, con_out_idle := false } = false ∧
    (onLogicConInStreamStateChanged (fun _ => true)
        { fresh (fun _ => 0) 0 with con_in_idle := true, con_out_idle := false }
        false true).idle = false ∧
    (onLogicConInStreamStateChanged (fun _ => true)
        { fresh (fun _ => 0) 0 with con_in_idle := true, con_out_idle := false }
        false true).sent = [{ kind := MsgKind.stop, seq := 1, audio := [] }] ∧
    (onLogicConInStreamStateChanged (fun _ => true)
        { fresh (fun _ => 0) 0 with con_in_idle := true, con_out_idle := false }
        false true).events = ["transmission_stop 0".toList] := by
  refine ⟨by decide, by decide, by decide, by decide⟩

/-- C22, amended: a stream-state change on the side coming from the logic core
sends a stop message exactly when the detector of that side reports idle with
the change (and the message can be packed), whatever the state of the other
detector and whatever the overall idle state; a stream-state change on the
side going to the logic core never sends a message.  Both changes set the
overall idle state to the conjunction of the two detectors. -/
theorem stop_on_inbound_idle (pack : UdpMsg → Bool) (s : Logic) (is_active is_idle : Bool) :
    (onLogicConInStreamStateChanged pack s is_active is_idle).sent
      = (if is_idle && pack { kind := MsgKind.stop, seq := nextSeq s.udp_seq, audio := [] }
         then s.sent ++ [{ kind := MsgKind.stop, seq := nextSeq s.udp_seq, audio := [] }]
         else s.sent) ∧
    (onLogicConInStreamStateChanged pack s is_active is_idle).idle = isIdle s ∧
    (onLogicConOutStreamStateChanged s is_active is_idle).sent = s.sent ∧
    (onLogicConOutStreamStateChanged s is_active is_idle).idle = isIdle s := by
  refine ⟨?_, ?_, rfl, rfl⟩
  · cases is_idle
    · rfl
    · cases hp : pack { kind := MsgKind.stop, seq := nextSeq s.udp_seq, audio := [] }
      · simp [onLogicConInStreamStateChanged, sendStopMsg, checkIdle, setIdle, hp]
      · simp [onLogicConInStreamStateChanged, sendStopMsg, checkIdle, setIdle, hp,
          processEvent, sendUdpMessage]
  · cases is_idle
    · rfl
    · cases hp : pack { kind := MsgKind.stop, seq := nextSeq s.udp_seq, audio := [] }
      · simp [onLogicConInStreamStateChanged, sendStopMsg, checkIdle, setIdle, hp, isIdle]
      · simp [onLogicConInStreamStateChanged, sendStopMsg, checkIdle, setIdle, hp,
          processEvent, sendUdpMessage, isIdle]

end Usrp

namespace Usrp

/-! ## The bounds of the accumulation buffer -/

/-- The loop of `sendEncodedAudio`, whether packing succeeds or not, leaves
fewer than 160 samples stored and the array as long as it was. -/
theorem drain_buffer (pack : UdpMsg → Bool) (fuel : Nat) :
    ∀ s : Logic, s.stored_samples ≤ fuel → s.stored_samples ≤ s.r_buf.length →
      (drain pack fuel s).stored_samples = s.stored_samples % USRP_AUDIO_FRAME_LEN ∧
      (drain pack fuel s).r_buf.length = s.r_buf.length := by
  have h160 : USRP_AUDIO_FRAME_LEN = 160 := rfl
  induction fuel with
  | zero =>
    intro s h0 _
    have hz : s.stored_samples = 0 := by omega
    simp [drain, hz]
  | succ n ih =>
    intro s hf hl
    by_cases hge : USRP_AUDIO_FRAME_LEN ≤ s.stored_samples
    · rw [drain_round _ n s hge]
      have hX : ((s.r_buf.drop USRP_AUDIO_FRAME_LEN).take
          (s.stored_samples - USRP_AUDIO_FRAME_LEN)).length
            = s.stored_samples - USRP_AUDIO_FRAME_LEN := by
        rw [List.length_take, List.length_drop]; omega
      obtain ⟨i1, i2⟩ := ih
        { sendAudioMsg pack s
            (setAudioData { kind := MsgKind.voice, seq := 0, audio := [] } s.r_buf) with
          r_buf := memcpy s.r_buf 0
            ((s.r_buf.drop USRP_AUDIO_FRAME_LEN).take (s.stored_samples - USRP_AUDIO_FRAME_LEN))
          stored_samples := s.stored_samples - USRP_AUDIO_FRAME_LEN }
        (by simp only; omega)
        (by simp only; rw [memcpy_length _ _ _ (by rw [hX]; omega)]; omega)
      simp only at i1 i2
      refine ⟨?_, ?_⟩
      · rw [i1, h160]; omega
      · rw [i2, memcpy_length _ _ _ (by rw [hX]; omega)]
    · have hlt : s.stored_samples < USRP_AUDIO_FRAME_LEN := Nat.not_le.mp hge
      rw [drain_done _ _ s hlt]
      exact ⟨(Nat.mod_eq_of_lt hlt).symm, rfl⟩

/-- One `sendEncodedAudio` call whose chunk fits behind the stored samples,
whether packing succeeds or not: the call returns, with fewer than 160 samples
stored and the array as long as it was. -/
theorem sendEncodedAudio_buffer (pack : UdpMsg → Bool) (s : Logic) (t : List Int)
    (h : s.stored_samples + t.length ≤ s.r_buf.length) :
    ∃ s1 : Logic, sendEncodedAudio pack s t (2 * t.length) = some s1 ∧
      s1.stored_samples = (s.stored_samples + t.length) % USRP_AUDIO_FRAME_LEN ∧
      s1.r_buf.length = s.r_buf.length := by
  have hlen : 2 * t.length * 1 / 2 = t.length := by omega
  obtain ⟨s0f, hs0f, f1, f2⟩ : ∃ s0f : Logic,
      (if (if (!s.ident) = true then sendMetaMsg pack s else s).flush_timer_enabled = true
        then { (if (!s.ident) = true then sendMetaMsg pack s else s) with
                flush_timer_enabled := false }
        else (if (!s.ident) = true then sendMetaMsg pack s else s)) = s0f ∧
      s0f.r_buf = s.r_buf ∧ s0f.stored_samples = s.stored_samples := by
    refine ⟨_, rfl, ?_⟩
    obtain ⟨m1, m2⟩ := sendMetaMsg_buffer pack s
    split_ifs <;> first | exact ⟨m1, m2⟩ | exact ⟨rfl, rfl⟩
  have hfit : ¬ (t.length < t.length ∨ s0f.r_buf.length < s0f.stored_samples + t.length) := by
    rw [f1, f2]; omega
  have hE : sendEncodedAudio pack s t (2 * t.length)
      = some (drain pack (s0f.stored_samples + t.length)
          { s0f with r_buf := memcpy s0f.r_buf s0f.stored_samples t,
                     stored_samples := s0f.stored_samples + t.length }) := by
    unfold sendEncodedAudio
    simp only [hlen, hs0f, hfit, if_false, List.take_length]
  obtain ⟨d1, d2⟩ := drain_buffer pack (s0f.stored_samples + t.length)
    { s0f with r_buf := memcpy s0f.r_buf s0f.stored_samples t,
               stored_samples := s0f.stored_samples + t.length }
    (le_refl _)
    (by simp only; rw [memcpy_length _ _ _ (by rw [f1, f2]; exact h), f1, f2]; exact h)
  simp only at d1 d2
  refine ⟨_, hE, ?_, ?_⟩
  · rw [d1, f2]
  · rw [d2, memcpy_length _ _ _ (by rw [f1, f2]; exact h), f1]

/-- A run of `sendEncodedAudio` calls with chunks of at most 160 samples each
returns, with fewer than 160 samples stored and an array of 320 samples. -/
theorem sendEncodedAudioAll_buffer (pack : UdpMsg → Bool) (chunks : List (List Int)) :
    ∀ s : Logic, s.r_buf.length = 2 * USRP_AUDIO_FRAME_LEN →
      s.stored_samples < USRP_AUDIO_FRAME_LEN →
      (∀ t ∈ chunks, t.length ≤ USRP_AUDIO_FRAME_LEN) →
      ∃ s1 : Logic, sendEncodedAudioAll pack s chunks = some s1 ∧
        s1.stored_samples < USRP_AUDIO_FRAME_LEN ∧
        s1.r_buf.length = 2 * USRP_AUDIO_FRAME_LEN := by
  have h160 : USRP_AUDIO_FRAME_LEN = 160 := rfl
  induction chunks with
  | nil =>
    intro s hr hs _
    exact ⟨s, rfl, hs, hr⟩
  | cons t ts ih =>
    intro s hr hs ht
    have htl := ht t (List.mem_cons_self _ _)
    obtain ⟨s1, e1, e2, e3⟩ := sendEncodedAudio_buffer pack s t (by rw [hr]; omega)
    obtain ⟨s2, g1, g2, g3⟩ := ih s1 (by rw [e3, hr])
      (by rw [e2]; exact Nat.mod_lt _ (by rw [h160]; norm_num))
      (fun u hu => ht u (List.mem_cons_of_mem _ hu))
    exact ⟨s2, by simp only [sendEncodedAudioAll, e1, g1], g2, g3⟩

/-- C23: for every sequence of `sendEncodedAudio` calls that each carry at most
160 samples, made on an object whose `r_buf` has its 320 samples and holds no
stored sample, whether packing succeeds or not: each of the calls returns; after
every number `n` of calls the stored sample count is below 160 and `r_buf` still
has 320 samples; and the copy of the next call, which starts behind the stored
samples, ends within the 320 samples, so that this call returns as well. -/
theorem stored_samples_bounded (pack : UdpMsg → Bool) (s : Logic) (chunks : List (List Int))
    (hr : s.r_buf.length = 2 * USRP_AUDIO_FRAME_LEN) (h0 : s.stored_samples = 0)
    (hsmall : ∀ t ∈ chunks, t.length ≤ USRP_AUDIO_FRAME_LEN) (n : Nat) :
    ∃ s1 : Logic, sendEncodedAudioAll pack s (chunks.take n) = some s1 ∧
      s1.stored_samples < USRP_AUDIO_FRAME_LEN ∧
      s1.r_buf.length = 2 * USRP_AUDIO_FRAME_LEN ∧
      ∀ t, chunks.get? n = some t →
        s1.stored_samples + t.length ≤ 2 * USRP_AUDIO_FRAME_LEN ∧
        ∃ s2 : Logic, sendEncodedAudio pack s1 t (2 * t.length) = some s2 ∧
          s2.stored_samples < USRP_AUDIO_FRAME_LEN := by
  have h160 : USRP_AUDIO_FRAME_LEN = 160 := rfl
  obtain ⟨s1, e1, e2, e3⟩ := sendEncodedAudioAll_buffer pack (chunks.take n) s hr
    (by rw [h0, h160]; norm_num) (fun t ht => hsmall t (List.mem_of_mem_take ht))
  refine ⟨s1, e1, e2, e3, ?_⟩
  intro t ht
  have hmem : t ∈ chunks := List.get?_mem ht
  have htl := hsmall t hmem
  have hfit : s1.stored_samples + t.length ≤ 2 * USRP_AUDIO_FRAME_LEN := by omega
  obtain ⟨s2, g1, g2, _⟩ := sendEncodedAudio_buffer pack s1 t (by rw [e3]; exact hfit)
  exact ⟨hfit, s2, g1, by rw [g2]; exact Nat.mod_lt _ (by rw [h160]; norm_num)⟩

theorem stored_samples_bounded_witness :
    ∃ s1 : Logic,
      sendEncodedAudioAll (fun _ => true) (fresh (fun _ => 0) 0)
        ([List.replicate 100 1, List.replicate 160 2, List.replicate 60 3].take 2) = some s1 ∧
      s1.stored_samples < USRP_AUDIO_FRAME_LEN ∧
      s1.r_buf.length = 2 * USRP_AUDIO_FRAME_LEN ∧
      ∀ t, [List.replicate 100 1, List.replicate 160 2, List.replicate 60 3].get? 2 = some t →
        s1.stored_samples + t.length ≤ 2 * USRP_AUDIO_FRAME_LEN ∧
        ∃ s2 : Logic, sendEncodedAudio (fun _ => true) s1 t (2 * t.length) = some s2 ∧
          s2.stored_samples < USRP_AUDIO_FRAME_LEN :=
  stored_samples_bounded (fun _ => true) (fresh (fun _ => 0) 0)
    [List.replicate 100 1, List.replicate 160 2, List.replicate 60 3]
    (by simp only [fresh, List.length_map, List.length_range]; rfl) rfl
    (by intro t ht; simp only [List.mem_cons, List.mem_singleton, List.not_mem_nil, or_false] at ht
        rcases ht with rfl | rfl | rfl <;> simp [USRP_AUDIO_FRAME_LEN])
    2

end Usrp

namespace Usrp

/-! ## Samples left over between transmissions -/

/-- One `sendEncodedAudio` call whose chunk fits into `r_buf`, packing
succeeding: the samples of the voice messages it sends, followed by the
samples it keeps, are the samples that were kept before followed by the
chunk. -/
theorem sendEncodedAudio_voice (s : Logic) (t : List Int)
    (h : s.stored_samples + t.length ≤ s.r_buf.length) :
    ∃ s1 : Logic, ∃ new : List UdpMsg,
      sendEncodedAudio (fun _ => true) s t (2 * t.length) = some s1 ∧
      s1.stored_samples = (s.stored_samples + t.length) % USRP_AUDIO_FRAME_LEN ∧
      s1.r_buf.length = s.r_buf.length ∧
      voiceSent s1 = voiceSent s ++ new ∧
      new.length = (s.stored_samples + t.length) / USRP_AUDIO_FRAME_LEN ∧
      (∀ m ∈ new, m.audio.length = USRP_AUDIO_FRAME_LEN) ∧
      (new.map (fun m => m.audio)).flatten ++ pending s1 = pending s ++ t := by
  have hlen : 2 * t.length * 1 / 2 = t.length := by omega
  obtain ⟨s0f, hs0f, f1, f2, f5⟩ : ∃ s0f : Logic,
      (if (if (!s.ident) = true then sendMetaMsg (fun _ => true) s else s).flush_timer_enabled
            = true
        then { (if (!s.ident) = true then sendMetaMsg (fun _ => true) s else s) with
                flush_timer_enabled := false }
        else (if (!s.ident) = true then sendMetaMsg (fun _ => true) s else s)) = s0f ∧
      s0f.r_buf = s.r_buf ∧ s0f.stored_samples = s.stored_samples ∧
      voiceSent s0f = voiceSent s := by
    refine ⟨_, rfl, ?_⟩
    obtain ⟨m1, m2, _, _, m5⟩ := sendMetaMsg_packed s
    split_ifs <;> first | exact ⟨m1, m2, m5⟩ | exact ⟨rfl, rfl, rfl⟩
  have hfit : ¬ (t.length < t.length ∨ s0f.r_buf.length < s0f.stored_samples + t.length) := by
    rw [f1, f2]; omega
  have hE : sendEncodedAudio (fun _ => true) s t (2 * t.length)
      = some (drain (fun _ => true) (s0f.stored_samples + t.length)
          { s0f with r_buf := memcpy s0f.r_buf s0f.stored_samples t,
                     stored_samples := s0f.stored_samples + t.length }) := by
    unfold sendEncodedAudio
    simp only [hlen, hs0f, hfit, if_false, List.take_length]
  obtain ⟨d1, d2, d3, _, new, d5, d6, d7⟩ := drain_spec (s0f.stored_samples + t.length)
    { s0f with r_buf := memcpy s0f.r_buf s0f.stored_samples t,
               stored_samples := s0f.stored_samples + t.length }
    (le_refl _)
    (by simp only; rw [memcpy_length _ _ _ (by rw [f1, f2]; exact h), f1, f2]; exact h)
  simp only at d1 d2 d5
  have hp : pending { s0f with r_buf := memcpy s0f.r_buf s0f.stored_samples t,
                                stored_samples := s0f.stored_samples + t.length }
      = pending s ++ t := by
    simp only [pending]
    rw [memcpy_take _ _ _ (by rw [f1, f2]; omega), f1, f2]
  refine ⟨_, new, hE, ?_, ?_, ?_, d6.trans (by rw [f2]), fun m hm => (d7 m hm).2, ?_⟩
  · rw [d1, f2]
  · rw [d2, memcpy_length _ _ _ (by rw [f1, f2]; exact h), f1]
  · have hv : voiceSent { s0f with r_buf := memcpy s0f.r_buf s0f.stored_samples t,
                                   stored_samples := s0f.stored_samples + t.length }
        = voiceSent s := f5
    have : List.filter (fun m => decide (m.kind = MsgKind.voice)) new = new :=
      List.filter_eq_self.mpr (fun m hm => by simpa using (d7 m hm).1)
    simp only [voiceSent] at hv ⊢
    rw [d5, List.filter_append, hv, this]
  · rw [hp] at d3
    have ha : audioSent (drain (fun _ => true) (s0f.stored_samples + t.length)
          { s0f with r_buf := memcpy s0f.r_buf s0f.stored_samples t,
                     stored_samples := s0f.stored_samples + t.length })
        = audioSent { s0f with r_buf := memcpy s0f.r_buf s0f.stored_samples t,
                               stored_samples := s0f.stored_samples + t.length }
          ++ (new.map (fun m => m.audio)).flatten := by
      simp only [audioSent, d5, List.map_append, List.flatten_append]
    rw [ha, List.append_assoc] at d3
    exact List.append_cancel_left d3

/-- A run of `sendEncodedAudio` calls in which every call returns, packing
succeeding, from a state with fewer than 160 samples stored: the samples of
the voice messages sent during the run, followed by the samples kept, are
the samples that were kept before the run followed by the chunks in call
order. -/
theorem sendEncodedAudioAll_voice (chunks : List (List Int)) :
    ∀ s s1 : Logic, s.stored_samples ≤ s.r_buf.length →
      s.stored_samples < USRP_AUDIO_FRAME_LEN →
      sendEncodedAudioAll (fun _ => true) s chunks = some s1 →
      ∃ new : List UdpMsg,
        s1.stored_samples = (s.stored_samples + chunks.flatten.length) % USRP_AUDIO_FRAME_LEN ∧
        voiceSent s1 = voiceSent s ++ new ∧
        new.length = (s.stored_samples + chunks.flatten.length) / USRP_AUDIO_FRAME_LEN ∧
        (∀ m ∈ new, m.audio.length = USRP_AUDIO_FRAME_LEN) ∧
        (new.map (fun m => m.audio)).flatten ++ pending s1 = pending s ++ chunks.flatten := by
  have h160 : USRP_AUDIO_FRAME_LEN = 160 := rfl
  induction chunks with
  | nil =>
    intro s s1 _ hs h
    simp only [sendEncodedAudioAll, Option.some.injEq] at h
    subst h
    refine ⟨[], ?_, by simp, ?_, by simp, by simp⟩
    · simp only [List.flatten_nil, List.length_nil, Nat.add_zero]
      exact (Nat.mod_eq_of_lt hs).symm
    · simp only [List.flatten_nil, List.length_nil, Nat.add_zero, List.length_nil]
      exact (Nat.div_eq_of_lt hs).symm
  | cons t ts ih =>
    intro s s2 hl hs h
    have hfit : s.stored_samples + t.length ≤ s.r_buf.length := by
      by_contra hc
      have hn := (sendEncodedAudio_eq_none_iff (fun _ => true) s t).mpr (Nat.lt_of_not_le hc)
      simp only [sendEncodedAudioAll, hn] at h
      cases h
    obtain ⟨s1, new1, e1, e2, e3, e4, e7, e5, e6⟩ := sendEncodedAudio_voice s t hfit
    simp only [sendEncodedAudioAll, e1] at h
    have hlt : s1.stored_samples < USRP_AUDIO_FRAME_LEN := by
      rw [e2]; exact Nat.mod_lt _ (by rw [h160]; norm_num)
    have hle : s1.stored_samples ≤ s1.r_buf.length := by
      rw [e3, e2]
      exact Nat.le_trans (Nat.mod_le _ _) hfit
    obtain ⟨new2, g5, g2, g6, g3, g4⟩ := ih s1 s2 hle hlt h
    refine ⟨new1 ++ new2, ?_, ?_, ?_, ?_, ?_⟩
    · rw [g5, e2, List.flatten_cons, List.length_append, h160]; omega
    · rw [g2, e4, List.append_assoc]
    · rw [List.length_append, e7, g6, e2, List.flatten_cons, List.length_append, h160]; omega
    · intro m hm
      rcases List.mem_append.mp hm with hm | hm
      · exact e5 m hm
      · exact g3 m hm
    · rw [List.map_append, List.flatten_append, List.append_assoc, g4, ← List.append_assoc, e6,
        List.flatten_cons, List.append_assoc]

/-- The stop message is no voice message, and `sendStopMsg` touches neither
`r_buf` nor `stored_samples`, whether packing succeeds or not. -/
theorem sendStopMsg_buffer (pack : UdpMsg → Bool) (s : Logic) :
    (sendStopMsg pack s).r_buf = s.r_buf ∧
    (sendStopMsg pack s).stored_samples = s.stored_samples ∧
    voiceSent (sendStopMsg pack s) = voiceSent s := by
  unfold sendStopMsg processEvent checkIdle setIdle sendUdpMessage voiceSent
  simp only
  split_ifs
  · exact ⟨rfl, rfl, rfl⟩
  · refine ⟨rfl, rfl, ?_⟩
    simp

/-- C25: `sendStopMsg` leaves `r_buf` and `stored_samples` as they were, whether
packing succeeds or not.  So when a transmission ends with fewer than 160
samples stored, then in every run of `sendEncodedAudio` calls that follows
the stop message, with chunks of any sizes, packing succeeding, in which every
call returns (no copy goes past `r_buf`): the voice messages sent number
(stored + total) / 160, and the first of them carries the 160 samples that
begin with the samples left over, followed by the first samples of the new
chunks.  Every call returns when `r_buf` has its 320 samples and no chunk
has more than 160 samples. -/
theorem leftover_opens_next_transmission (s : Logic) (chunks : List (List Int)) :
    (∀ pack : UdpMsg → Bool,
      (sendStopMsg pack s).r_buf = s.r_buf ∧
      (sendStopMsg pack s).stored_samples = s.stored_samples) ∧
    (s.stored_samples ≤ s.r_buf.length → s.stored_samples < USRP_AUDIO_FRAME_LEN →
      ∀ s1 : Logic,
        sendEncodedAudioAll (fun _ => true) (sendStopMsg (fun _ => true) s) chunks = some s1 →
        ∃ new : List UdpMsg,
          voiceSent s1 = voiceSent s ++ new ∧
          new.length = (s.stored_samples + chunks.flatten.length) / USRP_AUDIO_FRAME_LEN ∧
          ∀ m, new.head? = some m →
            m.audio = (pending s ++ chunks.flatten).take USRP_AUDIO_FRAME_LEN ∧
            m.audio.take s.stored_samples = pending s) ∧
    (s.r_buf.length = 2 * USRP_AUDIO_FRAME_LEN → s.stored_samples < USRP_AUDIO_FRAME_LEN →
      (∀ t ∈ chunks, t.length ≤ USRP_AUDIO_FRAME_LEN) →
      ∃ s1 : Logic,
        sendEncodedAudioAll (fun _ => true) (sendStopMsg (fun _ => true) s) chunks
          = some s1) := by
  obtain ⟨b1, b2, b3⟩ := sendStopMsg_buffer (fun _ => true) s
  refine ⟨fun pack => ⟨(sendStopMsg_buffer pack s).1, (sendStopMsg_buffer pack s).2.1⟩, ?_, ?_⟩
  · intro hl hs s1 e1
    obtain ⟨new, _, e2, e5, e3, e4⟩ := sendEncodedAudioAll_voice chunks
      (sendStopMsg (fun _ => true) s) s1 (by rw [b1, b2]; exact hl) (by rw [b2]; exact hs) e1
    rw [b2] at e5
    have hp : pending (sendStopMsg (fun _ => true) s) = pending s := by
      simp only [pending, b1, b2]
    rw [hp] at e4
    rw [b3] at e2
    refine ⟨new, e2, e5, ?_⟩
    intro m hm
    cases new with
    | nil => cases hm
    | cons a rest =>
      simp only [List.head?_cons, Option.some.injEq] at hm
      subst hm
      have hla := e3 a (List.mem_cons_self _ _)
      have ha : a.audio = (pending s ++ chunks.flatten).take USRP_AUDIO_FRAME_LEN := by
        rw [← e4, List.map_cons, List.flatten_cons, List.append_assoc, List.take_left' hla]
      have hpl : (pending s).length = s.stored_samples := by
        simp only [pending, List.length_take]; omega
      refine ⟨ha, ?_⟩
      rw [ha, List.take_take, Nat.min_eq_left (Nat.le_of_lt hs), ← hpl, List.take_left]
  · intro hr hs hsmall
    obtain ⟨s1, e1, _⟩ := sendEncodedAudioAll_buffer (fun _ => true) chunks
      (sendStopMsg (fun _ => true) s) (by rw [b1, hr]) (by rw [b2]; exact hs) hsmall
    exact ⟨s1, e1⟩

/-- With 100 samples left over, a chunk of 200 samples gives one voice message:
the 100 samples left over and the first 60 of the chunk. -/
theorem leftover_opens_next_transmission_witness :
    ∃ s1 : Logic, ∃ new : List UdpMsg,
      sendEncodedAudioAll (fun _ => true)
        (sendStopMsg (fun _ => true) { fresh (fun _ => 7) 0 with stored_samples := 100 })
        [List.replicate 200 9] = some s1 ∧
      voiceSent s1 = voiceSent { fresh (fun _ => 7) 0 with stored_samples := 100 } ++ new ∧
      new.length
        = (({ fresh (fun _ => 7) 0 with stored_samples := 100 } : Logic).stored_samples
            + [List.replicate 200 (9 : Int)].flatten.length) / USRP_AUDIO_FRAME_LEN ∧
      (({ fresh (fun _ => 7) 0 with stored_samples := 100 } : Logic).stored_samples
            + [List.replicate 200 (9 : Int)].flatten.length) / USRP_AUDIO_FRAME_LEN = 1 ∧
      ∀ m, new.head? = some m →
        m.audio = (pending { fresh (fun _ => 7) 0 with stored_samples := 100 }
            ++ [List.replicate 200 9].flatten).take USRP_AUDIO_FRAME_LEN ∧
        m.audio.take
            ({ fresh (fun _ => 7) 0 with stored_samples := 100 } : Logic).stored_samples
          = pending { fresh (fun _ => 7) 0 with stored_samples := 100 } := by
  obtain ⟨s1, new0, h1, _⟩ := sendEncodedAudio_voice
    (sendStopMsg (fun _ => true) { fresh (fun _ => 7) 0 with stored_samples := 100 })
    (List.replicate 200 9)
    (by rw [(sendStopMsg_buffer _ _).1, (sendStopMsg_buffer _ _).2.1]
        simp only [fresh, List.length_map, List.length_range, List.length_replicate]
        decide)
  have hrun : sendEncodedAudioAll (fun _ => true)
      (sendStopMsg (fun _ => true) { fresh (fun _ => 7) 0 with stored_samples := 100 })
      [List.replicate 200 9] = some s1 := by
    simp only [sendEncodedAudioAll, h1]
  obtain ⟨new, e1, e2, e3⟩ := (leftover_opens_next_transmission
    { fresh (fun _ => 7) 0 with stored_samples := 100 } [List.replicate 200 9]).2.1
    (by simp only [fresh, List.length_map, List.length_range]; decide)
    (by simp [USRP_AUDIO_FRAME_LEN]) s1 hrun
  refine ⟨s1, new, hrun, e1, e2, ?_, e3⟩
  simp only [List.flatten_cons, List.flatten_nil, List.append_nil, List.length_replicate]
  rfl

end Usrp

namespace Dv3k

/-! ## The handshake and the expected length on the memory of the caller

What was shown of `callback` on byte values holds of `callbackMem` as well,
whatever the caller has done to its memory. -/

/-- A chunk shorter than the header: one PRODID request, nothing else, no
access to memory. -/
theorem callbackMem_short_chunk (sgn : Bool) (s : MemSession) (mem : List Nat)
    (buffer : Buffer) (h : buffer.length < 4) :
    callbackMem sgn s mem buffer
      = Step.done { st := s, mem := mem,
                    effects := [Effect.send [0x61, 0x00, 0x01, 0x00, 0x30]], frame := none } := by
  simp only [callbackMem, h, if_true]
  rfl

/-- A call that dispatches no frame leaves the handshake state as it was and
has no effect but the PRODID request of a short chunk. -/
theorem callbackMem_no_frame (sgn : Bool) (s : MemSession) (mem : List Nat) (buffer : Buffer)
    (o : MemOutcome) (h : callbackMem sgn s mem buffer = Step.done o) (hf : o.frame = none) :
    o.st.m_state = s.m_state := by
  have key : ∀ (s2 : MemSession) (m g : List Nat),
      dispatchMem sgn s2 m g = Step.done o → o.st.m_state = s.m_state := by
    intro s2 m g hd
    rw [(dispatchMem_frame sgn s2 m g o hd).1] at hf
    cases hf
  unfold callbackMem at h
  simp only at h
  repeat' split at h
  all_goals first
    | exact key _ _ _ h
    | (simp only [Step.done.injEq] at h; subst h; exact rfl)
    | cases h

/-- From OFFLINE no call changes the handshake state. -/
theorem callbackMem_offline (sgn : Bool) (s : MemSession) (mem : List Nat) (buffer : Buffer)
    (o : MemOutcome) (h : callbackMem sgn s mem buffer = Step.done o)
    (hs : s.m_state = STATE.OFFLINE) : o.st.m_state = STATE.OFFLINE := by
  cases hf : o.frame with
  | none => rw [callbackMem_no_frame sgn s mem buffer o h hf, hs]
  | some f =>
    obtain ⟨s1, e1, e2, _⟩ := callbackMem_dispatches sgn s mem buffer o f h hf
    rw [e2]
    exact dispatch_offline sgn s1 f (by rw [e1, hs])

/-- A frame of a type other than 0, 1 and 2 changes nothing and has no effect. -/
theorem callbackMem_unknown_type (sgn : Bool) (s : MemSession) (mem : List Nat)
    (buffer : Buffer) (o : MemOutcome) (f : List Nat)
    (h : callbackMem sgn s mem buffer = Step.done o) (hf : o.frame = some f)
    (hb : f.getD 3 0 < 256) (h0 : f.getD 3 0 ≠ 0x00) (h1 : f.getD 3 0 ≠ 0x01)
    (h2 : f.getD 3 0 ≠ 0x02) : o.st.m_state = s.m_state ∧ o.effects = [] := by
  obtain ⟨s1, e1, e2, e3⟩ := callbackMem_dispatches sgn s mem buffer o f h hf
  rw [e2, e3, dispatch_unknown sgn s1 f hb h0 h1 h2]
  exact ⟨e1, rfl⟩

/-- The handshake steps on a control frame. -/
theorem callbackMem_handshake (sgn : Bool) (s : MemSession) (mem : List Nat) (buffer : Buffer)
    (o : MemOutcome) (f : List Nat) (h : callbackMem sgn s mem buffer = Step.done o)
    (hf : o.frame = some f) (ht : f.getD 3 0 = 0x00) :
    (s.m_state = STATE.RESET →
      o.st.m_state = STATE.PRODID ∧ o.effects = [Effect.send [0x61, 0x00, 0x01, 0x00, 0x30]]) ∧
    (s.m_state = STATE.PRODID →
      o.st.m_state = STATE.VERSID ∧ o.effects = [Effect.send [0x61, 0x00, 0x01, 0x00, 0x31]]) ∧
    (s.m_state = STATE.VERSID → o.st.m_state = STATE.READY ∧ o.effects = []) := by
  obtain ⟨s1, e1, e2, e3⟩ := callbackMem_dispatches sgn s mem buffer o f h hf
  rw [e2, e3, dispatch_control sgn s1 f ht, e1]
  refine ⟨?_, ?_, ?_⟩ <;> intro hh <;> rw [hh] <;> exact ⟨rfl, rfl⟩

/-- A chunk that does not begin with the start marker never changes the
expected payload length: the continuation branch does not clear it when it
has extracted a frame. -/
theorem callbackMem_keeps_length (sgn : Bool) (s : MemSession) (mem : List Nat)
    (buffer : Buffer) (bytes : List Nat) (o : MemOutcome)
    (hl : load mem buffer.data buffer.length = some bytes)
    (hm : charVal sgn (bytes.getD 0 0) ≠ (DV3K_START_BYTE : Int))
    (h : callbackMem sgn s mem buffer = Step.done o) :
    o.st.stored_bufferlen = s.stored_bufferlen := by
  have key : ∀ (s2 : MemSession) (m g : List Nat),
      s2.stored_bufferlen = s.stored_bufferlen →
      dispatchMem sgn s2 m g = Step.done o → o.st.stored_bufferlen = s.stored_bufferlen := by
    intro s2 m g hs hd
    unfold dispatchMem at hd
    simp only [Step.done.injEq] at hd
    subst hd
    exact hs
  unfold callbackMem at h
  simp only [hl, hm, if_false] at h
  repeat' split at h
  all_goals first
    | (refine key _ _ _ ?_ h; rfl)
    | (simp only [Step.done.injEq] at h; subst h; exact rfl)
    | cases h

set_option maxRecDepth 20000 in
/-- The version response in two chunks, in a buffer of its own each: the frame
is dispatched and the expected length is still 6 afterwards; the zero byte of
line 244 has been written at address 7, nine bytes in front of the pending
buffer.  With a signed `char` the audio frame of 164 bytes is kept as a
partial frame that expects 4294967200 bytes. -/
theorem callbackMem_examples :
    (feedMem false (constructMem 0 0) exampleMemory
        [(16, versidResponse.take 6), (32, versidResponse.drop 6)]).frames = [versidResponse] ∧
    (feedMem false (constructMem 0 0) exampleMemory
        [(16, versidResponse.take 6), (32, versidResponse.drop 6)]).st.stored_bufferlen = 6 ∧
    (feedMem false (constructMem 0 0) exampleMemory
        [(16, versidResponse.take 6), (32, versidResponse.drop 6)]).mem.take 16
      = List.replicate 7 0xee ++ [0] ++ List.replicate 8 0xee ∧
    (feedMem true (constructMem 0 0) (List.replicate 200 0) [(16, audioFrame160)]).frames
      = [] ∧
    (feedMem true (constructMem 0 0) (List.replicate 200 0)
        [(16, audioFrame160)]).st.stored_bufferlen = 4294967200 ∧
    (feedMem false (constructMem 0 0) (List.replicate 200 0) [(16, audioFrame160)]).frames
      = [audioFrame160] := by
  refine ⟨by decide, by decide, by decide, by decide, by decide, by decide⟩

end Dv3k
